import Mathlib

/-!
# Verification of the PAWX language core (parser / environment / evaluator / timers)

This file is a shallow embedding, in Lean 4, of the PAWX interpreter's core:

* the runtime value model (`src/value.rs`),
* the scope chain with visibility tiers (`src/interpreter/environment.rs`),
* the statement executor (`src/interpreter/statements.rs`),
* the expression evaluator (`src/interpreter/expressions.rs`),
* call dispatch (`src/interpreter/calls.rs`) and the class runtime
  (`src/interpreter/classes.rs`),
* the timer runtime and the main statement loop
  (`src/interpreter/timers.rs`, `src/interpreter/mod.rs`),
* the expression grammar of the recursive-descent parser
  (`src/parser/expressions.rs`, `src/parser/helpers.rs`).

Modelling conventions, chosen once and used throughout:

* Rust `f64` numbers are modelled as `Rat`.  No property verified here
  depends on float-specific behaviour (NaN, infinities, rounding).
* `Rc<RefCell<...>>` / `Arc<...>` cells are modelled as indices into heaps
  carried by an explicit `State`; `Rc::ptr_eq` / `Arc::ptr_eq` become index
  equality, and `clone` of a value copies the index (sharing preserved),
  exactly mirroring the `Clone` impl of `Value`.
* `panic!` inside the evaluator is modelled as `Except.error (RErr.err msg)`.
  The later revision of the codebase threads `Result<_, PawxError>` through
  the same functions and normalises those errors to `Throw` signals at
  `try` boundaries; the embedding follows that revision, which is also how
  `statements.rs` consumes `eval_expr`.
* recursion is bounded by an explicit fuel argument; exhausting fuel yields
  the distinguished error `RErr.fuelOut`, which is never caught or converted
  (unlike runtime errors), so that, with enough fuel, the embedding agrees
  with the unbounded source.
* `HashMap<String, _>` tables (whose iteration order is unspecified in Rust)
  are modelled as association lists updated in place.
* The standard-library surface (spec section 1 declares it out of scope) is
  represented by opaque host-function tags; only `Array.push` / `Array.pop`,
  which the verified properties exercise, are given their source behaviour
  from `src/prototypes/array.rs`.
-/

set_option maxHeartbeats 1000000

namespace Pawx

/-- Visibility of a binding (`environment.rs`, `enum Access`). -/
inductive Access where
  | publicA     -- pride
  | privateA    -- den
  | protectedA  -- lair
deriving Repr, DecidableEq

/-- Lexical token categories (`lexer/token.rs`, `enum TokenKind`). -/
inductive TokenKind where
  | number | string | identifier | keyword | symbol | eof
deriving Repr, DecidableEq

/-- A lexical token (`lexer/token.rs`); the source position is dropped as it
carries no semantic content. -/
structure Token where
  kind : TokenKind
  lexeme : String
deriving Repr, DecidableEq

/-- Runtime failure: `err` models a `panic!` / `PawxError`; `fuelOut` is the
artificial fuel-exhaustion token of the embedding. -/
inductive RErr where
  | err (message : String)
  | fuelOut
deriving Repr, DecidableEq

mutual

/-- Runtime values (`value.rs`, `enum Value`).  Reference-typed payloads
(`Rc`/`Arc` cells) are heap indices into `State`. -/
inductive Value where
  | number (n : Rat)
  | str (s : String)
  | bool (b : Bool)
  | null
  /-- `NativeFunction(Arc<dyn Fn>)`: index into the allocated-closure heap. -/
  | nativeFunction (fid : Nat)
  /-- `Array { values: Rc<RefCell<Vec<Value>>>, proto: HashMap<String,Value> }`. -/
  | array (addr : Nat) (proto : List (String × Value))
  /-- `Object { fields: Rc<RefCell<HashMap<String,Value>>> }`. -/
  | object (addr : Nat)
  | classV (name : String) (methods : List (String × FunctionDef))
      (getters : List (String × FunctionDef)) (setters : List (String × FunctionDef))
      (fields : List (String × Value))
  | instanceV (className : String) (fieldsAddr : Nat)
      (methods : List (String × FunctionDef))
      (getters : List (String × FunctionDef)) (setters : List (String × FunctionDef))
  | furure (inner : Value)
  | errorV (message : String)
  | moduleV (exports : List (String × Value)) (dflt : Option Value)
  | tuple (vs : List Value)
  | regex (pattern : String)

/-- `environment.rs`, `struct FunctionDef` (the `name_span` of the later
revision is dropped: a source span with no semantic content). -/
inductive FunctionDef where
  | mk (params : List Param) (body : List Stmt)
      (returnType : Option String) (isAsync : Bool)

/-- `ast.rs`, `struct Param`. -/
inductive Param where
  | mk (name : String) (dflt : Option Expr) (typeAnnot : Option String)

/-- Expressions (`ast.rs`, `enum Expr`), in the shape the interpreter and the
modular parser construct and match on. -/
inductive Expr where
  | literal (v : Value)
  | identifier (name : String)
  | assign (name : String) (value : Expr)
  | binary (left : Expr) (operator : String) (right : Expr)
  | unary (operator : String) (right : Expr)
  | call (callee : Expr) (arguments : List Expr)
  | get (object : Expr) (name : String)
  | set (object : Expr) (name : String) (value : Expr)
  | index (object : Expr) (idx : Expr)
  | indexAssign (object : Expr) (idx : Expr) (value : Expr)
  | arrayLiteral (values : List Expr)
  | objectLiteral (fields : List (String × Expr))
  | lambda (params : List String) (body : List Stmt)
  | tap (path : Expr)
  | newE (className : String) (arguments : List Expr)
  | postIncrement (name : String)
  | postDecrement (name : String)
  | tupleE (values : List Expr)
  | grouping (e : Expr)
  /-- `Logical` carries its operator as a `Token` in the source
  (`operator.lexeme` is consulted); we keep the token. -/
  | logical (left : Expr) (operator : Token) (right : Expr)

/-- Statements (`ast.rs` / `ast/stmt.rs`, `enum Stmt`). -/
inductive Stmt where
  | expression (e : Expr)
  | publicVar (name : String) (value : Expr)
  | privateVar (name : String) (value : Expr)
  | protectedVar (name : String) (value : Expr)
  | function (name : String) (params : List Param) (body : List Stmt)
      (returnType : Option String) (isAsync : Bool)
  | ret (e : Option Expr)
  | ifS (condition : Expr) (thenBranch : List Stmt) (elseBranch : Option (List Stmt))
  | whileS (condition : Expr) (body : List Stmt)
  | tryS (tryBlock : List Stmt) (catchParam : Option String)
      (catchBlock : Option (List Stmt)) (finallyBlock : Option (List Stmt))
  | clowder (name : String) (base : Option String) (interfaces : List String)
      (members : List ClassMember) (isExported : Bool) (isDefault : Bool)
  | instinct (name : String) (isExported : Bool) (isDefault : Bool)
  | exportS (name : Option String) (value : Expr)
  | throwS (e : Expr)
  | nap (e : Expr)
  | pride (name : String) (body : List Stmt)

/-- Class members (`ast/class.rs`, `enum ClassMember`). -/
inductive ClassMember where
  | field (name : String) (access : Access) (isStatic : Bool)
      (typeAnnot : Option String) (value : Option Expr)
  | methodM (name : String) (access : Access) (isStatic : Bool)
      (params : List Param) (returnType : Option String) (body : List Stmt)
  | getter (name : String) (returnType : Option String) (body : List Stmt)
  | setter (name : String) (paramName : String) (paramType : Option String)
      (body : List Stmt)

end

/-- The behaviours behind allocated `Arc<dyn Fn(Vec<Value>) -> Value>` cells.
Each `Arc::new(...)` in the source allocates a fresh cell; two cells are
`Arc::ptr_eq` iff they are the same heap index. -/
inductive NativeClosure where
  /-- `array_push` (`prototypes/array.rs`). -/
  | arrayPush
  /-- `array_pop` (`prototypes/array.rs`). -/
  | arrayPop
  /-- remaining standard-library host functions (out of scope, spec section 1);
  the tag records the source function's name. -/
  | hostFn (name : String)
  /-- the closure built by `Expr::Lambda` evaluation (`expressions.rs`). -/
  | lambdaC (params : List String) (body : List Stmt) (capturedEnv : Nat)
  /-- the bound-method closure built by `get_instance_property` (`classes.rs`). -/
  | boundMethod (method : FunctionDef) (inst : Value) (envIdx : Nat)
  /-- the `Error(msg)` constructor installed by `interpreter/mod.rs`. -/
  | errorCtor
  /-- `setTimeout` installed by `install_timers` (`timers.rs`). -/
  | setTimeoutC
  /-- `.then` / `.catch` / `.finally` closures on a `Furure`
  (`expressions.rs`), each capturing the resolved value. -/
  | furureThen (resolved : Value)
  | furureCatch (resolved : Value)
  | furureFinally (resolved : Value)

/-- One binding of a scope's value table (`environment.rs`, `EnvEntry`). -/
structure EnvEntry where
  value : Value
  access : Access

/-- One scope (`environment.rs`, `struct Environment`); `parent` is the index
of the parent scope cell.  The vestigial unused `timers` field of the struct
is omitted. -/
structure Scope where
  values : List (String × EnvEntry)
  functions : List (String × FunctionDef)
  parent : Option Nat

/-- `timers.rs`, `struct TimerEntry`.  The cancel flag cell is an index into
the flag heap. -/
structure TimerEntry where
  callback : Value
  isInterval : Bool
  cancelFlag : Option Nat

/-- `timers.rs`, `enum TimerMessage`. -/
inductive TimerMessage where
  | timeout (id : Nat)
  | intervalTick (id : Nat)
deriving Repr, DecidableEq

/-- Ghost trace events used to state temporal properties of the timer
runtime: `register id fid` is appended when `setTimeout` stores entry `id`
whose callback is closure `fid`; `fired id fid` is appended when the pump
invokes that callback. -/
inductive Event where
  | register (id : Nat) (fid : Nat)
  | fired (id : Nat) (fid : Nat)
deriving Repr, DecidableEq

/-- The interpreter's mutable world: every `Rc<RefCell<_>>` / `Arc<_>` cell
family lives in one heap, plus the timer runtime's shared state and the
ghost event log. -/
structure State where
  /-- `Rc<RefCell<Vec<Value>>>` cells backing arrays. -/
  arrays : List (List Value)
  /-- `Rc<RefCell<HashMap<String,Value>>>` cells backing objects and
  instance field maps. -/
  maps : List (List (String × Value))
  /-- `Rc<RefCell<Environment>>` cells forming the scope chain. -/
  scopes : List Scope
  /-- allocated `Arc<dyn Fn(Vec<Value>) -> Value>` cells. -/
  natives : List NativeClosure
  /-- the shared timer table `Rc<RefCell<HashMap<u64, TimerEntry>>>`. -/
  timers : List (Nat × TimerEntry)
  /-- the shared id counter `Rc<RefCell<u64>>` (source starts it at 1). -/
  nextTimerId : Nat
  /-- messages handed to spawned sleeper threads and not yet delivered:
  `tx.send` targets of `std::thread::spawn` bodies. -/
  inflight : List TimerMessage
  /-- ghost event log (see `Event`). -/
  log : List Event

/-- Association-list lookup, mirroring `HashMap::get`. -/
def alistGet {α : Type} (l : List (String × α)) (k : String) : Option α :=
  match l with
  | [] => none
  | (k', v) :: rest => if k' = k then some v else alistGet rest k

/-- Association-list insert, mirroring `HashMap::insert` (replace in place if
present, else add). -/
def alistPut {α : Type} (l : List (String × α)) (k : String) (v : α) :
    List (String × α) :=
  match l with
  | [] => [(k, v)]
  | (k', v') :: rest =>
      if k' = k then (k, v) :: rest else (k', v') :: alistPut rest k v

/-- Lookup in the timer table, mirroring `HashMap::get` over `u64` keys. -/
def tlistGet (l : List (Nat × TimerEntry)) (k : Nat) : Option TimerEntry :=
  match l with
  | [] => none
  | (k', v) :: rest => if k' = k then some v else tlistGet rest k

/-- Insert into the timer table (`HashMap::insert`). -/
def tlistPut (l : List (Nat × TimerEntry)) (k : Nat) (v : TimerEntry) :
    List (Nat × TimerEntry) :=
  match l with
  | [] => [(k, v)]
  | (k', v') :: rest =>
      if k' = k then (k, v) :: rest else (k', v') :: tlistPut rest k v

/-- Remove from the timer table (`HashMap::remove`), returning the removed
entry when present. -/
def tlistRemove (l : List (Nat × TimerEntry)) (k : Nat) :
    Option TimerEntry × List (Nat × TimerEntry) :=
  match l with
  | [] => (none, [])
  | (k', v) :: rest =>
      if k' = k then (some v, rest)
      else
        let (r, rest') := tlistRemove rest k
        (r, (k', v) :: rest')

/-! ## Heap / state primitives -/

/-- Allocate a fresh array cell (`Rc::new(RefCell::new(vec))`). -/
def State.allocArr (s : State) (vs : List Value) : Nat × State :=
  (s.arrays.length, { s with arrays := s.arrays ++ [vs] })

/-- Overwrite an array cell's contents (a `borrow_mut` write). -/
def State.setArr (s : State) (a : Nat) (vs : List Value) : State :=
  { s with arrays := s.arrays.set a vs }

/-- Allocate a fresh string-keyed map cell (object / instance field store). -/
def State.allocMap (s : State) (m : List (String × Value)) : Nat × State :=
  (s.maps.length, { s with maps := s.maps ++ [m] })

/-- Overwrite a map cell's contents. -/
def State.setMap (s : State) (a : Nat) (m : List (String × Value)) : State :=
  { s with maps := s.maps.set a m }

/-- Allocate a fresh native-closure cell (`Arc::new(...)`). -/
def State.allocNative (s : State) (c : NativeClosure) : Nat × State :=
  (s.natives.length, { s with natives := s.natives ++ [c] })

/-- `Environment::new(parent)` wrapped in a fresh shared cell. -/
def State.newScope (s : State) (parent : Option Nat) : Nat × State :=
  (s.scopes.length,
   { s with scopes := s.scopes ++ [{ values := [], functions := [], parent := parent }] })

/-- Apply an in-place update to scope cell `i` (a `borrow_mut` on the
environment). -/
def State.modScope (s : State) (i : Nat) (f : Scope → Scope) : State :=
  match s.scopes[i]? with
  | some sc => { s with scopes := s.scopes.set i (f sc) }
  | none => s

/-- `Environment::define_public` / `define_private` / `define_protected`. -/
def defineVar (s : State) (idx : Nat) (name : String) (v : Value) (acc : Access) :
    State :=
  s.modScope idx fun sc =>
    { sc with values := alistPut sc.values name { value := v, access := acc } }

/-- `Environment::define_function`. -/
def defineFunction (s : State) (idx : Nat) (name : String) (fd : FunctionDef) :
    State :=
  s.modScope idx fun sc => { sc with functions := alistPut sc.functions name fd }

/-- `Environment::assign`: climb the chain mutating an existing binding in
place (access tier preserved); returns `false` when no binding exists.  The
fuel bounds the climb. -/
def envAssign (fuel : Nat) (s : State) (idx : Nat) (name : String) (v : Value) :
    Except RErr Bool × State :=
  match fuel with
  | 0 => (.error .fuelOut, s)
  | fuel + 1 =>
      match s.scopes[idx]? with
      | none => (.error (.err "invalid scope cell"), s)
      | some sc =>
          match alistGet sc.values name with
          | some entry =>
              (.ok true,
               s.modScope idx fun sc' =>
                 { sc' with values := alistPut sc'.values name { entry with value := v } })
          | none =>
              match sc.parent with
              | some p => envAssign fuel s p name v
              | none => (.ok false, s)

/-- `Environment::get(name, is_child_scope)`: the visibility-checked chain
lookup.  A `Private` binding reached with `is_child_scope == true` panics
(`Private access violation`), modelled as an error; the climb always passes
`true` to the parent. -/
def envGet (fuel : Nat) (s : State) (idx : Nat) (name : String)
    (isChildScope : Bool) : Except RErr (Option Value) :=
  match fuel with
  | 0 => .error .fuelOut
  | fuel + 1 =>
      match s.scopes[idx]? with
      | none => .error (.err "invalid scope cell")
      | some sc =>
          match alistGet sc.values name with
          | some entry =>
              match entry.access with
              | .publicA => .ok (some entry.value)
              | .privateA =>
                  if !isChildScope then .ok (some entry.value)
                  else .error (.err ("Private access violation: '" ++ name ++ "'"))
              | .protectedA => .ok (some entry.value)
          | none =>
              match sc.parent with
              | some p => envGet fuel s p name true
              | none => .ok none

/-- `Environment::get_function`: chain lookup in the parallel function table
(no visibility tiers). -/
def envGetFunction (fuel : Nat) (s : State) (idx : Nat) (name : String) :
    Except RErr (Option FunctionDef) :=
  match fuel with
  | 0 => .error .fuelOut
  | fuel + 1 =>
      match s.scopes[idx]? with
      | none => .error (.err "invalid scope cell")
      | some sc =>
          match alistGet sc.functions name with
          | some f => .ok (some f)
          | none =>
              match sc.parent with
              | some p => envGetFunction fuel s p name
              | none => .ok none

/-! ## Pure value operations -/

/-- `std::mem::discriminant`: the tag of a `Value`. -/
def discriminantOf : Value → Nat
  | .number _ => 0
  | .str _ => 1
  | .bool _ => 2
  | .null => 3
  | .nativeFunction _ => 4
  | .array _ _ => 5
  | .object _ => 6
  | .classV _ _ _ _ _ => 7
  | .instanceV _ _ _ _ _ => 8
  | .furure _ => 9
  | .errorV _ => 10
  | .moduleV _ _ => 11
  | .tuple _ => 12
  | .regex _ => 13

/-- `values_equal_strict` (`expressions.rs`, lines 611-635): primitives by
value; arrays/objects by `Rc::ptr_eq`; native functions by `Arc::ptr_eq`;
everything else — including tuples — strictly unequal. -/
def values_equal_strict : Value → Value → Bool
  | .number x, .number y => x = y
  | .str x, .str y => x = y
  | .bool x, .bool y => x = y
  | .null, .null => true
  | .array a _, .array b _ => a = b
  | .object a, .object b => a = b
  | .nativeFunction a, .nativeFunction b => a = b
  | _, _ => false

/-- `is_truthy` (`interpreter/helpers.rs`). -/
def is_truthy : Value → Bool
  | .bool b => b
  | .null => false
  | .number n => n ≠ 0
  | .str s => !s.isEmpty
  | _ => true

/-- Rendering of an `f64` by `Display`, transported to `Rat`. -/
def numToString (q : Rat) : String :=
  if q.den = 1 then toString q.num else toString q.num ++ "/" ++ toString q.den

/-- Rust's `n as usize` on a non-negative float truncates; negative values
saturate to `0`. -/
def ratToUsize (q : Rat) : Nat :=
  if q < 0 then 0 else q.floor.toNat

/-- `a % b` on `f64` (truncated remainder), transported to `Rat`. -/
def ratRem (a b : Rat) : Rat :=
  a - b * ((if a / b < 0 then -((-(a / b)).floor) else (a / b).floor) : Int)

mutual

/-- `Value::stringify` (`value.rs`): the human-readable form used in
`Uncaught exception` messages.  Arrays read their cell through the heap,
hence the state parameter and the fuel. -/
def stringifyV (fuel : Nat) (s : State) (v : Value) : String :=
  match fuel with
  | 0 => ""
  | fuel + 1 =>
      match v with
      | .number n => numToString n
      | .str str => str
      | .bool b => toString b
      | .null => "null"
      | .regex r => "/" ++ r ++ "/"
      | .tuple vs => "(" ++ String.intercalate ", " (stringifyList fuel s vs) ++ ")"
      | .array addr _ =>
          "[" ++ String.intercalate ", " (stringifyList fuel s ((s.arrays[addr]?).getD [])) ++ "]"
      | .object _ => "[object Object]"
      | .nativeFunction _ => "[function]"
      | .classV n _ _ _ _ => "[class " ++ n ++ "]"
      | .instanceV cn _ _ _ _ => "[instance " ++ cn ++ "]"
      | .moduleV _ _ => "[module]"
      | .furure _ => "[furure]"
      | .errorV m => "Error(" ++ m ++ ")"
termination_by structural fuel

def stringifyList (fuel : Nat) (s : State) (vs : List Value) : List String :=
  match fuel with
  | 0 => []
  | fuel + 1 =>
      match vs with
      | [] => []
      | v :: rest => stringifyV fuel s v :: stringifyList fuel s rest
termination_by structural fuel
end

/-- `create_array_proto` (`prototypes/array.rs`): builds the per-array method
table, allocating one fresh `Arc` closure per entry, in source insertion
order.  Only `push` and `pop` carry modelled behaviour (see the header). -/
def createArrayProto (s : State) : List (String × Value) × State :=
  let (fPush, s) := s.allocNative .arrayPush
  let (fPop, s) := s.allocNative .arrayPop
  let (fSort, s) := s.allocNative (.hostFn "sort")
  let (fMap, s) := s.allocNative (.hostFn "map")
  let (fFilter, s) := s.allocNative (.hostFn "filter")
  let (fSlice, s) := s.allocNative (.hostFn "slice")
  let (fJoin, s) := s.allocNative (.hostFn "join")
  let (fForEach, s) := s.allocNative (.hostFn "forEach")
  let (fFind, s) := s.allocNative (.hostFn "find")
  let (fIncludes, s) := s.allocNative (.hostFn "includes")
  let (fSome, s) := s.allocNative (.hostFn "some")
  let (fEvery, s) := s.allocNative (.hostFn "every")
  let (fReduce, s) := s.allocNative (.hostFn "reduce")
  let (fReduceRight, s) := s.allocNative (.hostFn "reduceRight")
  let (fToString, s) := s.allocNative (.hostFn "toString")
  ([("push", .nativeFunction fPush), ("pop", .nativeFunction fPop),
    ("sort", .nativeFunction fSort), ("map", .nativeFunction fMap),
    ("filter", .nativeFunction fFilter), ("slice", .nativeFunction fSlice),
    ("join", .nativeFunction fJoin), ("forEach", .nativeFunction fForEach),
    ("find", .nativeFunction fFind), ("includes", .nativeFunction fIncludes),
    ("some", .nativeFunction fSome), ("every", .nativeFunction fEvery),
    ("reduce", .nativeFunction fReduce), ("reduceRight", .nativeFunction fReduceRight),
    ("toString", .nativeFunction fToString)], s)

/-- `array_push` (`prototypes/array.rs`): appends `args[1]` (default `Null`)
to the array cell of `args[0]` and returns the new length. -/
def arrayPushFn (args : List Value) (s : State) : Except RErr Value × State :=
  match args with
  | [] => (.error (.err "index out of bounds"), s)
  | .array addr _ :: rest =>
      match s.arrays[addr]? with
      | none => (.error (.err "invalid array cell"), s)
      | some vs =>
          let val := (rest.head?).getD .null
          let vs' := vs ++ [val]
          (.ok (.number (vs'.length : Nat)), s.setArr addr vs')
  | _ :: _ => (.error (.err "push() must be called on an array"), s)

/-- `array_pop` (`prototypes/array.rs`): removes and returns the last
element, `Null` when empty. -/
def arrayPopFn (args : List Value) (s : State) : Except RErr Value × State :=
  match args with
  | [] => (.error (.err "index out of bounds"), s)
  | .array addr _ :: _ =>
      match s.arrays[addr]? with
      | none => (.error (.err "invalid array cell"), s)
      | some vs =>
          ((.ok ((vs.getLast?).getD .null)), s.setArr addr vs.dropLast)
  | _ :: _ => (.error (.err "pop() must be called on an array"), s)

/-- The binary-operator dispatch of `eval_expr` (`expressions.rs`,
`Expr::Binary` arm): a pure match on the two operand tags and the operator
lexeme, in source arm order.  Note that the `==` / `!=` fallbacks compare
`std::mem::discriminant`s, so any two same-tagged values are `==`-equal. -/
def evalBinOp (l r : Value) (operator : String) : Except RErr Value :=
  match l, r, operator with
  | .number a, .number b, "+" => .ok (.number (a + b))
  | .number a, .number b, "-" => .ok (.number (a - b))
  | .number a, .number b, "*" => .ok (.number (a * b))
  | .number a, .number b, "/" => .ok (.number (a / b))
  | .number a, .number b, "%" => .ok (.number (ratRem a b))
  | .str a, .str b, "+" => .ok (.str (a ++ b))
  | .str a, .number b, "+" => .ok (.str (a ++ numToString b))
  | .number a, .str b, "+" => .ok (.str (numToString a ++ b))
  | .number a, .number b, "==" => .ok (.bool (decide (a = b)))
  | .str a, .str b, "==" => .ok (.bool (decide (a = b)))
  | .bool a, .bool b, "==" => .ok (.bool (decide (a = b)))
  | .null, .null, "==" => .ok (.bool true)
  | a, b, "==" => .ok (.bool (decide (discriminantOf a = discriminantOf b)))
  | .number a, .number b, "===" => .ok (.bool (decide (a = b)))
  | .str a, .str b, "===" => .ok (.bool (decide (a = b)))
  | .bool a, .bool b, "===" => .ok (.bool (decide (a = b)))
  | .null, .null, "===" => .ok (.bool true)
  | a, b, "===" => .ok (.bool (values_equal_strict a b))
  | .number a, .number b, "!=" => .ok (.bool (decide (a ≠ b)))
  | .str a, .str b, "!=" => .ok (.bool (decide (a ≠ b)))
  | .bool a, .bool b, "!=" => .ok (.bool (decide (a ≠ b)))
  | .null, .null, "!=" => .ok (.bool false)
  | a, b, "!=" => .ok (.bool (decide (discriminantOf a ≠ discriminantOf b)))
  | .number a, .number b, "!==" => .ok (.bool (decide (a ≠ b)))
  | .str a, .str b, "!==" => .ok (.bool (decide (a ≠ b)))
  | .bool a, .bool b, "!==" => .ok (.bool (decide (a ≠ b)))
  | .null, .null, "!==" => .ok (.bool false)
  | a, b, "!==" => .ok (.bool (!values_equal_strict a b))
  | .number a, .number b, ">" => .ok (.bool (decide (b < a)))
  | .number a, .number b, "<" => .ok (.bool (decide (a < b)))
  | .number a, .number b, ">=" => .ok (.bool (decide (b ≤ a)))
  | .number a, .number b, "<=" => .ok (.bool (decide (a ≤ b)))
  | _, _, op => .error (.err ("Invalid binary operation: " ++ op))

/-- The unary-operator dispatch of `eval_expr` (`Expr::Unary` arm). -/
def evalUnOp (operator : String) (r : Value) : Except RErr Value :=
  match operator, r with
  | "-", .number n => .ok (.number (-n))
  | "!", .bool b => .ok (.bool (!b))
  | op, _ => .error (.err ("Invalid unary operation: " ++ op))

/-- The truthiness test inlined in the `If` and `While` arms of `exec_stmt`
(`statements.rs`): note the `_ => true` arm also swallows runtime errors of
the condition (applied only to non-fuel errors in the embedding). -/
def condTruthy (r : Except RErr Value) : Bool :=
  match r with
  | .ok (.bool b) => b
  | .ok (.number n) => decide (n ≠ 0)
  | .ok .null => false
  | _ => true

/-- Binding loop of the lambda closure (`expressions.rs`, `Expr::Lambda`):
positional binding, missing arguments become `Null`. -/
def bindLambdaParams (params : List String) (args : List Value) (i : Nat)
    (env : Nat) (s : State) : State :=
  match params with
  | [] => s
  | pname :: rest =>
      bindLambdaParams rest args (i + 1) env
        (defineVar s env pname ((args[i]?).getD .null) .publicA)

/-- Binding loop over already-evaluated argument values
(`classes.rs::call_method_value`): missing arguments become `Null`. -/
def bindValueParams (params : List Param) (args : List Value) (i : Nat)
    (env : Nat) (s : State) : State :=
  match params with
  | [] => s
  | .mk pname _ _ :: rest =>
      bindValueParams rest args (i + 1) env
        (defineVar s env pname ((args[i]?).getD .null) .publicA)

/-- The `setTimeout` closure installed by `install_timers` (`timers.rs`,
lines 148-189): validates the arguments, allocates a fresh id, registers the
entry, spawns the sleeper thread (modelled as an in-flight message), and
returns the id — without invoking the callback.  The ghost `register` event
records the registration. -/
def setTimeoutFn (args : List Value) (s : State) : Except RErr Value × State :=
  if args.length ≠ 2 then
    (.error (.err "setTimeout(fn, ms) requires 2 arguments"), s)
  else
    match args with
    | [callback, msVal] =>
        match msVal with
        | .number _ =>
            match callback with
            | .nativeFunction cfid =>
                let id := s.nextTimerId
                (.ok (.number (id : Nat)),
                 { s with
                    nextTimerId := s.nextTimerId + 1,
                    timers := tlistPut s.timers id
                      { callback := callback, isInterval := false, cancelFlag := none },
                    inflight := s.inflight ++ [.timeout id],
                    log := s.log ++ [.register id cfid] })
            | _ => (.error (.err "setTimeout requires a function as first argument"), s)
        | _ => (.error (.err "setTimeout delay must be a number"), s)
    | _ => (.error (.err "setTimeout(fn, ms) requires 2 arguments"), s)

/-- `ExecSignal` (`statements.rs`): the three-state control signal. -/
inductive ExecSignal where
  | noneSig
  | retSig (v : Value)
  | throwSig (v : Value)

/-! ## The evaluator

One mutually recursive block, bounded by fuel; every call decrements the
fuel, so with enough fuel the embedding computes what the unbounded source
computes. -/

mutual

/-- `eval_expr` (`expressions.rs`): the core expression dispatcher. -/
def evalExpr (fuel : Nat) (e : Expr) (env : Nat) (s : State) :
    Except RErr Value × State :=
  match fuel with
  | 0 => (.error .fuelOut, s)
  | fuel + 1 =>
    match e with
    | .literal v => (.ok v, s)
    | .identifier name =>
        -- the source special-cases "this" but issues the same lookup;
        -- only the panic message differs
        if name = "this" then
          match envGet fuel s env "this" false with
          | .error er => (.error er, s)
          | .ok (some v) => (.ok v, s)
          | .ok none => (.error (.err "'this' used outside of class"), s)
        else
          match envGet fuel s env name false with
          | .error er => (.error er, s)
          | .ok (some v) => (.ok v, s)
          | .ok none => (.error (.err ("Undefined variable '" ++ name ++ "'")), s)
    | .tupleE values =>
        match evalArgs fuel values env s with
        | (.error er, s1) => (.error er, s1)
        | (.ok vs, s1) => (.ok (.tuple vs), s1)
    | .assign name value =>
        match evalExpr fuel value env s with
        | (.error er, s1) => (.error er, s1)
        | (.ok assigned, s1) =>
            match assigned with
            | .moduleV _ (some dflt) =>
                -- assigning a module auto-unwraps its default export and
                -- re-defines the name in the current scope
                (.ok dflt, defineVar s1 env name dflt .publicA)
            | _ =>
                match envAssign fuel s1 env name assigned with
                | (.error er, s2) => (.error er, s2)
                | (.ok true, s2) => (.ok assigned, s2)
                | (.ok false, s2) =>
                    (.error (.err ("Undefined variable '" ++ name ++ "'")), s2)
    | .unary operator right =>
        match evalExpr fuel right env s with
        | (.error er, s1) => (.error er, s1)
        | (.ok r, s1) => (evalUnOp operator r, s1)
    | .binary left operator right =>
        match evalExpr fuel left env s with
        | (.error er, s1) => (.error er, s1)
        | (.ok l, s1) =>
            match evalExpr fuel right env s1 with
            | (.error er, s2) => (.error er, s2)
            | (.ok r, s2) => (evalBinOp l r operator, s2)
    | .call callee arguments =>
        match callee with
        | .identifier name =>
            match envGetFunction fuel s env name with
            | .error er => (.error er, s)
            | .ok (some func) =>
                match evalArgs fuel arguments env s with
                | (.error er, s1) => (.error er, s1)
                | (.ok argVals, s1) => callUserFunction fuel func argVals env s1
            | .ok none =>
                match envGet fuel s env name false with
                | .error er => (.error er, s)
                | .ok none =>
                    (.error (.err ("Undefined function or callable '" ++ name ++ "'")), s)
                | .ok (some calleeVal) => callValue fuel calleeVal arguments env s
        | other =>
            match evalExpr fuel other env s with
            | (.error er, s1) => (.error er, s1)
            | (.ok calleeVal, s1) => callValue fuel calleeVal arguments env s1
    | .grouping inner => evalExpr fuel inner env s
    | .arrayLiteral values =>
        match evalArgs fuel values env s with
        | (.error er, s1) => (.error er, s1)
        | (.ok vs, s1) =>
            let (addr, s2) := s1.allocArr vs
            let (proto, s3) := createArrayProto s2
            (.ok (.array addr proto), s3)
    | .index object idx =>
        match evalExpr fuel object env s with
        | (.error er, s1) => (.error er, s1)
        | (.ok obj, s1) =>
            match evalExpr fuel idx env s1 with
            | (.error er, s2) => (.error er, s2)
            | (.ok idxVal, s2) =>
                match idxVal with
                | .number n =>
                    let i := ratToUsize n
                    match obj with
                    | .array addr _ =>
                        match s2.arrays[addr]? with
                        | some vs => (.ok ((vs[i]?).getD .null), s2)
                        | none => (.error (.err "invalid array cell"), s2)
                    | _ => (.error (.err "Indexing only supported on arrays"), s2)
                | _ => (.error (.err "Array index must be a number"), s2)
    | .indexAssign object idx value =>
        match evalExpr fuel object env s with
        | (.error er, s1) => (.error er, s1)
        | (.ok obj, s1) =>
            match evalExpr fuel idx env s1 with
            | (.error er, s2) => (.error er, s2)
            | (.ok idxVal, s2) =>
                match evalExpr fuel value env s2 with
                | (.error er, s3) => (.error er, s3)
                | (.ok val, s3) =>
                    match idxVal with
                    | .number n =>
                        let i := ratToUsize n
                        match obj with
                        | .array addr _ =>
                            match s3.arrays[addr]? with
                            | some vs =>
                                if vs.length ≤ i then
                                  (.error (.err "Array index out of bounds"), s3)
                                else
                                  (.ok val, s3.setArr addr (vs.set i val))
                            | none => (.error (.err "invalid array cell"), s3)
                        | _ =>
                            (.error (.err "Index assignment only supported on arrays"), s3)
                    | _ => (.error (.err "Array index must be a number"), s3)
    | .objectLiteral fields =>
        match evalObjFields fuel fields [] env s with
        | (.error er, s1) => (.error er, s1)
        | (.ok m, s1) =>
            let (addr, s2) := s1.allocMap m
            (.ok (.object addr), s2)
    | .get object name =>
        match evalExpr fuel object env s with
        | (.error er, s1) => (.error er, s1)
        | (.ok target, s1) =>
            match target with
            | .object addr =>
                (.ok ((((s1.maps[addr]?).bind fun m => alistGet m name)).getD .null), s1)
            | .array addr proto =>
                if name = "length" then
                  match s1.arrays[addr]? with
                  | some vs => (.ok (.number (vs.length : Nat)), s1)
                  | none => (.error (.err "invalid array cell"), s1)
                else (.ok ((alistGet proto name).getD .null), s1)
            | .furure inner =>
                match name with
                | "then" =>
                    let (fid, s2) := s1.allocNative (.furureThen inner)
                    (.ok (.nativeFunction fid), s2)
                | "catch" =>
                    let (fid, s2) := s1.allocNative (.furureCatch inner)
                    (.ok (.nativeFunction fid), s2)
                | "finally" =>
                    let (fid, s2) := s1.allocNative (.furureFinally inner)
                    (.ok (.nativeFunction fid), s2)
                | _ =>
                    (.error (.err ("Property '" ++ name ++ "' not supported on Furure")), s1)
            | _ =>
                (.error (.err ("Property '" ++ name ++ "' not supported on value")), s1)
    | .set object name value =>
        match evalExpr fuel object env s with
        | (.error er, s1) => (.error er, s1)
        | (.ok target, s1) =>
            match evalExpr fuel value env s1 with
            | (.error er, s2) => (.error er, s2)
            | (.ok val, s2) =>
                match target with
                | .object addr =>
                    match s2.maps[addr]? with
                    | some m => (.ok val, s2.setMap addr (alistPut m name val))
                    | none => (.error (.err "invalid object cell"), s2)
                | _ =>
                    (.error (.err "Cannot assign property on non-object value"), s2)
    | .lambda params body =>
        let (fid, s1) := s.allocNative (.lambdaC params body env)
        (.ok (.nativeFunction fid), s1)
    | .postIncrement name =>
        match envGet fuel s env name false with
        | .error er => (.error er, s)
        | .ok none => (.error (.err ("Undefined variable '" ++ name ++ "'")), s)
        | .ok (some current) =>
            match current with
            | .number n =>
                match envAssign fuel s env name (.number (n + 1)) with
                | (.error er, s1) => (.error er, s1)
                | (.ok _, s1) => (.ok (.number n), s1)
            | _ => (.error (.err "++ only allowed on numbers"), s)
    | .postDecrement name =>
        match envGet fuel s env name false with
        | .error er => (.error er, s)
        | .ok none => (.error (.err ("Undefined variable '" ++ name ++ "'")), s)
        | .ok (some current) =>
            match current with
            | .number n =>
                match envAssign fuel s env name (.number (n - 1)) with
                | (.error er, s1) => (.error er, s1)
                | (.ok _, s1) => (.ok (.number n), s1)
            | _ => (.error (.err "-- only allowed on numbers"), s)
    | .newE className arguments =>
        -- sugar: `new Foo(a, b)` is evaluated as the call `Foo(a, b)`
        evalExpr fuel (.call (.identifier className) arguments) env s
    | .tap path =>
        match evalExpr fuel path env s with
        | (.error er, s1) => (.error er, s1)
        | (.ok (.str p), s1) =>
            (.error (.err ("tap() is not yet implemented in the Rust interpreter for path '"
              ++ p ++ "'")), s1)
        | (.ok _, s1) => (.error (.err "tap() path must be a string"), s1)
    | .logical left operator right =>
        match evalExpr fuel left env s with
        | (.error er, s1) => (.error er, s1)
        | (.ok leftVal, s1) =>
            match operator.lexeme with
            | "||" =>
                if is_truthy leftVal then (.ok leftVal, s1)
                else evalExpr fuel right env s1
            | "&&" =>
                if !is_truthy leftVal then (.ok leftVal, s1)
                else evalExpr fuel right env s1
            | _ =>
                (.error (.err ("Invalid logical operator: " ++ operator.lexeme)), s1)

termination_by structural fuel
/-- Sequential left-to-right evaluation of argument expressions
(the `map ... collect` in `eval_expr` / `call_value` and the argument loop of
`construct_instance`). -/
def evalArgs (fuel : Nat) (es : List Expr) (env : Nat) (s : State) :
    Except RErr (List Value) × State :=
  match fuel with
  | 0 => (.error .fuelOut, s)
  | fuel + 1 =>
    match es with
    | [] => (.ok [], s)
    | e :: rest =>
        match evalExpr fuel e env s with
        | (.error er, s1) => (.error er, s1)
        | (.ok v, s1) =>
            match evalArgs fuel rest env s1 with
            | (.error er, s2) => (.error er, s2)
            | (.ok vs, s2) => (.ok (v :: vs), s2)

termination_by structural fuel
/-- Evaluation of object-literal fields, inserting into the fresh map in
source order (`Expr::ObjectLiteral` arm). -/
def evalObjFields (fuel : Nat) (fields : List (String × Expr))
    (acc : List (String × Value)) (env : Nat) (s : State) :
    Except RErr (List (String × Value)) × State :=
  match fuel with
  | 0 => (.error .fuelOut, s)
  | fuel + 1 =>
    match fields with
    | [] => (.ok acc, s)
    | (name, e) :: rest =>
        match evalExpr fuel e env s with
        | (.error er, s1) => (.error er, s1)
        | (.ok v, s1) => evalObjFields fuel rest (alistPut acc name v) env s1

termination_by structural fuel
/-- `call_value` (`calls.rs`): evaluate all arguments eagerly, then invoke a
native function — any other callee value passes through unchanged. -/
def callValue (fuel : Nat) (calleeVal : Value) (arguments : List Expr)
    (env : Nat) (s : State) : Except RErr Value × State :=
  match fuel with
  | 0 => (.error .fuelOut, s)
  | fuel + 1 =>
    match evalArgs fuel arguments env s with
    | (.error er, s1) => (.error er, s1)
    | (.ok args, s1) =>
        match calleeVal with
        | .nativeFunction fid => applyNative fuel fid args s1
        | other => (.ok other, s1)

termination_by structural fuel
/-- `call_user_function` (`calls.rs`): fresh scope chained to the caller,
positional binding with lazily evaluated defaults, then the body loop. -/
def callUserFunction (fuel : Nat) (func : FunctionDef) (argVals : List Value)
    (env : Nat) (s : State) : Except RErr Value × State :=
  match fuel with
  | 0 => (.error .fuelOut, s)
  | fuel + 1 =>
    match func with
    | .mk params body _ _ =>
        let (funcEnv, s1) := s.newScope (some env)
        match bindUserParams fuel params 0 argVals funcEnv s1 with
        | (.error er, s2) => (.error er, s2)
        | (.ok _, s2) => runUserBody fuel body funcEnv s2

termination_by structural fuel
/-- Parameter binding of `call_user_function`: a supplied argument wins, else
the default expression is evaluated inside the new call scope, else `Null`. -/
def bindUserParams (fuel : Nat) (params : List Param) (i : Nat)
    (argVals : List Value) (env : Nat) (s : State) :
    Except RErr Unit × State :=
  match fuel with
  | 0 => (.error .fuelOut, s)
  | fuel + 1 =>
    match params with
    | [] => (.ok (), s)
    | .mk pname dflt _ :: rest =>
        match argVals[i]? with
        | some v =>
            bindUserParams fuel rest (i + 1) argVals env
              (defineVar s env pname v .publicA)
        | none =>
            match dflt with
            | some dexpr =>
                match evalExpr fuel dexpr env s with
                | (.error er, s1) => (.error er, s1)
                | (.ok v, s1) =>
                    bindUserParams fuel rest (i + 1) argVals env
                      (defineVar s1 env pname v .publicA)
            | none =>
                bindUserParams fuel rest (i + 1) argVals env
                  (defineVar s env pname .null .publicA)

termination_by structural fuel
/-- The body loop shared by `call_user_function` (`calls.rs`) and the lambda
closure (`expressions.rs`): `Return v` yields `v`, `Throw e` yields `e` as a
plain value, falling off the end yields `Null`. -/
def runUserBody (fuel : Nat) (body : List Stmt) (env : Nat) (s : State) :
    Except RErr Value × State :=
  match fuel with
  | 0 => (.error .fuelOut, s)
  | fuel + 1 =>
    match body with
    | [] => (.ok .null, s)
    | stmt :: rest =>
        match execStmt fuel stmt env s with
        | (.ok .noneSig, s1) => runUserBody fuel rest env s1
        | (.ok (.retSig v), s1) => (.ok v, s1)
        | (.ok (.throwSig e), s1) => (.ok e, s1)
        | (.error er, s1) => (.error er, s1)

termination_by structural fuel
/-- Dispatch of an allocated native closure: `f(args)` on a
`Value::NativeFunction`. -/
def applyNative (fuel : Nat) (fid : Nat) (args : List Value) (s : State) :
    Except RErr Value × State :=
  match fuel with
  | 0 => (.error .fuelOut, s)
  | fuel + 1 =>
    match s.natives[fid]? with
    | none => (.error (.err "invalid native closure"), s)
    | some c =>
        match c with
        | .arrayPush => arrayPushFn args s
        | .arrayPop => arrayPopFn args s
        | .hostFn nm =>
            (.error (.err ("host function '" ++ nm ++ "' not modelled")), s)
        | .errorCtor =>
            let message :=
              match args.head? with
              | some (.str sv) => sv
              | _ => "Unknown error"
            (.ok (.errorV message), s)
        | .lambdaC params body captured =>
            let (localEnv, s1) := s.newScope (some captured)
            let s2 := bindLambdaParams params args 0 localEnv s1
            runUserBody fuel body localEnv s2
        | .boundMethod m inst envIdx =>
            -- the bound-method closure of `get_instance_property`: invokes
            -- the method with an EMPTY argument list, ignoring `args`
            match classesCallMethod fuel m inst [] envIdx s with
            | (.ok v, s1) => (.ok v, s1)
            | (.error (.err msg), s1) => (.ok (.errorV msg), s1)
            | (.error .fuelOut, s1) => (.error .fuelOut, s1)
        | .setTimeoutC => setTimeoutFn args s
        | .furureThen resolved =>
            match args.head? with
            | none => (.error (.err "then(callback): missing callback"), s)
            | some (.nativeFunction cb) =>
                match applyNative fuel cb [resolved] s with
                | (.error er, s1) => (.error er, s1)
                | (.ok _, s1) => (.ok (.furure resolved), s1)
            | some _ => (.error (.err "then(...) expects a function"), s)
        | .furureCatch resolved =>
            match args.head? with
            | none => (.error (.err "catch(callback): missing callback"), s)
            | some callback =>
                match resolved with
                | .errorV _ =>
                    match callback with
                    | .nativeFunction cb =>
                        match applyNative fuel cb [resolved] s with
                        | (.error er, s1) => (.error er, s1)
                        | (.ok _, s1) => (.ok (.furure resolved), s1)
                    | _ => (.error (.err "catch(...) expects a function"), s)
                | _ => (.ok (.furure resolved), s)
        | .furureFinally resolved =>
            match args.head? with
            | none => (.error (.err "finally(callback): missing callback"), s)
            | some (.nativeFunction cb) =>
                match applyNative fuel cb [] s with
                | (.error er, s1) => (.error er, s1)
                | (.ok _, s1) => (.ok (.furure resolved), s1)
            | some _ => (.error (.err "finally(...) expects a function"), s)

termination_by structural fuel
/-- `exec_stmt` (`statements.rs`): the core statement dispatcher. -/
def execStmt (fuel : Nat) (stmt : Stmt) (env : Nat) (s : State) :
    Except RErr ExecSignal × State :=
  match fuel with
  | 0 => (.error .fuelOut, s)
  | fuel + 1 =>
    match stmt with
    | .expression e =>
        match evalExpr fuel e env s with
        | (.error er, s1) => (.error er, s1)
        | (.ok _, s1) => (.ok .noneSig, s1)
    | .publicVar name value =>
        match evalExpr fuel value env s with
        | (.error er, s1) => (.error er, s1)
        | (.ok v, s1) =>
            let finalValue :=
              match v with
              | .moduleV _ (some dflt) => dflt
              | other => other
            (.ok .noneSig, defineVar s1 env name finalValue .publicA)
    | .privateVar name value =>
        match evalExpr fuel value env s with
        | (.error er, s1) => (.error er, s1)
        | (.ok v, s1) => (.ok .noneSig, defineVar s1 env name v .privateA)
    | .protectedVar name value =>
        match evalExpr fuel value env s with
        | (.error er, s1) => (.error er, s1)
        | (.ok v, s1) => (.ok .noneSig, defineVar s1 env name v .protectedA)
    | .function name params body returnType isAsync =>
        (.ok .noneSig,
         defineFunction s env name (.mk params body returnType isAsync))
    | .ret e =>
        match e with
        | some expr =>
            match evalExpr fuel expr env s with
            | (.error er, s1) => (.error er, s1)
            | (.ok v, s1) => (.ok (.retSig v), s1)
        | none => (.ok (.retSig .null), s)
    | .ifS condition thenBranch elseBranch =>
        match evalExpr fuel condition env s with
        | (.error .fuelOut, s1) => (.error .fuelOut, s1)
        | (condVal, s1) =>
            if condTruthy condVal then execSeq fuel thenBranch env s1
            else
              match elseBranch with
              | some elseBody => execSeq fuel elseBody env s1
              | none => (.ok .noneSig, s1)
    | .whileS condition body => execWhile fuel condition body env s
    | .tryS tryBlock catchParam catchBlock finallyBlock =>
        match runTryCatch fuel tryBlock catchParam catchBlock env s with
        | (.error er, s1) => (.error er, s1)
        | (.ok result, s1) =>
            match finallyBlock with
            | none => (.ok result, s1)
            | some finallyBody =>
                match runFinallyBlock fuel finallyBody env s1 with
                | (.error er, s2) => (.error er, s2)
                | (.ok .noneSig, s2) => (.ok result, s2)
                | (.ok other, s2) => (.ok other, s2)
    | .clowder name _ _ members isExported isDefault =>
        match buildClassMaps fuel members [] [] [] [] env s with
        | (.error er, s1) => (.error er, s1)
        | (.ok (ms, gs, ss, fs), s1) =>
            let classVal := Value.classV name ms gs ss fs
            if isExported && isDefault then
              (.ok .noneSig, defineVar s1 env "default" classVal .publicA)
            else
              (.ok .noneSig, defineVar s1 env name classVal .publicA)
    | .instinct name _ _ =>
        (.ok .noneSig, defineVar s env name .null .publicA)
    | .exportS name value =>
        match evalExpr fuel value env s with
        | (.error er, s1) => (.error er, s1)
        | (.ok v, s1) =>
            match name with
            | some exportName =>
                (.ok .noneSig, defineVar s1 env exportName v .publicA)
            | none => (.ok .noneSig, defineVar s1 env "default" v .publicA)
    | .throwS e =>
        match evalExpr fuel e env s with
        | (.error er, s1) => (.error er, s1)
        | (.ok v, s1) => (.ok (.throwSig v), s1)
    | .nap e =>
        match evalExpr fuel e env s with
        | (.error .fuelOut, s1) => (.error .fuelOut, s1)
        | (.ok (.furure inner), s1) => (.ok (.retSig inner), s1)
        | (_, s1) => (.error (.err "nap can only be used on a Future"), s1)
    | .pride name body =>
        let (prideEnv, s1) := s.newScope (some env)
        match runBlockSignals fuel body prideEnv s1 with
        | (.error er, s2) => (.error er, s2)
        | (.ok (.retSig v), s2) => (.ok (.retSig v), s2)
        | (.ok (.throwSig e), s2) => (.ok (.throwSig e), s2)
        | (.ok .noneSig, s2) =>
            let fields :=
              match s2.scopes[prideEnv]? with
              | some sc => sc.values.map fun kv => (kv.1, kv.2.value)
              | none => []
            let (addr, s3) := s2.allocMap fields
            (.ok .noneSig, defineVar s3 env name (.object addr) .publicA)

termination_by structural fuel
/-- The plain block loop of the `If` and `While` arms: first non-`None`
outcome (signal or error) propagates unchanged. -/
def execSeq (fuel : Nat) (body : List Stmt) (env : Nat) (s : State) :
    Except RErr ExecSignal × State :=
  match fuel with
  | 0 => (.error .fuelOut, s)
  | fuel + 1 =>
    match body with
    | [] => (.ok .noneSig, s)
    | stmt :: rest =>
        match execStmt fuel stmt env s with
        | (.ok .noneSig, s1) => execSeq fuel rest env s1
        | other => other

termination_by structural fuel
/-- The `While` loop of `exec_stmt`: re-evaluates the condition (with the
same error-swallowing truthiness as `If`) before every iteration. -/
def execWhile (fuel : Nat) (condition : Expr) (body : List Stmt) (env : Nat)
    (s : State) : Except RErr ExecSignal × State :=
  match fuel with
  | 0 => (.error .fuelOut, s)
  | fuel + 1 =>
    match evalExpr fuel condition env s with
    | (.error .fuelOut, s1) => (.error .fuelOut, s1)
    | (condVal, s1) =>
        if !condTruthy condVal then (.ok .noneSig, s1)
        else
          match execSeq fuel body env s1 with
          | (.ok .noneSig, s2) => execWhile fuel condition body env s2
          | other => other

termination_by structural fuel
/-- The `try` portion of the `Try` arm (`statements.rs`, lines 234-314):
runs the try block, routing a thrown value or a normalized runtime error to
the catch clause when one exists; produces the try/catch `result`. -/
def runTryCatch (fuel : Nat) (tryBlock : List Stmt) (catchParam : Option String)
    (catchBlock : Option (List Stmt)) (env : Nat) (s : State) :
    Except RErr ExecSignal × State :=
  match fuel with
  | 0 => (.error .fuelOut, s)
  | fuel + 1 =>
    match tryBlock with
    | [] => (.ok .noneSig, s)
    | stmt :: rest =>
        match execStmt fuel stmt env s with
        | (.ok .noneSig, s1) => runTryCatch fuel rest catchParam catchBlock env s1
        | (.ok (.retSig v), s1) => (.ok (.retSig v), s1)
        | (.ok (.throwSig errv), s1) =>
            runCatchClause fuel catchParam catchBlock errv env s1
        | (.error (.err m), s1) =>
            -- normalize runtime error → throw
            runCatchClause fuel catchParam catchBlock (.errorV m) env s1
        | (.error .fuelOut, s1) => (.error .fuelOut, s1)

termination_by structural fuel
/-- The catch dispatch inside the `Try` arm: when a catch clause exists, the
thrown value is bound under the catch parameter in a fresh child scope and
the catch body runs; otherwise the throw is the result. -/
def runCatchClause (fuel : Nat) (catchParam : Option String)
    (catchBlock : Option (List Stmt)) (errv : Value) (env : Nat) (s : State) :
    Except RErr ExecSignal × State :=
  match fuel with
  | 0 => (.error .fuelOut, s)
  | fuel + 1 =>
    match catchParam, catchBlock with
    | some name, some catchBody =>
        let (catchEnv, s1) := s.newScope (some env)
        let s2 := defineVar s1 catchEnv name errv .publicA
        runCatchBody fuel catchBody catchEnv s2
    | _, _ => (.ok (.throwSig errv), s)

termination_by structural fuel
/-- The catch-body loop: its own first non-`None` signal becomes the result;
a runtime error inside the catch body becomes a `Throw` of an `Error`
value; completing all statements leaves the result `None`. -/
def runCatchBody (fuel : Nat) (body : List Stmt) (env : Nat) (s : State) :
    Except RErr ExecSignal × State :=
  match fuel with
  | 0 => (.error .fuelOut, s)
  | fuel + 1 =>
    match body with
    | [] => (.ok .noneSig, s)
    | stmt :: rest =>
        match execStmt fuel stmt env s with
        | (.ok .noneSig, s1) => runCatchBody fuel rest env s1
        | (.ok other, s1) => (.ok other, s1)
        | (.error (.err m), s1) => (.ok (.throwSig (.errorV m)), s1)
        | (.error .fuelOut, s1) => (.error .fuelOut, s1)

termination_by structural fuel
/-- The finally-block loop (`statements.rs`, lines 317-329): the first
non-`None` signal (or a runtime error, normalized to a `Throw`) is returned
immediately and overrides the try/catch result; if every statement completes
with `None`, yields `None` (the prior result stands). -/
def runFinallyBlock (fuel : Nat) (body : List Stmt) (env : Nat) (s : State) :
    Except RErr ExecSignal × State :=
  match fuel with
  | 0 => (.error .fuelOut, s)
  | fuel + 1 =>
    match body with
    | [] => (.ok .noneSig, s)
    | stmt :: rest =>
        match execStmt fuel stmt env s with
        | (.ok .noneSig, s1) => runFinallyBlock fuel rest env s1
        | (.ok other, s1) => (.ok other, s1)
        | (.error (.err m), s1) => (.ok (.throwSig (.errorV m)), s1)
        | (.error .fuelOut, s1) => (.error .fuelOut, s1)

termination_by structural fuel
/-- The block loop shared by the `Pride` arm and `run_in_env`
(`statements.rs`): the first `Return` / `Throw` propagates immediately; a
runtime error is normalized to `Throw(Error)`. -/
def runBlockSignals (fuel : Nat) (body : List Stmt) (env : Nat) (s : State) :
    Except RErr ExecSignal × State :=
  match fuel with
  | 0 => (.error .fuelOut, s)
  | fuel + 1 =>
    match body with
    | [] => (.ok .noneSig, s)
    | stmt :: rest =>
        match execStmt fuel stmt env s with
        | (.ok .noneSig, s1) => runBlockSignals fuel rest env s1
        | (.ok (.retSig v), s1) => (.ok (.retSig v), s1)
        | (.ok (.throwSig e), s1) => (.ok (.throwSig e), s1)
        | (.error (.err m), s1) => (.ok (.throwSig (.errorV m)), s1)
        | (.error .fuelOut, s1) => (.error .fuelOut, s1)

termination_by structural fuel
/-- The member walk of the `Clowder` arm (`statements.rs`, lines 350-405):
field initializers are evaluated immediately in the declaring scope;
method/getter/setter bodies are captured as deferred definitions with
`return_type: None` and `is_async: false`. -/
def buildClassMaps (fuel : Nat) (members : List ClassMember)
    (ms gs ss : List (String × FunctionDef)) (fs : List (String × Value))
    (env : Nat) (s : State) :
    Except RErr (List (String × FunctionDef) × List (String × FunctionDef) ×
      List (String × FunctionDef) × List (String × Value)) × State :=
  match fuel with
  | 0 => (.error .fuelOut, s)
  | fuel + 1 =>
    match members with
    | [] => (.ok (ms, gs, ss, fs), s)
    | .field name _ _ _ value :: rest =>
        match value with
        | some expr =>
            match evalExpr fuel expr env s with
            | (.error er, s1) => (.error er, s1)
            | (.ok v, s1) =>
                buildClassMaps fuel rest ms gs ss (alistPut fs name v) env s1
        | none =>
            buildClassMaps fuel rest ms gs ss (alistPut fs name .null) env s
    | .methodM name _ _ params _ body :: rest =>
        buildClassMaps fuel rest
          (alistPut ms name (.mk params body none false)) gs ss fs env s
    | .getter name _ body :: rest =>
        buildClassMaps fuel rest ms
          (alistPut gs name (.mk [] body none false)) ss fs env s
    | .setter name paramName _ body :: rest =>
        buildClassMaps fuel rest ms gs
          (alistPut ss name (.mk [.mk paramName none none] body none false)) fs env s

termination_by structural fuel
/-- `construct_instance` (`classes.rs`, lines 161-208): looks up the class,
copies its method/getter/setter tables, places a COPY of the default field
map into a freshly allocated shared field cell, evaluates the constructor
arguments, and runs a method named `new` when one exists. -/
def constructInstance (fuel : Nat) (className : String)
    (arguments : List Expr) (env : Nat) (s : State) :
    Except RErr Value × State :=
  match fuel with
  | 0 => (.error .fuelOut, s)
  | fuel + 1 =>
    match envGet fuel s env className false with
    | .error er => (.error er, s)
    | .ok none => (.error (.err ("Undefined class '" ++ className ++ "'")), s)
    | .ok (some classVal) =>
        match classVal with
        | .classV _ methods getters setters fields =>
            let (fAddr, s1) := s.allocMap fields
            let inst := Value.instanceV className fAddr methods getters setters
            match evalArgs fuel arguments env s1 with
            | (.error er, s2) => (.error er, s2)
            | (.ok argValues, s2) =>
                match alistGet methods "new" with
                | some ctor =>
                    match classesCallMethodValue fuel ctor inst argValues env s2 with
                    | (.error er, s3) => (.error er, s3)
                    | (.ok _, s3) => (.ok inst, s3)
                | none => (.ok inst, s2)
        | _ => (.error (.err ("'" ++ className ++ "' is not a class")), s)

/-- `get_instance_property` (`classes.rs`, lines 228-299): resolution order
getter → direct field → bound method; a method accessed as a property is
returned as a freshly allocated bound closure. -/
def getInstanceProperty (fuel : Nat) (inst : Value) (name : String)
    (env : Nat) (s : State) : Except RErr Value × State :=
  match fuel with
  | 0 => (.error .fuelOut, s)
  | fuel + 1 =>
    match inst with
    | .instanceV _ fieldsAddr methods getters setters =>
        match alistGet getters name with
        | some g =>
            classesCallMethod fuel g
              (.instanceV "" fieldsAddr methods getters setters) [] env s
        | none =>
            match (s.maps[fieldsAddr]?).bind (fun m => alistGet m name) with
            | some val => (.ok val, s)
            | none =>
                match alistGet methods name with
                | some m =>
                    let inst' := Value.instanceV "" fieldsAddr methods getters setters
                    let (fid, s1) := s.allocNative (.boundMethod m inst' env)
                    (.ok (.nativeFunction fid), s1)
                | none =>
                    (.error (.err ("Undefined property '" ++ name ++ "' on instance")), s)
    | _ => (.error (.err "Property access only valid on class instances"), s)

/-- `classes.rs::call_method_value` (lines 354-387): constructor/setter
execution with pre-evaluated arguments: binds `this`, binds parameters
positionally (missing → `Null`), runs the body. -/
def classesCallMethodValue (fuel : Nat) (func : FunctionDef) (inst : Value)
    (args : List Value) (env : Nat) (s : State) : Except RErr Value × State :=
  match fuel with
  | 0 => (.error .fuelOut, s)
  | fuel + 1 =>
    match func with
    | .mk params body _ _ =>
        let (funcEnv, s1) := s.newScope (some env)
        let s2 := defineVar s1 funcEnv "this" inst .publicA
        let s3 := bindValueParams params args 0 funcEnv s2
        runMethodBody fuel body funcEnv s3

/-- `classes.rs::call_method` (lines 390-435): method execution with
unevaluated expression arguments, evaluated inside the method scope;
parameters beyond the supplied arguments bind `Null`. -/
def classesCallMethod (fuel : Nat) (func : FunctionDef) (inst : Value)
    (args : List Expr) (env : Nat) (s : State) : Except RErr Value × State :=
  match fuel with
  | 0 => (.error .fuelOut, s)
  | fuel + 1 =>
    match func with
    | .mk params body _ _ =>
        let (funcEnv, s1) := s.newScope (some env)
        let s2 := defineVar s1 funcEnv "this" inst .publicA
        match bindMethodParams fuel params 0 args funcEnv s2 with
        | (.error er, s3) => (.error er, s3)
        | (.ok _, s3) => runMethodBody fuel body funcEnv s3

termination_by structural fuel
/-- Parameter binding of `classes.rs::call_method`: the i-th argument
expression is evaluated in the method scope when present, else `Null`. -/
def bindMethodParams (fuel : Nat) (params : List Param) (i : Nat)
    (args : List Expr) (env : Nat) (s : State) : Except RErr Unit × State :=
  match fuel with
  | 0 => (.error .fuelOut, s)
  | fuel + 1 =>
    match params with
    | [] => (.ok (), s)
    | .mk pname _ _ :: rest =>
        match args[i]? with
        | some argExpr =>
            match evalExpr fuel argExpr env s with
            | (.error er, s1) => (.error er, s1)
            | (.ok v, s1) =>
                bindMethodParams fuel rest (i + 1) args env
                  (defineVar s1 env pname v .publicA)
        | none =>
            bindMethodParams fuel rest (i + 1) args env
              (defineVar s env pname .null .publicA)

termination_by structural fuel
/-- The body loop shared by `classes.rs::call_method_value` and
`classes.rs::call_method`: `Return v` yields `v`; `Throw v` becomes the
`Uncaught exception` error; falling off the end yields `Null`. -/
def runMethodBody (fuel : Nat) (body : List Stmt) (env : Nat) (s : State) :
    Except RErr Value × State :=
  match fuel with
  | 0 => (.error .fuelOut, s)
  | fuel + 1 =>
    match body with
    | [] => (.ok .null, s)
    | stmt :: rest =>
        match execStmt fuel stmt env s with
        | (.ok .noneSig, s1) => runMethodBody fuel rest env s1
        | (.ok (.retSig v), s1) => (.ok v, s1)
        | (.ok (.throwSig v), s1) =>
            (.error (.err ("Uncaught exception: " ++ stringifyV fuel s1 v)), s1)
        | (.error er, s1) => (.error er, s1)

termination_by structural fuel
/-- `pump_timers` (`timers.rs`, lines 373-402): drains the delivered
messages in order; a `Timeout(id)` removes the entry and invokes its
callback with empty arguments (silently dropped when the entry is gone); an
`IntervalTick(id)` invokes without removing.  The ghost `fired` event is
appended just before each invocation. -/
def pumpTimers (fuel : Nat) (msgs : List TimerMessage) (s : State) :
    Except RErr Unit × State :=
  match fuel with
  | 0 => (.error .fuelOut, s)
  | fuel + 1 =>
    match msgs with
    | [] => (.ok (), s)
    | .timeout id :: rest =>
        let (entryOpt, timers') := tlistRemove s.timers id
        let s1 := { s with timers := timers' }
        match entryOpt with
        | some entry =>
            match entry.callback with
            | .nativeFunction f =>
                let s2 := { s1 with log := s1.log ++ [.fired id f] }
                match applyNative fuel f [] s2 with
                | (.error er, s3) => (.error er, s3)
                | (.ok _, s3) => pumpTimers fuel rest s3
            | _ => pumpTimers fuel rest s1
        | none => pumpTimers fuel rest s1
    | .intervalTick id :: rest =>
        match tlistGet s.timers id with
        | some entry =>
            match entry.callback with
            | .nativeFunction f =>
                let s2 := { s with log := s.log ++ [.fired id f] }
                match applyNative fuel f [] s2 with
                | (.error er, s3) => (.error er, s3)
                | (.ok _, s3) => pumpTimers fuel rest s3
            | _ => pumpTimers fuel rest s
        | none => pumpTimers fuel rest s

termination_by structural fuel
end

/-- The main execution loop of `run` (`interpreter/mod.rs`, lines 146-158):
executes each top-level statement, then drains the timer channel; a
top-level `Return` breaks out of the loop; a top-level `Throw` aborts with
`Uncaught Pawx error`; after the program body a final drain runs.  The
`sched` parameter supplies, per drain, the messages that the background
sleeper threads have delivered so far (an over-approximating, adversarial
schedule). -/
def runLoop (fuel : Nat) (stmts : List Stmt) (sched : List (List TimerMessage))
    (env : Nat) (s : State) : Except RErr Unit × State :=
  match fuel with
  | 0 => (.error .fuelOut, s)
  | fuel + 1 =>
    match stmts with
    | [] =>
        -- final drain
        pumpTimers fuel ((sched.head?).getD []) s
    | stmt :: rest =>
        match execStmt fuel stmt env s with
        | (.error er, s1) => (.error er, s1)
        | (.ok (.retSig _), s1) =>
            -- `break`: the per-statement pump is skipped, the final drain runs
            pumpTimers fuel ((sched.head?).getD []) s1
        | (.ok (.throwSig _), s1) =>
            (.error (.err "Uncaught Pawx error"), s1)
        | (.ok .noneSig, s1) =>
            match pumpTimers fuel ((sched.head?).getD []) s1 with
            | (.error er, s2) => (.error er, s2)
            | (.ok _, s2) => runLoop fuel rest sched.tail env s2

/-! ## The expression parser (`parser/expressions.rs`, `parser/helpers.rs`)

The parser is a cursor over a token list; a parse `panic!` is an error.
Lambda bodies are parsed through the statements module's `statement()`
entry point, which lives outside the expression module; the embedding takes
that entry point as the parameter `stmtP`. -/

/-- `struct Parser` (`parser/parser.rs`): token stream plus cursor. -/
structure PState where
  tokens : List Token
  current : Nat
deriving Repr, DecidableEq

/-- A statement-parser entry point (`Parser::statement`), supplied to the
expression grammar. -/
abbrev StmtParser := Nat → PState → Except RErr (Stmt × PState)

/-- `Parser::is_at_end`: reads `tokens[current]` (a panic when out of
bounds, like the source's index). -/
def pAtEnd (p : PState) : Except RErr Bool :=
  match p.tokens[p.current]? with
  | some t => .ok (decide (t.kind = .eof))
  | none => .error (.err "token index out of bounds")

/-- `Parser::advance`: return `tokens[current]` and step the cursor. -/
def pAdvance (p : PState) : Except RErr (Token × PState) :=
  match p.tokens[p.current]? with
  | some t => .ok (t, { p with current := p.current + 1 })
  | none => .error (.err "token index out of bounds")

/-- `Parser::previous`: `tokens[current - 1]`. -/
def pPrevious (p : PState) : Except RErr Token :=
  match p.tokens[p.current - 1]? with
  | some t => .ok t
  | none => .error (.err "token index out of bounds")

/-- `Parser::check_symbol(ch)`. -/
def pCheckSymbol (p : PState) (ch : Char) : Except RErr Bool :=
  match pAtEnd p with
  | .error e => .error e
  | .ok true => .ok false
  | .ok false =>
      match p.tokens[p.current]? with
      | some t => .ok (decide (t.kind = .symbol ∧ t.lexeme = toString ch))
      | none => .error (.err "token index out of bounds")

/-- `Parser::match_symbol(ch)`. -/
def pMatchSymbol (p : PState) (ch : Char) : Except RErr (Bool × PState) :=
  match pCheckSymbol p ch with
  | .error e => .error e
  | .ok true =>
      match pAdvance p with
      | .error e => .error e
      | .ok (_, p1) => .ok (true, p1)
  | .ok false => .ok (false, p)

/-- `Parser::consume_symbol(ch)`: required symbol or a parse panic. -/
def pConsumeSymbol (p : PState) (ch : Char) : Except RErr PState :=
  match pCheckSymbol p ch with
  | .error e => .error e
  | .ok true =>
      match pAdvance p with
      | .error e => .error e
      | .ok (_, p1) => .ok p1
  | .ok false => .error (.err ("Expected '" ++ toString ch ++ "'"))

/-- `Parser::match_keyword(kw)`. -/
def pMatchKeyword (p : PState) (kw : String) : Except RErr (Bool × PState) :=
  match pAtEnd p with
  | .error e => .error e
  | .ok true => .ok (false, p)
  | .ok false =>
      match p.tokens[p.current]? with
      | some t =>
          if t.kind = .keyword ∧ t.lexeme = kw then
            match pAdvance p with
            | .error e => .error e
            | .ok (_, p1) => .ok (true, p1)
          else .ok (false, p)
      | none => .error (.err "token index out of bounds")

/-- `Parser::match_operator(op)`: a `Symbol` token with exactly lexeme
`op`. -/
def pMatchOperator (p : PState) (op : String) : Except RErr (Bool × PState) :=
  match pAtEnd p with
  | .error e => .error e
  | .ok true => .ok (false, p)
  | .ok false =>
      match p.tokens[p.current]? with
      | some t =>
          if t.kind = .symbol ∧ t.lexeme = op then
            match pAdvance p with
            | .error e => .error e
            | .ok (_, p1) => .ok (true, p1)
          else .ok (false, p)
      | none => .error (.err "token index out of bounds")

/-- `Parser::match_symbol_lexeme(s)` (multi-char symbols such as
`++`, `--`, `||`, `&&`). -/
def pMatchSymbolLexeme (p : PState) (sv : String) : Except RErr (Bool × PState) :=
  match pAtEnd p with
  | .error e => .error e
  | .ok true => .ok (false, p)
  | .ok false =>
      match p.tokens[p.current]? with
      | some t =>
          if t.kind = .symbol ∧ t.lexeme = sv then
            .ok (true, { p with current := p.current + 1 })
          else .ok (false, p)
      | none => .error (.err "token index out of bounds")

/-- `Parser::match_arrow`: note the source performs no `is_at_end` guard
here, it indexes `tokens[current]` directly. -/
def pMatchArrow (p : PState) : Except RErr (Bool × PState) :=
  match p.tokens[p.current]? with
  | some t =>
      if t.kind = .symbol ∧ t.lexeme = "->" then
        match pAdvance p with
        | .error e => .error e
        | .ok (_, p1) => .ok (true, p1)
      else .ok (false, p)
  | none => .error (.err "token index out of bounds")

/-- `Parser::consume_identifier`. -/
def pConsumeIdentifier (p : PState) : Except RErr (String × PState) :=
  match pAdvance p with
  | .error e => .error e
  | .ok (t, p1) =>
      if t.kind ≠ .identifier then .error (.err "Expected identifier")
      else .ok (t.lexeme, p1)

/-- The `||`-chain of `match_operator` attempts heading each grammar loop:
tries each operator lexeme in order, consuming the first that matches. -/
def pMatchFirstOp (p : PState) (ops : List String) : Except RErr (Bool × PState) :=
  match ops with
  | [] => .ok (false, p)
  | op :: rest =>
      match pMatchOperator p op with
      | .error e => .error e
      | .ok (true, p1) => .ok (true, p1)
      | .ok (false, p1) => pMatchFirstOp p1 rest

/-- `lexeme.parse::<f64>().unwrap()` on a numeric lexeme, transported to
`Rat`. -/
def parseNumberLexeme (sv : String) : Option Rat :=
  match sv.splitOn "." with
  | [w] => (w.toNat?).map fun n => (n : Rat)
  | [w, f] =>
      match w.toNat?, f.toNat? with
      | some a, some b => some ((a : Rat) + (b : Rat) / ((10 : Rat) ^ f.length))
      | _, _ => none
  | _ => none

/-- The `Identifier | Keyword` arm tail of `primary`'s token dispatch:
postfix `++` / `--` or a plain identifier. -/
def pIdentTail (name : String) (p : PState) : Except RErr (Expr × PState) :=
  match pMatchSymbolLexeme p "++" with
  | .error e => .error e
  | .ok (true, p1) => .ok (.postIncrement name, p1)
  | .ok (false, p1) =>
      match pMatchSymbolLexeme p1 "--" with
      | .error e => .error e
      | .ok (true, p2) => .ok (.postDecrement name, p2)
      | .ok (false, p2) => .ok (.identifier name, p2)

mutual

/-- `Parser::expression` (`parser/expressions.rs`, line 74): the expression
entry point.  Its body descends to `logical_or` — its own doc comment
announces `expression → assignment`, but `assignment` is not called. -/
def pExpression (stmtP : StmtParser) (fuel : Nat) (p : PState) :
    Except RErr (Expr × PState) :=
  match fuel with
  | 0 => .error .fuelOut
  | fuel + 1 => pLogicalOr stmtP fuel p

termination_by structural fuel
/-- `Parser::assignment` (line 79): `equality ( "=" assignment )?` with the
three assignment targets; unreachable from `expression`. -/
def pAssignment (stmtP : StmtParser) (fuel : Nat) (p : PState) :
    Except RErr (Expr × PState) :=
  match fuel with
  | 0 => .error .fuelOut
  | fuel + 1 =>
    match pEquality stmtP fuel p with
    | .error e => .error e
    | .ok (expr, p1) =>
        match pMatchSymbol p1 '=' with
        | .error e => .error e
        | .ok (true, p2) =>
            match pAssignment stmtP fuel p2 with
            | .error e => .error e
            | .ok (value, p3) =>
                match expr with
                | .identifier name => .ok (.assign name value, p3)
                | .get object name => .ok (.set object name value, p3)
                | .index object idx => .ok (.indexAssign object idx value, p3)
                | _ => .error (.err "Invalid assignment target")
        | .ok (false, p2) => .ok (expr, p2)

termination_by structural fuel
/-- `Parser::logical_or`: `logical_and ( "||" logical_and )*`. -/
def pLogicalOr (stmtP : StmtParser) (fuel : Nat) (p : PState) :
    Except RErr (Expr × PState) :=
  match fuel with
  | 0 => .error .fuelOut
  | fuel + 1 =>
    match pLogicalAnd stmtP fuel p with
    | .error e => .error e
    | .ok (expr, p1) => pOrLoop stmtP fuel expr p1
termination_by structural fuel

def pOrLoop (stmtP : StmtParser) (fuel : Nat) (expr : Expr) (p : PState) :
    Except RErr (Expr × PState) :=
  match fuel with
  | 0 => .error .fuelOut
  | fuel + 1 =>
    match pMatchSymbolLexeme p "||" with
    | .error e => .error e
    | .ok (true, p1) =>
        match pPrevious p1 with
        | .error e => .error e
        | .ok op =>
            match pLogicalAnd stmtP fuel p1 with
            | .error e => .error e
            | .ok (right, p2) => pOrLoop stmtP fuel (.logical expr op right) p2
    | .ok (false, p1) => .ok (expr, p1)

termination_by structural fuel
/-- `Parser::logical_and`: `equality ( "&&" equality )*`. -/
def pLogicalAnd (stmtP : StmtParser) (fuel : Nat) (p : PState) :
    Except RErr (Expr × PState) :=
  match fuel with
  | 0 => .error .fuelOut
  | fuel + 1 =>
    match pEquality stmtP fuel p with
    | .error e => .error e
    | .ok (expr, p1) => pAndLoop stmtP fuel expr p1
termination_by structural fuel

def pAndLoop (stmtP : StmtParser) (fuel : Nat) (expr : Expr) (p : PState) :
    Except RErr (Expr × PState) :=
  match fuel with
  | 0 => .error .fuelOut
  | fuel + 1 =>
    match pMatchSymbolLexeme p "&&" with
    | .error e => .error e
    | .ok (true, p1) =>
        match pPrevious p1 with
        | .error e => .error e
        | .ok op =>
            match pEquality stmtP fuel p1 with
            | .error e => .error e
            | .ok (right, p2) => pAndLoop stmtP fuel (.logical expr op right) p2
    | .ok (false, p1) => .ok (expr, p1)

termination_by structural fuel
/-- `Parser::equality`: `comparison ( ("==" | "!=" | "===" | "!==") comparison )*`. -/
def pEquality (stmtP : StmtParser) (fuel : Nat) (p : PState) :
    Except RErr (Expr × PState) :=
  match fuel with
  | 0 => .error .fuelOut
  | fuel + 1 =>
    match pComparison stmtP fuel p with
    | .error e => .error e
    | .ok (expr, p1) => pEqualityLoop stmtP fuel expr p1
termination_by structural fuel

def pEqualityLoop (stmtP : StmtParser) (fuel : Nat) (expr : Expr) (p : PState) :
    Except RErr (Expr × PState) :=
  match fuel with
  | 0 => .error .fuelOut
  | fuel + 1 =>
    match pMatchFirstOp p ["==", "!=", "===", "!=="] with
    | .error e => .error e
    | .ok (true, p1) =>
        match pPrevious p1 with
        | .error e => .error e
        | .ok op =>
            match pComparison stmtP fuel p1 with
            | .error e => .error e
            | .ok (right, p2) =>
                pEqualityLoop stmtP fuel (.binary expr op.lexeme right) p2
    | .ok (false, p1) => .ok (expr, p1)

termination_by structural fuel
/-- `Parser::comparison`: `term ( (">" | ">=" | "<" | "<=") term )*`. -/
def pComparison (stmtP : StmtParser) (fuel : Nat) (p : PState) :
    Except RErr (Expr × PState) :=
  match fuel with
  | 0 => .error .fuelOut
  | fuel + 1 =>
    match pTerm stmtP fuel p with
    | .error e => .error e
    | .ok (expr, p1) => pComparisonLoop stmtP fuel expr p1
termination_by structural fuel

def pComparisonLoop (stmtP : StmtParser) (fuel : Nat) (expr : Expr) (p : PState) :
    Except RErr (Expr × PState) :=
  match fuel with
  | 0 => .error .fuelOut
  | fuel + 1 =>
    match pMatchFirstOp p [">", ">=", "<", "<="] with
    | .error e => .error e
    | .ok (true, p1) =>
        match pPrevious p1 with
        | .error e => .error e
        | .ok op =>
            match pTerm stmtP fuel p1 with
            | .error e => .error e
            | .ok (right, p2) =>
                pComparisonLoop stmtP fuel (.binary expr op.lexeme right) p2
    | .ok (false, p1) => .ok (expr, p1)

termination_by structural fuel
/-- `Parser::term`: `factor ( ("+" | "-") factor )*`. -/
def pTerm (stmtP : StmtParser) (fuel : Nat) (p : PState) :
    Except RErr (Expr × PState) :=
  match fuel with
  | 0 => .error .fuelOut
  | fuel + 1 =>
    match pFactor stmtP fuel p with
    | .error e => .error e
    | .ok (expr, p1) => pTermLoop stmtP fuel expr p1
termination_by structural fuel

def pTermLoop (stmtP : StmtParser) (fuel : Nat) (expr : Expr) (p : PState) :
    Except RErr (Expr × PState) :=
  match fuel with
  | 0 => .error .fuelOut
  | fuel + 1 =>
    match pMatchFirstOp p ["+", "-"] with
    | .error e => .error e
    | .ok (true, p1) =>
        match pPrevious p1 with
        | .error e => .error e
        | .ok op =>
            match pFactor stmtP fuel p1 with
            | .error e => .error e
            | .ok (right, p2) =>
                pTermLoop stmtP fuel (.binary expr op.lexeme right) p2
    | .ok (false, p1) => .ok (expr, p1)

termination_by structural fuel
/-- `Parser::factor`: `unary ( ("*" | "/" | "%") unary )*`. -/
def pFactor (stmtP : StmtParser) (fuel : Nat) (p : PState) :
    Except RErr (Expr × PState) :=
  match fuel with
  | 0 => .error .fuelOut
  | fuel + 1 =>
    match pUnary stmtP fuel p with
    | .error e => .error e
    | .ok (expr, p1) => pFactorLoop stmtP fuel expr p1
termination_by structural fuel

def pFactorLoop (stmtP : StmtParser) (fuel : Nat) (expr : Expr) (p : PState) :
    Except RErr (Expr × PState) :=
  match fuel with
  | 0 => .error .fuelOut
  | fuel + 1 =>
    match pMatchFirstOp p ["*", "/", "%"] with
    | .error e => .error e
    | .ok (true, p1) =>
        match pPrevious p1 with
        | .error e => .error e
        | .ok op =>
            match pUnary stmtP fuel p1 with
            | .error e => .error e
            | .ok (right, p2) =>
                pFactorLoop stmtP fuel (.binary expr op.lexeme right) p2
    | .ok (false, p1) => .ok (expr, p1)

termination_by structural fuel
/-- `Parser::unary`: `("!" | "-") unary | call`. -/
def pUnary (stmtP : StmtParser) (fuel : Nat) (p : PState) :
    Except RErr (Expr × PState) :=
  match fuel with
  | 0 => .error .fuelOut
  | fuel + 1 =>
    match pMatchFirstOp p ["!", "-"] with
    | .error e => .error e
    | .ok (true, p1) =>
        match pPrevious p1 with
        | .error e => .error e
        | .ok op =>
            match pUnary stmtP fuel p1 with
            | .error e => .error e
            | .ok (right, p2) => .ok (.unary op.lexeme right, p2)
    | .ok (false, p1) => pCall stmtP fuel p1

termination_by structural fuel
/-- `Parser::call`: left-recursive postfix chain of `(...)`, `.name`,
`[...]` over a `primary`. -/
def pCall (stmtP : StmtParser) (fuel : Nat) (p : PState) :
    Except RErr (Expr × PState) :=
  match fuel with
  | 0 => .error .fuelOut
  | fuel + 1 =>
    match pPrimary stmtP fuel p with
    | .error e => .error e
    | .ok (expr, p1) => pCallLoop stmtP fuel expr p1
termination_by structural fuel

def pCallLoop (stmtP : StmtParser) (fuel : Nat) (expr : Expr) (p : PState) :
    Except RErr (Expr × PState) :=
  match fuel with
  | 0 => .error .fuelOut
  | fuel + 1 =>
    match pMatchSymbol p '(' with
    | .error e => .error e
    | .ok (true, p1) =>
        match pCheckSymbol p1 ')' with
        | .error e => .error e
        | .ok true =>
            match pConsumeSymbol p1 ')' with
            | .error e => .error e
            | .ok p2 => pCallLoop stmtP fuel (.call expr []) p2
        | .ok false =>
            match pArgsLoop stmtP fuel [] p1 with
            | .error e => .error e
            | .ok (args, p2) =>
                match pConsumeSymbol p2 ')' with
                | .error e => .error e
                | .ok p3 => pCallLoop stmtP fuel (.call expr args) p3
    | .ok (false, _) =>
        match pMatchSymbol p '.' with
        | .error e => .error e
        | .ok (true, p1) =>
            match pAdvance p1 with
            | .error e => .error e
            | .ok (t, p2) =>
                if t.kind ≠ .identifier ∧ t.kind ≠ .keyword then
                  .error (.err "Expected property name after '.'")
                else pCallLoop stmtP fuel (.get expr t.lexeme) p2
        | .ok (false, _) =>
            match pMatchSymbol p '[' with
            | .error e => .error e
            | .ok (true, p1) =>
                match pExpression stmtP fuel p1 with
                | .error e => .error e
                | .ok (idx, p2) =>
                    match pConsumeSymbol p2 ']' with
                    | .error e => .error e
                    | .ok p3 => pCallLoop stmtP fuel (.index expr idx) p3
            | .ok (false, _) => .ok (expr, p)

termination_by structural fuel
/-- The comma-separated expression list loop (`loop { push(expression);
if !match(',') break }`), shared by call arguments, array literals, `new`
arguments and tuple tails. -/
def pArgsLoop (stmtP : StmtParser) (fuel : Nat) (acc : List Expr) (p : PState) :
    Except RErr (List Expr × PState) :=
  match fuel with
  | 0 => .error .fuelOut
  | fuel + 1 =>
    match pExpression stmtP fuel p with
    | .error e => .error e
    | .ok (e, p1) =>
        match pMatchSymbol p1 ',' with
        | .error er => .error er
        | .ok (true, p2) => pArgsLoop stmtP fuel (acc ++ [e]) p2
        | .ok (false, p2) => .ok (acc ++ [e], p2)

termination_by structural fuel
/-- The object-literal field loop of `primary`. -/
def pObjectFields (stmtP : StmtParser) (fuel : Nat)
    (acc : List (String × Expr)) (p : PState) :
    Except RErr (Expr × PState) :=
  match fuel with
  | 0 => .error .fuelOut
  | fuel + 1 =>
    match pAtEnd p with
    | .error e => .error e
    | .ok atEnd =>
        match p.tokens[p.current]? with
        | none =>
            if atEnd then .error (.err "Expected property name in object literal")
            else .error (.err "token index out of bounds")
        | some t =>
            if !atEnd ∧ (t.kind = .identifier ∨ t.kind = .string) then
              match pAdvance p with
              | .error e => .error e
              | .ok (t1, p1) =>
                  match pConsumeSymbol p1 ':' with
                  | .error e => .error e
                  | .ok p2 =>
                      match pExpression stmtP fuel p2 with
                      | .error e => .error e
                      | .ok (v, p3) =>
                          let acc' := acc ++ [(t1.lexeme, v)]
                          match pMatchSymbol p3 '}' with
                          | .error e => .error e
                          | .ok (true, p4) => .ok (.objectLiteral acc', p4)
                          | .ok (false, p4) =>
                              match pConsumeSymbol p4 ',' with
                              | .error e => .error e
                              | .ok p5 => pObjectFields stmtP fuel acc' p5
            else .error (.err "Expected property name in object literal")

termination_by structural fuel
/-- The speculative parameter-list loop of the parenthesized-lambda branch
of `primary`: a non-identifier or end-of-input clears `valid`. -/
def pParamList (fuel : Nat) (acc : List String) (p : PState) :
    Except RErr (Bool × List String × PState) :=
  match fuel with
  | 0 => .error .fuelOut
  | fuel + 1 =>
    match pAtEnd p with
    | .error e => .error e
    | .ok true => .ok (false, acc, p)
    | .ok false =>
        match p.tokens[p.current]? with
        | none => .error (.err "token index out of bounds")
        | some t =>
            if t.kind ≠ .identifier then .ok (false, acc, p)
            else
              match pAdvance p with
              | .error e => .error e
              | .ok (t1, p1) =>
                  match pMatchSymbol p1 ',' with
                  | .error e => .error e
                  | .ok (true, p2) => pParamList fuel (acc ++ [t1.lexeme]) p2
                  | .ok (false, p2) => .ok (true, acc ++ [t1.lexeme], p2)

termination_by structural fuel
/-- The `while !check_symbol('}') { body.push(self.statement()) }` loop of
both lambda branches of `primary`. -/
def pLambdaBody (stmtP : StmtParser) (fuel : Nat) (acc : List Stmt)
    (p : PState) : Except RErr (List Stmt × PState) :=
  match fuel with
  | 0 => .error .fuelOut
  | fuel + 1 =>
    match pCheckSymbol p '}' with
    | .error e => .error e
    | .ok true => .ok (acc, p)
    | .ok false =>
        match stmtP fuel p with
        | .error e => .error e
        | .ok (st, p1) => pLambdaBody stmtP fuel (acc ++ [st]) p1

termination_by structural fuel
/-- The parenthesized-lambda attempt of `primary` (cursor saved, parameter
list tried, committed only when `->` follows; otherwise rolled back,
returning `none`). -/
def pParenLambda (stmtP : StmtParser) (fuel : Nat) (p : PState) :
    Except RErr (Option (Expr × PState)) :=
  match fuel with
  | 0 => .error .fuelOut
  | fuel + 1 =>
    match pAdvance p with
    | .error e => .error e
    | .ok (_, p1) =>
        match pCheckSymbol p1 ')' with
        | .error e => .error e
        | .ok emptyParams =>
            match
              (if emptyParams then .ok (true, ([] : List String), p1)
               else pParamList fuel [] p1 :
                Except RErr (Bool × List String × PState)) with
            | .error e => .error e
            | .ok (valid0, params, p2) =>
                match pMatchSymbol p2 ')' with
                | .error e => .error e
                | .ok (closed, p3) =>
                    let valid := valid0 && closed
                    match pAtEnd p3 with
                    | .error e => .error e
                    | .ok atEnd =>
                        let arrowNext :=
                          match p3.tokens[p3.current]? with
                          | some t => decide (t.lexeme = "->")
                          | none => false
                        if valid && !atEnd && arrowNext then
                          match pAdvance p3 with
                          | .error e => .error e
                          | .ok (_, p4) =>
                              match pConsumeSymbol p4 '{' with
                              | .error e => .error e
                              | .ok p5 =>
                                  match pLambdaBody stmtP fuel [] p5 with
                                  | .error e => .error e
                                  | .ok (body, p6) =>
                                      match pConsumeSymbol p6 '}' with
                                      | .error e => .error e
                                      | .ok p7 =>
                                          .ok (some (.lambda params body, p7))
                        else .ok none

/-- `Parser::primary` (`parser/expressions.rs`, line 288): literals,
groupings, tuples, array/object literals, `tap`, `new`, the two speculative
lambda branches with rollback, and postfix `++` / `--`. -/
def pPrimary (stmtP : StmtParser) (fuel : Nat) (p : PState) :
    Except RErr (Expr × PState) :=
  match fuel with
  | 0 => .error .fuelOut
  | fuel + 1 =>
    match pMatchKeyword p "tap" with
    | .error e => .error e
    | .ok (true, p1) =>
        match pCheckSymbol p1 '(' with
        | .error e => .error e
        | .ok true =>
            match pConsumeSymbol p1 '(' with
            | .error e => .error e
            | .ok p2 =>
                match pExpression stmtP fuel p2 with
                | .error e => .error e
                | .ok (e, p3) =>
                    match pConsumeSymbol p3 ')' with
                    | .error e => .error e
                    | .ok p4 => .ok (.tap e, p4)
        | .ok false =>
            match pConsumeIdentifier p1 with
            | .error e => .error e
            | .ok (name, p2) => .ok (.tap (.literal (.str name)), p2)
    | .ok (false, _) =>
    match pMatchSymbol p '[' with
    | .error e => .error e
    | .ok (true, p1) =>
        match pCheckSymbol p1 ']' with
        | .error e => .error e
        | .ok true =>
            match pConsumeSymbol p1 ']' with
            | .error e => .error e
            | .ok p2 => .ok (.arrayLiteral [], p2)
        | .ok false =>
            match pArgsLoop stmtP fuel [] p1 with
            | .error e => .error e
            | .ok (values, p2) =>
                match pConsumeSymbol p2 ']' with
                | .error e => .error e
                | .ok p3 => .ok (.arrayLiteral values, p3)
    | .ok (false, _) =>
    match pMatchSymbol p '{' with
    | .error e => .error e
    | .ok (true, p1) =>
        match pMatchSymbol p1 '}' with
        | .error e => .error e
        | .ok (true, p2) => .ok (.objectLiteral [], p2)
        | .ok (false, _) => pObjectFields stmtP fuel [] p1
    | .ok (false, _) =>
    match pMatchKeyword p "new" with
    | .error e => .error e
    | .ok (true, p1) =>
        match pConsumeIdentifier p1 with
        | .error e => .error e
        | .ok (className, p2) =>
            match pConsumeSymbol p2 '(' with
            | .error e => .error e
            | .ok p3 =>
                match pCheckSymbol p3 ')' with
                | .error e => .error e
                | .ok true =>
                    match pConsumeSymbol p3 ')' with
                    | .error e => .error e
                    | .ok p4 => .ok (.newE className [], p4)
                | .ok false =>
                    match pArgsLoop stmtP fuel [] p3 with
                    | .error e => .error e
                    | .ok (args, p4) =>
                        match pConsumeSymbol p4 ')' with
                        | .error e => .error e
                        | .ok p5 => .ok (.newE className args, p5)
    | .ok (false, _) =>
    match pCheckSymbol p '(' with
    | .error e => .error e
    | .ok parenNext =>
        match
          (if parenNext then pParenLambda stmtP fuel p
           else .ok none : Except RErr (Option (Expr × PState))) with
        | .error e => .error e
        | .ok (some r) => .ok r
        | .ok none =>
            -- rollback: the cursor is restored to `p`
            match pAtEnd p with
            | .error e => .error e
            | .ok atEnd =>
                let identNext :=
                  match p.tokens[p.current]? with
                  | some t => decide (t.kind = .identifier)
                  | none => false
                match
                  (if !atEnd && identNext then pBareLambda stmtP fuel p
                   else .ok none : Except RErr (Option (Expr × PState))) with
                | .error e => .error e
                | .ok (some r) => .ok r
                | .ok none => pPrimaryToken stmtP fuel p

termination_by structural fuel
/-- The bare-identifier lambda branch of `primary` (`x -> { ... }`), with
rollback when no arrow follows. -/
def pBareLambda (stmtP : StmtParser) (fuel : Nat) (p : PState) :
    Except RErr (Option (Expr × PState)) :=
  match fuel with
  | 0 => .error .fuelOut
  | fuel + 1 =>
    match pAdvance p with
    | .error e => .error e
    | .ok (t, p1) =>
        match pMatchArrow p1 with
        | .error e => .error e
        | .ok (true, p2) =>
            match pConsumeSymbol p2 '{' with
            | .error e => .error e
            | .ok p3 =>
                match pLambdaBody stmtP fuel [] p3 with
                | .error e => .error e
                | .ok (body, p4) =>
                    match pConsumeSymbol p4 '}' with
                    | .error e => .error e
                    | .ok p5 => .ok (some (.lambda [t.lexeme] body, p5))
        | .ok (false, _) => .ok none

/-- The final token dispatch of `primary`: number/string literals, the
`true` / `false` / `null` keywords, identifiers (with postfix `++` / `--`),
and the parenthesized grouping-vs-tuple disambiguation. -/
def pPrimaryToken (stmtP : StmtParser) (fuel : Nat) (p : PState) :
    Except RErr (Expr × PState) :=
  match fuel with
  | 0 => .error .fuelOut
  | fuel + 1 =>
    match pAdvance p with
    | .error e => .error e
    | .ok (t, p1) =>
        match t.kind with
        | .number =>
            match parseNumberLexeme t.lexeme with
            | some q => .ok (.literal (.number q), p1)
            | none => .error (.err "invalid number literal")
        | .string => .ok (.literal (.str t.lexeme), p1)
        | .keyword =>
            if t.lexeme = "true" then .ok (.literal (.bool true), p1)
            else if t.lexeme = "false" then .ok (.literal (.bool false), p1)
            else if t.lexeme = "null" then .ok (.literal .null, p1)
            else pIdentTail t.lexeme p1
        | .identifier => pIdentTail t.lexeme p1
        | .symbol =>
            if t.lexeme = "(" then
              match pCheckSymbol p1 ')' with
              | .error e => .error e
              | .ok true =>
                  match pConsumeSymbol p1 ')' with
                  | .error e => .error e
                  | .ok p2 => .ok (.tupleE [], p2)
              | .ok false =>
                  match pExpression stmtP fuel p1 with
                  | .error e => .error e
                  | .ok (v, p2) =>
                      match pMatchSymbol p2 ',' with
                      | .error e => .error e
                      | .ok (true, p3) =>
                          match pArgsLoop stmtP fuel [] p3 with
                          | .error e => .error e
                          | .ok (rest, p4) =>
                              match pConsumeSymbol p4 ')' with
                              | .error e => .error e
                              | .ok p5 => .ok (.tupleE (v :: rest), p5)
                      | .ok (false, p3) =>
                          match pConsumeSymbol p3 ')' with
                          | .error e => .error e
                          | .ok p4 => .ok (.grouping v, p4)
            else .error (.err "Unexpected token")
        | .eof => .error (.err "Unexpected token")

termination_by structural fuel
end

/-! ## Spec-side definitions and concrete fixtures

Definitions in this section are not translations of source functions: they
either transcribe a claim's (or amended claim's) wording, to be compared
with the source-derived functions above, or provide concrete states used to
instantiate theorems. -/

/-- Chain-walk certificates: `MissPathN s name k i j` states that scope `j`
is reached from scope `i` in exactly `k` parent steps, with `name` absent
from the value table of every scope strictly before `j` on the path.  Used
to state the visibility-lookup property over whole environment chains. -/
inductive MissPathN (s : State) (name : String) : Nat → Nat → Nat → Prop where
  | zero (i : Nat) : MissPathN s name 0 i i
  | succ {i p j k : Nat} (sc : Scope)
      (hsc : s.scopes[i]? = some sc)
      (hmiss : alistGet sc.values name = none)
      (hpar : sc.parent = some p)
      (hrest : MissPathN s name k p j) : MissPathN s name (k + 1) i j

/-- The amended description of loose equality (`==`): `Number` / `String` /
`Bool` / `Null` compare by value; any other pair compares equal exactly when
the two discriminants (tags) coincide. -/
def looseEqSpec (a b : Value) : Bool :=
  match a, b with
  | .number x, .number y => decide (x = y)
  | .str x, .str y => decide (x = y)
  | .bool x, .bool y => decide (x = y)
  | .null, .null => true
  | _, _ => decide (discriminantOf a = discriminantOf b)

/-- The claim's description of the bound-method parameter binding: every
declared parameter is bound to `Null` in the method scope. -/
def bindNullParams (params : List Param) (env : Nat) (s : State) : State :=
  match params with
  | [] => s
  | .mk pname _ _ :: rest =>
      bindNullParams rest env (defineVar s env pname .null .publicA)

/-- The value table built by the `Pride` arm from the child scope. -/
def prideFields (s : State) (idx : Nat) : List (String × Value) :=
  match s.scopes[idx]? with
  | some sc => sc.values.map fun kv => (kv.1, kv.2.value)
  | none => []

/-- The `fired`-events-only-after-`register` well-formedness of a trace. -/
def FiredAfterReg (l : List Event) : Prop :=
  ∀ (i id fid : Nat), l[i]? = some (Event.fired id fid) →
    ∃ j : Nat, j < i ∧ l[j]? = some (Event.register id fid)

/-- Timer-table/trace coherence: every registered entry's callback is a
native closure whose registration event is already on the log. -/
def regInv (s : State) : Prop :=
  ∀ p ∈ s.timers, ∃ fid, p.2.callback = Value.nativeFunction fid ∧
    Event.register p.1 fid ∈ s.log

/-- Predicate on an event: is it a callback invocation by the pump? -/
def Event.isFired : Event → Bool
  | .fired _ _ => true
  | .register _ _ => false

/-- State evolution invariant of every evaluator function: the event log
only grows, the growth contains no `fired` event (timer callbacks are never
invoked during evaluation — only the pump fires them), and timer-table /
trace coherence is preserved. -/
def StOK (s s' : State) : Prop :=
  (∃ t, s'.log = s.log ++ t ∧ ∀ ev ∈ t, ev.isFired = false) ∧
  (regInv s → regInv s')

/-- An empty scope cell. -/
def emptyScope : Scope := { values := [], functions := [], parent := none }

/-- The smallest well-formed world: one empty global scope. -/
def baseState : State :=
  { arrays := [], maps := [], scopes := [emptyScope], natives := [],
    timers := [], nextTimerId := 1, inflight := [], log := [] }

/-- Fixture: two distinct one-element array cells. -/
def twoArraysState : State := { baseState with arrays := [[.number 1], [.number 2]] }

/-- Fixture: a root scope holding `x` as a Private (`den`) binding, with one
child scope chained to it. -/
def privateChainState : State :=
  { baseState with scopes :=
      [{ values := [("x", { value := .number 1, access := .privateA })],
         functions := [], parent := none },
       { values := [], functions := [], parent := some 0 }] }

/-- Fixture: a root scope binding class `C` whose field `arr` holds the
(already evaluated, shared) array cell `0` — the state produced by executing
`clowder C { pride arr = [1]; }`, with the prototype table elided. -/
def classCState : State :=
  { baseState with
      arrays := [[.number 1]],
      scopes :=
        [{ values := [("C",
            { value := .classV "C" [] [] [] [("arr", .array 0 [])],
              access := .publicA })],
           functions := [], parent := none }] }

/-- Fixture: the method `m(a) { return a; }` of the bound-method property. -/
def methodM : FunctionDef :=
  .mk [.mk "a" none none] [.ret (some (.identifier "a"))] none false

/-- Fixture: an instance world with one empty field cell. -/
def instMState : State := { baseState with maps := [[]] }

/-- A statement-parser stub for closed parser runs that never reach a
statement position. -/
def noStmtP : StmtParser := fun _ _ => .error (.err "statement parser not reached")

/-- The token stream of `x = a || b` (the precedence-chain failing input). -/
def assignTokens : PState :=
  { tokens := [⟨.identifier, "x"⟩, ⟨.symbol, "="⟩, ⟨.identifier, "a"⟩,
               ⟨.symbol, "||"⟩, ⟨.identifier, "b"⟩, ⟨.eof, ""⟩],
    current := 0 }

/-- Fixture: the child-scope world after the body of
`pride Config { heart x = 1; return; }` has run: a fresh scope holding `x`,
chained to the untouched global scope. -/
def prideChildState : State :=
  { baseState with scopes :=
      [emptyScope,
       { values := [("x", { value := .number 1, access := .publicA })],
         functions := [], parent := some 0 }] }

/-- The full safety property of a state: timer-table coherence together with
a well-formed trace (every `fired` preceded by its `register`). -/
def GoodS (s : State) : Prop :=
  regInv s ∧ FiredAfterReg s.log

end Pawx

namespace Pawx

/-- C2: try/finally result aggregation (`statements.rs`, `Stmt::Try`).
When the try/catch portion yields result `r`, a missing finally block leaves
`r` as the statement outcome, and a present finally block runs afterwards:
its own first non-`None` signal overrides `r`, while a finally block that
completes with `None` leaves `r` standing. -/
theorem c2_try_finally_aggregation
    (fuel : Nat) (tb : List Stmt) (cp : Option String) (cb : Option (List Stmt))
    (env : Nat) (s : State) (r : ExecSignal) (s1 : State)
    (h : runTryCatch fuel tb cp cb env s = (.ok r, s1)) :
    execStmt (fuel + 1) (.tryS tb cp cb none) env s = (.ok r, s1) ∧
    ∀ fin fsig s2, runFinallyBlock fuel fin env s1 = (.ok fsig, s2) →
      execStmt (fuel + 1) (.tryS tb cp cb (some fin)) env s =
        (.ok (match fsig with | .noneSig => r | other => other), s2) := by
  constructor
  · simp only [execStmt, h]
  · intro fin fsig s2 hf
    simp only [execStmt, h, hf]
    cases fsig <;> rfl

/-- C4 counterexample: under the source's `==`, two DISTINCT array cells
compare equal — the fallback arm of `values_equal` compares discriminants
only, so any two arrays are `==`-equal, contradicting the claimed
reference/value comparison. -/
theorem c4_counterexample :
    evalExpr 2 (.binary (.literal (.array 0 [])) "==" (.literal (.array 1 []))) 0 twoArraysState
      = (.ok (.bool true), twoArraysState) ∧
    evalExpr 2 (.binary (.literal (.array 0 [])) "==" (.literal (.array 1 []))) 0 twoArraysState
      ≠ (.ok (.bool false), twoArraysState) := by
  refine ⟨rfl, ?_⟩
  intro h
  rw [show evalExpr 2 (.binary (.literal (.array 0 [])) "==" (.literal (.array 1 []))) 0 twoArraysState
      = (.ok (.bool true), twoArraysState) from rfl] at h
  simp at h

/-- C4 (amended): `a == b` evaluates in one step to `values_equal a b`,
which compares numbers/strings/bools/null by value and otherwise returns
`true` exactly when the two values carry the same discriminant. -/
theorem c4_loose_equality_amended (a b : Value) (env : Nat) (s : State) (fuel : Nat) :
    evalExpr (fuel + 2) (.binary (.literal a) "==" (.literal b)) env s =
      (.ok (.bool (looseEqSpec a b)), s) := by
  show (evalBinOp a b "==", s) = _
  cases a <;> cases b <;> rfl

end Pawx

namespace Pawx

/-- C5 counterexample: two structurally identical tuples are NOT
`===`-equal — `values_equal_strict` has no `Tuple` arm, so tuples fall into
the `false` fallback, contradicting the claimed deep comparison. -/
theorem c5_counterexample :
    evalExpr 2 (.binary (.literal (.tuple [.number 1])) "===" (.literal (.tuple [.number 1]))) 0 baseState
      = (.ok (.bool false), baseState) ∧
    evalExpr 2 (.binary (.literal (.tuple [.number 1])) "===" (.literal (.tuple [.number 1]))) 0 baseState
      ≠ (.ok (.bool true), baseState) := by
  refine ⟨rfl, ?_⟩
  intro h
  rw [show evalExpr 2 (.binary (.literal (.tuple [.number 1])) "===" (.literal (.tuple [.number 1]))) 0 baseState
      = (.ok (.bool false), baseState) from rfl] at h
  simp at h

/-- C5 (amended): `a === b` evaluates to `values_equal_strict a b`:
primitives by value, arrays/objects/functions by pointer identity
(`Rc::ptr_eq`, modelled as cell-index equality), and tuples NEVER compare
`===`-equal. -/
theorem c5_strict_equality_amended :
    (∀ (a b : Value) (env : Nat) (s : State) (fuel : Nat),
       evalExpr (fuel + 2) (.binary (.literal a) "===" (.literal b)) env s =
         (.ok (.bool (values_equal_strict a b)), s)) ∧
    (∀ xs ys : List Value, values_equal_strict (.tuple xs) (.tuple ys) = false) ∧
    (∀ a1 p1 a2 p2, values_equal_strict (.array a1 p1) (.array a2 p2) = decide (a1 = a2)) ∧
    (∀ o1 o2, values_equal_strict (.object o1) (.object o2) = decide (o1 = o2)) ∧
    (∀ f1 f2, values_equal_strict (.nativeFunction f1) (.nativeFunction f2) = decide (f1 = f2)) := by
  refine ⟨?_, fun xs ys => rfl, fun a1 p1 a2 p2 => rfl, fun o1 o2 => rfl, fun f1 f2 => rfl⟩
  intro a b env s fuel
  show (evalBinOp a b "===", s) = _
  cases a <;> cases b <;> rfl

/-- C6 counterexample: an out-of-bounds array READ does not raise the
claimed error — it yields `Null` (`values.get(i).cloned().unwrap_or(Null)`).
-/
theorem c6_counterexample :
    evalExpr 3 (.index (.literal (.array 0 [])) (.literal (.number 1))) 0 twoArraysState
      = (.ok .null, twoArraysState) := rfl

/-- C6 (amended): for an index past the end of the array, a read yields
`Null` with the state unchanged, while an index ASSIGNMENT raises the
`Array index out of bounds` error leaving the array unchanged; inside a
`try` block the error is normalized to a catchable `Throw` of an `Error`
value. -/
theorem c6_index_bounds_amended
    (fuel env addr : Nat) (proto : List (String × Value)) (n : Rat)
    (v : Value) (vs : List Value) (s : State)
    (hcell : s.arrays[addr]? = some vs)
    (hoob : vs.length ≤ ratToUsize n) :
    evalExpr (fuel + 2) (.index (.literal (.array addr proto)) (.literal (.number n))) env s
      = (.ok .null, s) ∧
    evalExpr (fuel + 2) (.indexAssign (.literal (.array addr proto)) (.literal (.number n)) (.literal v)) env s
      = (.error (.err "Array index out of bounds"), s) ∧
    runTryCatch (fuel + 4)
      [.expression (.indexAssign (.literal (.array addr proto)) (.literal (.number n)) (.literal v))]
      none none env s = (.ok (.throwSig (.errorV "Array index out of bounds")), s) := by
  have hread : evalExpr (fuel + 2) (.index (.literal (.array addr proto)) (.literal (.number n))) env s
      = (.ok ((vs[ratToUsize n]?).getD .null), s) := by
    simp only [evalExpr, hcell]
  have hnone : vs[ratToUsize n]? = none := List.getElem?_eq_none hoob
  have hwrite : evalExpr (fuel + 2)
      (.indexAssign (.literal (.array addr proto)) (.literal (.number n)) (.literal v)) env s
      = (.error (.err "Array index out of bounds"), s) := by
    simp only [evalExpr, hcell]
    rw [if_pos hoob]
  refine ⟨?_, hwrite, ?_⟩
  · rw [hread, hnone]; rfl
  · simp only [runTryCatch, execStmt]
    rw [hwrite]
    simp only [runCatchClause]

end Pawx

namespace Pawx

/-- C8 (code bug): the parser's `expression()` entry point starts at
`logical_or()` — contradicting both the spec and its own doc comment
`expression → assignment`.  On the token stream `x = a || b` the entry
point consumes only the identifier `x` (cursor 1), leaving `= a || b`
unparsed, whereas the (unreachable) `assignment()` rule would have produced
the assignment node — and `assignment()` itself descends straight to
`equality()`, skipping the `||` / `&&` levels. -/
theorem c8_expression_skips_assignment :
    pExpression noStmtP 30 assignTokens
      = .ok (.identifier "x", { assignTokens with current := 1 }) ∧
    pAssignment noStmtP 30 assignTokens
      = .ok (.assign "x" (.identifier "a"), { assignTokens with current := 3 }) :=
  ⟨rfl, rfl⟩

/-- C6 witness: concrete out-of-bounds read and assignment on a
one-element array cell. -/
theorem c6_witness :
    evalExpr 5 (.index (.literal (.array 0 [])) (.literal (.number 1))) 0 twoArraysState
      = (.ok .null, twoArraysState) ∧
    evalExpr 5 (.indexAssign (.literal (.array 0 [])) (.literal (.number 1)) (.literal (.number 9))) 0 twoArraysState
      = (.error (.err "Array index out of bounds"), twoArraysState) :=
  ⟨(c6_index_bounds_amended 3 0 0 [] 1 (.number 9) [.number 1] twoArraysState rfl (by decide)).1,
   (c6_index_bounds_amended 3 0 0 [] 1 (.number 9) [.number 1] twoArraysState rfl (by decide)).2.1⟩

/-- C7: `pride Name { body }` runs the body in a fresh child scope; a
`Return`/`Throw` signal from the body propagates immediately with no
binding created (the result state is exactly the body's final state), and
on normal completion the child scope's value table is copied into a fresh
`Object` cell bound under `Name` (Public) in the enclosing scope. -/
theorem c7_pride_block
    (fuel : Nat) (name : String) (body : List Stmt) (env : Nat) (s : State)
    (sig : ExecSignal) (s2 : State)
    (h : runBlockSignals fuel body ((s.newScope (some env)).1) ((s.newScope (some env)).2)
          = (.ok sig, s2)) :
    (∀ v, sig = .retSig v → execStmt (fuel + 1) (.pride name body) env s = (.ok (.retSig v), s2)) ∧
    (∀ e, sig = .throwSig e → execStmt (fuel + 1) (.pride name body) env s = (.ok (.throwSig e), s2)) ∧
    (sig = .noneSig →
      execStmt (fuel + 1) (.pride name body) env s =
        (.ok .noneSig,
         defineVar ((s2.allocMap (prideFields s2 ((s.newScope (some env)).1))).2) env name
           (.object s2.maps.length) .publicA)) := by
  refine ⟨?_, ?_, ?_⟩
  · intro v hv; subst hv
    simp only [execStmt, h]
  · intro e he; subst he
    simp only [execStmt, h]
  · intro hn; subst hn
    simp only [execStmt, h, prideFields, State.allocMap]

/-- C2 witness: a thrown value with no catch clause is overridden by a
finally block that returns `7`. -/
theorem c2_witness :
    execStmt 6 (.tryS [.throwS (.literal (.errorV "boom"))] none none
        (some [.ret (some (.literal (.number 7)))])) 0 baseState
      = (.ok (.retSig (.number 7)), baseState) :=
  (c2_try_finally_aggregation 5 [.throwS (.literal (.errorV "boom"))] none none 0 baseState
      (.throwSig (.errorV "boom")) baseState rfl).2
    [.ret (some (.literal (.number 7)))] (.retSig (.number 7)) baseState rfl

/-- C7 witness: a pride block that defines `x` and then returns: the
`Return` propagates and no `Config` binding or object is created. -/
theorem c7_witness :
    execStmt 6 (.pride "Config" [.publicVar "x" (.literal (.number 1)), .ret none]) 0 baseState
      = (.ok (.retSig .null), prideChildState) :=
  ((c7_pride_block 5 "Config" [.publicVar "x" (.literal (.number 1)), .ret none] 0 baseState
      (.retSig .null) prideChildState rfl).1 .null rfl)

/-- C3: visibility-checked variable lookup (`environment.rs::get_var`).
Along a scope chain where the name misses `k` parent hops and is found in
scope `j`: Public and Protected bindings are returned regardless of the
chain position; a Private binding is returned only when found directly in
the starting scope of a non-child lookup (`k = 0`, `is_child = false`) and
raises `Private access violation` whenever the lookup walked at least one
parent hop or was already marked as a child lookup; an exhausted chain
yields `None`. -/
theorem c3_visibility_lookup (s : State) (name : String) :
    ∀ (k i j : Nat), MissPathN s name k i j →
    ∀ fuel, k < fuel →
    ((∀ sc entry, s.scopes[j]? = some sc → alistGet sc.values name = some entry →
       ∀ isChild : Bool,
       (((entry.access = .publicA ∨ entry.access = .protectedA) →
          envGet fuel s i name isChild = .ok (some entry.value)) ∧
        (entry.access = .privateA →
          ((k = 0 ∧ isChild = false) → envGet fuel s i name isChild = .ok (some entry.value)) ∧
          ((1 ≤ k ∨ isChild = true) → envGet fuel s i name isChild =
            .error (.err ("Private access violation: '" ++ name ++ "'")))))) ∧
     (∀ sc, s.scopes[j]? = some sc → alistGet sc.values name = none → sc.parent = none →
        ∀ isChild : Bool, envGet fuel s i name isChild = .ok none)) := by
  intro k i j hpath
  induction hpath with
  | zero i =>
      intro fuel hk
      obtain ⟨f, rfl⟩ : ∃ f, fuel = f + 1 := ⟨fuel - 1, by omega⟩
      constructor
      · intro sc entry hsc hentry isChild
        constructor
        · intro hacc
          simp only [envGet, hsc, hentry]
          rcases hacc with h | h <;> rw [h]
        · intro hacc
          refine ⟨?_, ?_⟩
          · rintro ⟨-, hic⟩
            subst hic
            simp only [envGet, hsc, hentry, hacc]
            rfl
          · rintro (h1 | hic)
            · omega
            · subst hic
              simp only [envGet, hsc, hentry, hacc]
              rfl
      · intro sc hsc hm hp isChild
        simp only [envGet, hsc, hm, hp]
  | @succ i0 p j0 k0 sc hsc hmiss hpar hrest ih =>
      intro fuel hk
      obtain ⟨f, rfl⟩ : ∃ f, fuel = f + 1 := ⟨fuel - 1, by omega⟩
      have hstep : ∀ isChild : Bool, envGet (f + 1) s i0 name isChild = envGet f s p name true := by
        intro isChild
        simp only [envGet, hsc, hmiss, hpar]
      have ih' := ih f (by omega)
      constructor
      · intro sc' entry hsc' hentry isChild
        constructor
        · intro hacc
          rw [hstep isChild]
          exact ((ih'.1 sc' entry hsc' hentry true).1 hacc)
        · intro hacc
          refine ⟨?_, ?_⟩
          · rintro ⟨hk0, -⟩
            omega
          · rintro -
            rw [hstep isChild]
            exact ((ih'.1 sc' entry hsc' hentry true).2 hacc).2 (Or.inr rfl)
      · intro sc' hsc' hm hp isChild
        rw [hstep isChild]
        exact ih'.2 sc' hsc' hm hp true

end Pawx

namespace Pawx

/-- C3 witness: a Private `x` in the root scope is found from the root
itself but raises the violation when reached through the child scope. -/
theorem c3_witness :
    envGet 3 privateChainState 1 "x" false
      = .error (.err "Private access violation: 'x'") ∧
    envGet 3 privateChainState 0 "x" false = .ok (some (.number 1)) := by
  refine ⟨?_, ?_⟩
  · exact (((c3_visibility_lookup privateChainState "x" 1 1 0
        (.succ { values := [], functions := [], parent := some 0 } rfl rfl rfl (.zero 0))
        3 (by omega)).1
        { values := [("x", { value := .number 1, access := .privateA })],
          functions := [], parent := none }
        { value := .number 1, access := .privateA } rfl rfl false).2 rfl).2 (Or.inl (by omega))
  · exact (((c3_visibility_lookup privateChainState "x" 0 0 0 (.zero 0) 3 (by omega)).1
        { values := [("x", { value := .number 1, access := .privateA })],
          functions := [], parent := none }
        { value := .number 1, access := .privateA } rfl rfl false).2 rfl).1 ⟨rfl, rfl⟩

theorem bindMethodParams_noArgs :
    ∀ (params : List Param) (g i env : Nat) (s : State), params.length < g →
      bindMethodParams g params i [] env s = (.ok (), bindNullParams params env s) := by
  intro params
  induction params with
  | nil =>
      intro g i env s hg
      obtain ⟨g', rfl⟩ : ∃ g', g = g' + 1 := ⟨g - 1, by omega⟩
      simp only [bindMethodParams, bindNullParams]
  | cons p rest ih =>
      intro g i env s hg
      obtain ⟨g', rfl⟩ : ∃ g', g = g' + 1 := ⟨g - 1, by omega⟩
      cases p with
      | mk pname d t =>
          simp only [bindMethodParams, bindNullParams, List.getElem?_nil]
          exact ih g' (i + 1) env _ (by simp at hg; omega)

/-- C10: a method accessed as a property is returned as a freshly
allocated bound closure; invoking that closure ignores the supplied
arguments entirely (`call_method(method, instance, vec![], env)`), so the
method body runs with every declared parameter bound to `Null`. -/
theorem c10_bound_method_discards_args
    (fuel g : Nat) (cn : String) (fAddr : Nat)
    (ms gs ss : List (String × FunctionDef)) (name : String) (m : FunctionDef)
    (env : Nat) (s : State)
    (h1 : alistGet gs name = none)
    (h2 : (s.maps[fAddr]?).bind (fun mp => alistGet mp name) = none)
    (h3 : alistGet ms name = some m) :
    getInstanceProperty (fuel + 1) (.instanceV cn fAddr ms gs ss) name env s =
      (.ok (.nativeFunction s.natives.length),
       (s.allocNative (.boundMethod m (.instanceV "" fAddr ms gs ss) env)).2) ∧
    (∀ (s0 : State) (fid : Nat) (m0 : FunctionDef) (inst0 : Value) (env0 : Nat)
        (args args' : List Value),
       s0.natives[fid]? = some (.boundMethod m0 inst0 env0) →
       applyNative (g + 1) fid args s0 = applyNative (g + 1) fid args' s0) ∧
    (∀ (params : List Param) (body : List Stmt) (rt : Option String) (ia : Bool)
        (inst0 : Value) (env0 : Nat) (s0 : State),
       params.length < g →
       classesCallMethod (g + 1) (.mk params body rt ia) inst0 [] env0 s0 =
         runMethodBody g body s0.scopes.length
           (bindNullParams params s0.scopes.length
             (defineVar ((s0.newScope (some env0)).2) s0.scopes.length "this" inst0 .publicA))) := by
  refine ⟨?_, ?_, ?_⟩
  · simp only [getInstanceProperty, h1, h2, h3, State.allocNative]
  · intro s0 fid m0 inst0 env0 args args' hn
    simp only [applyNative, hn]
  · intro params body rt ia inst0 env0 s0 hlen
    simp only [classesCallMethod, State.newScope]
    rw [bindMethodParams_noArgs params g 0 s0.scopes.length _ hlen]

theorem envGet_congr (fuel : Nat) (s s' : State) (h : s.scopes = s'.scopes) :
    ∀ idx name isChild, envGet fuel s idx name isChild = envGet fuel s' idx name isChild := by
  induction fuel with
  | zero => intro idx name isChild; rfl
  | succ f ih =>
      intro idx name isChild
      simp only [envGet, h]
      cases hsc : s'.scopes[idx]? with
      | none => simp only [hsc]
      | some sc =>
          simp only [hsc]
          cases hv : alistGet sc.values name with
          | some e => simp only [hv]
          | none =>
              simp only [hv]
              cases hp : sc.parent with
              | some p => simp only [hp]; exact ih p name true
              | none => simp only [hp]

/-- C1: class field defaults alias across instances
(`classes.rs::construct_instance`).  Constructing two instances of a class
whose field default holds an array cell copies only the field MAP into each
fresh instance cell: both instances' field maps are distinct cells holding
the same `Value::Array` address, property reads through either instance
yield the same backing cell, and a `push` through that cell is observable
through both instances. -/
theorem c1_class_field_defaults_alias
    (fuel g : Nat) (className cn : String) (env : Nat) (s : State)
    (ms gs ss : List (String × FunctionDef)) (flds : List (String × Value))
    (f : String) (addr : Nat) (proto : List (String × Value)) (vs : List Value) (v : Value)
    (hclass : envGet (fuel + 1) s env className false = .ok (some (.classV cn ms gs ss flds)))
    (hnoctor : alistGet ms "new" = none)
    (hfield : alistGet flds f = some (.array addr proto))
    (hnogetter : alistGet gs f = none)
    (hcell : s.arrays[addr]? = some vs) :
    constructInstance (fuel + 2) className [] env s =
      (.ok (.instanceV className s.maps.length ms gs ss), (s.allocMap flds).2) ∧
    constructInstance (fuel + 2) className [] env ((s.allocMap flds).2) =
      (.ok (.instanceV className (s.maps.length + 1) ms gs ss),
       (((s.allocMap flds).2).allocMap flds).2) ∧
    (s.maps.length ≠ s.maps.length + 1 ∧
     ((((s.allocMap flds).2).allocMap flds).2).maps[s.maps.length]? = some flds ∧
     ((((s.allocMap flds).2).allocMap flds).2).maps[s.maps.length + 1]? = some flds) ∧
    (getInstanceProperty (g + 1) (.instanceV className s.maps.length ms gs ss) f env
        ((((s.allocMap flds).2).allocMap flds).2) =
      (.ok (.array addr proto), (((s.allocMap flds).2).allocMap flds).2) ∧
     getInstanceProperty (g + 1) (.instanceV className (s.maps.length + 1) ms gs ss) f env
        ((((s.allocMap flds).2).allocMap flds).2) =
      (.ok (.array addr proto), (((s.allocMap flds).2).allocMap flds).2)) ∧
    (arrayPushFn [.array addr proto, v] ((((s.allocMap flds).2).allocMap flds).2) =
      (.ok (.number ((vs.length + 1 : Nat) : Rat)),
       ((((s.allocMap flds).2).allocMap flds).2).setArr addr (vs ++ [v])) ∧
     (((((s.allocMap flds).2).allocMap flds).2).setArr addr (vs ++ [v])).arrays[addr]?
       = some (vs ++ [v])) := by
  have hmapsA : ((s.allocMap flds).2).maps = s.maps ++ [flds] := rfl
  have hmapsB : ((((s.allocMap flds).2).allocMap flds).2).maps = (s.maps ++ [flds]) ++ [flds] := by
    simp [State.allocMap]
  have hlen : addr < s.arrays.length := (List.getElem?_eq_some.mp hcell).1
  have harrB : ((((s.allocMap flds).2).allocMap flds).2).arrays = s.arrays := rfl
  have hma : ((((s.allocMap flds).2).allocMap flds).2).maps[s.maps.length]? = some flds := by
    rw [hmapsB, List.getElem?_append_left (by simp), List.getElem?_concat_length]
  have hmb : ((((s.allocMap flds).2).allocMap flds).2).maps[s.maps.length + 1]? = some flds := by
    rw [hmapsB, show s.maps.length + 1 = (s.maps ++ [flds]).length by simp,
        List.getElem?_concat_length]
  refine ⟨?_, ?_, ⟨by omega, hma, hmb⟩, ⟨?_, ?_⟩, ⟨?_, ?_⟩⟩
  · -- first construction
    simp only [constructInstance, hclass, hnoctor, State.allocMap, evalArgs]
  · -- second construction
    have hclass' : envGet (fuel + 1) ((s.allocMap flds).2) env className false
        = .ok (some (.classV cn ms gs ss flds)) := by
      rw [← envGet_congr (fuel + 1) s ((s.allocMap flds).2) rfl]
      exact hclass
    simp only [State.allocMap] at hclass'
    simp only [constructInstance, State.allocMap, evalArgs, hclass', hnoctor]
    simp
  · simp only [getInstanceProperty, hnogetter, hma, hfield, Option.bind]
  · simp only [getInstanceProperty, hnogetter, hmb, hfield, Option.bind]
  · simp only [arrayPushFn, harrB, hcell]
    simp [State.setArr]
  · show (((s.allocMap flds).2.allocMap flds).2.setArr addr (vs ++ [v])).arrays[addr]? = _
    simp only [State.setArr, harrB]
    exact List.getElem?_set_self hlen

theorem stok_rfl (s : State) : StOK s s :=
  ⟨⟨[], by simp, by simp⟩, id⟩

theorem stok_trans {a b c : State} (h1 : StOK a b) (h2 : StOK b c) : StOK a c := by
  obtain ⟨⟨t1, ht1, hf1⟩, hr1⟩ := h1
  obtain ⟨⟨t2, ht2, hf2⟩, hr2⟩ := h2
  refine ⟨⟨t1 ++ t2, by rw [ht2, ht1, List.append_assoc], ?_⟩, fun h => hr2 (hr1 h)⟩
  intro ev hev
  rcases List.mem_append.mp hev with h | h
  · exact hf1 ev h
  · exact hf2 ev h

theorem stok_frozen {s s' : State} (hl : s'.log = s.log) (ht : s'.timers = s.timers) :
    StOK s s' := by
  refine ⟨⟨[], by simp [hl], by simp⟩, ?_⟩
  intro h p hp
  rw [ht] at hp
  obtain ⟨fid, hcb, hmem⟩ := h p hp
  exact ⟨fid, hcb, by rw [hl]; exact hmem⟩

theorem stok_bindE {α β : Type} {s : State} {p : Except RErr α × State}
    (h : StOK s p.2)
    {k : α → State → Except RErr β × State}
    (hk : ∀ a s1, StOK s1 (k a s1).2) :
    StOK s (match p with
            | (.error er, s1) => ((.error er : Except RErr β), s1)
            | (.ok a, s1) => k a s1).2 := by
  rcases p with ⟨r, s1⟩
  cases r with
  | error er => exact h
  | ok a => exact stok_trans h (hk a s1)


theorem stok_of_eq {γ : Type} {s s1 : State} {r : γ} {p : γ × State}
    (hp : StOK s p.2) (he : p = (r, s1)) : StOK s s1 := by
  rw [he] at hp; exact hp

@[simp] theorem modScope_log (s : State) (i : Nat) (f : Scope → Scope) :
    (s.modScope i f).log = s.log := by
  unfold State.modScope; cases s.scopes[i]? <;> rfl

@[simp] theorem modScope_timers (s : State) (i : Nat) (f : Scope → Scope) :
    (s.modScope i f).timers = s.timers := by
  unfold State.modScope; cases s.scopes[i]? <;> rfl

theorem stok_defineVar (s : State) (i : Nat) (n : String) (v : Value) (a : Access) :
    StOK s (defineVar s i n v a) := stok_frozen (by simp [defineVar]) (by simp [defineVar])

theorem stok_defineFunction (s : State) (i : Nat) (n : String) (fd : FunctionDef) :
    StOK s (defineFunction s i n fd) :=
  stok_frozen (by simp [defineFunction]) (by simp [defineFunction])

theorem stok_allocArr (s : State) (vs : List Value) : StOK s (s.allocArr vs).2 :=
  stok_frozen rfl rfl

theorem stok_allocMap (s : State) (m : List (String × Value)) : StOK s (s.allocMap m).2 :=
  stok_frozen rfl rfl

theorem stok_allocNative (s : State) (c : NativeClosure) : StOK s (s.allocNative c).2 :=
  stok_frozen rfl rfl

theorem stok_newScope (s : State) (p : Option Nat) : StOK s (s.newScope p).2 :=
  stok_frozen rfl rfl

theorem stok_setArr (s : State) (a : Nat) (vs : List Value) : StOK s (s.setArr a vs) :=
  stok_frozen rfl rfl

theorem stok_setMap (s : State) (a : Nat) (m : List (String × Value)) : StOK s (s.setMap a m) :=
  stok_frozen rfl rfl

theorem stok_createArrayProto (s : State) : StOK s (createArrayProto s).2 :=
  stok_frozen rfl rfl

theorem stok_arrayPushFn (args : List Value) (s : State) : StOK s (arrayPushFn args s).2 := by
  cases args with
  | nil => exact stok_rfl _
  | cons v rest =>
      unfold arrayPushFn
      cases v
      case array addr proto =>
        cases harr : s.arrays[addr]? with
        | none => simp only [harr]; exact stok_rfl _
        | some vs => simp only [harr]; exact stok_setArr _ _ _
      all_goals exact stok_rfl _

theorem stok_arrayPopFn (args : List Value) (s : State) : StOK s (arrayPopFn args s).2 := by
  cases args with
  | nil => exact stok_rfl _
  | cons v rest =>
      unfold arrayPopFn
      cases v
      case array addr proto =>
        cases harr : s.arrays[addr]? with
        | none => simp only [harr]; exact stok_rfl _
        | some vs => simp only [harr]; exact stok_setArr _ _ _
      all_goals exact stok_rfl _

theorem tlistGet_put (l : List (Nat × TimerEntry)) (k k' : Nat) (v : TimerEntry) :
    tlistGet (tlistPut l k v) k' = if k = k' then some v else tlistGet l k' := by
  induction l with
  | nil => simp [tlistPut, tlistGet]
  | cons kv rest ih =>
      obtain ⟨k0, v0⟩ := kv
      by_cases h0 : k0 = k
      · subst h0
        simp only [tlistPut, if_pos rfl, tlistGet]
        by_cases h1 : k0 = k' <;> simp [h1]
      · simp only [tlistPut, if_neg h0, tlistGet, ih]
        by_cases h1 : k0 = k' <;> by_cases h2 : k = k'
        · exact absurd (h1.trans h2.symm) h0
        · simp [h1, h2]
        · simp [h1, h2]
        · simp [h1, h2]

theorem mem_tlistPut_gen (l : List (Nat × TimerEntry)) (k : Nat) (v : TimerEntry) :
    ∀ p ∈ tlistPut l k v, p = (k, v) ∨ p ∈ l := by
  induction l with
  | nil => intro p hp; simp only [tlistPut, List.mem_singleton] at hp; exact .inl hp
  | cons kv rest ih =>
      obtain ⟨k0, v0⟩ := kv
      intro p hp
      by_cases h0 : k0 = k
      · subst h0
        rw [tlistPut, if_pos rfl] at hp
        rcases List.mem_cons.mp hp with h | h
        · exact .inl h
        · exact .inr (List.mem_cons_of_mem _ h)
      · simp only [tlistPut, if_neg h0, List.mem_cons] at hp
        rcases hp with h | h
        · exact .inr (by simp [h])
        · rcases ih p h with h1 | h2
          · exact .inl h1
          · exact .inr (List.mem_cons_of_mem _ h2)

theorem mem_tlistPut {l : List (Nat × TimerEntry)} {k : Nat} {v : TimerEntry}
    {p : Nat × TimerEntry} (hp : p ∈ tlistPut l k v) : p = (k, v) ∨ p ∈ l :=
  mem_tlistPut_gen l k v p hp

theorem stok_setTimeoutFn (args : List Value) (s : State) :
    StOK s (setTimeoutFn args s).2 := by
  unfold setTimeoutFn
  split
  · exact stok_rfl _
  · split
    · split
      · split
        · -- success: register + insert + inflight
          refine ⟨⟨[.register s.nextTimerId _], rfl, ?_⟩, ?_⟩
          · intro ev hev
            simp only [List.mem_singleton] at hev
            subst hev
            rfl
          · intro h p hp
            rcases mem_tlistPut hp with hp1 | hp2
            · subst hp1
              exact ⟨_, rfl, by simp⟩
            · obtain ⟨fid, hcb, hmem⟩ := h p hp2
              exact ⟨fid, hcb, by simp [hmem]⟩
        · exact stok_rfl _
      · exact stok_rfl _
    · exact stok_rfl _


theorem stok_envAssign (fuel : Nat) (s : State) (idx : Nat) (name : String) (v : Value) :
    StOK s (envAssign fuel s idx name v).2 := by
  induction fuel generalizing idx with
  | zero => exact stok_rfl _
  | succ f ih =>
      simp only [envAssign]
      split
      · exact stok_rfl _
      · split
        · exact stok_frozen (by simp) (by simp)
        · split
          · exact ih _
          · exact stok_rfl _

theorem stepRunUserBody (f : Nat)
    (ihExec : ∀ st env s, StOK s (execStmt f st env s).2)
    (ihRunU : ∀ b env s, StOK s (runUserBody f b env s).2) :
    ∀ b env s, StOK s (runUserBody (f + 1) b env s).2 := by
  intro b env s
  cases b with
  | nil => exact stok_rfl _
  | cons stmt rest =>
      simp only [runUserBody]
      rcases h1 : execStmt f stmt env s with ⟨r1, s1⟩
      have H1 := stok_of_eq (ihExec stmt env s) h1
      cases r1 with
      | error er => exact H1
      | ok sig =>
          cases sig with
          | noneSig => exact stok_trans H1 (ihRunU rest env s1)
          | retSig v => exact H1
          | throwSig e => exact H1

theorem stepExecSeq (f : Nat)
    (ihExec : ∀ st env s, StOK s (execStmt f st env s).2)
    (ihSeq : ∀ b env s, StOK s (execSeq f b env s).2) :
    ∀ b env s, StOK s (execSeq (f + 1) b env s).2 := by
  intro b env s
  cases b with
  | nil => exact stok_rfl _
  | cons stmt rest =>
      simp only [execSeq]
      rcases h1 : execStmt f stmt env s with ⟨r1, s1⟩
      have H1 := stok_of_eq (ihExec stmt env s) h1
      cases r1 with
      | error er => exact H1
      | ok sig =>
          cases sig with
          | noneSig => exact stok_trans H1 (ihSeq rest env s1)
          | retSig v => exact H1
          | throwSig e => exact H1

theorem stepRunCatchBody (f : Nat)
    (ihExec : ∀ st env s, StOK s (execStmt f st env s).2)
    (ihCatchB : ∀ b env s, StOK s (runCatchBody f b env s).2) :
    ∀ b env s, StOK s (runCatchBody (f + 1) b env s).2 := by
  intro b env s
  cases b with
  | nil => exact stok_rfl _
  | cons stmt rest =>
      simp only [runCatchBody]
      rcases h1 : execStmt f stmt env s with ⟨r1, s1⟩
      have H1 := stok_of_eq (ihExec stmt env s) h1
      cases r1 with
      | error er => cases er with
          | err m => exact H1
          | fuelOut => exact H1
      | ok sig =>
          cases sig with
          | noneSig => exact stok_trans H1 (ihCatchB rest env s1)
          | retSig v => exact H1
          | throwSig e => exact H1

theorem stepRunFinallyBlock (f : Nat)
    (ihExec : ∀ st env s, StOK s (execStmt f st env s).2)
    (ihFin : ∀ b env s, StOK s (runFinallyBlock f b env s).2) :
    ∀ b env s, StOK s (runFinallyBlock (f + 1) b env s).2 := by
  intro b env s
  cases b with
  | nil => exact stok_rfl _
  | cons stmt rest =>
      simp only [runFinallyBlock]
      rcases h1 : execStmt f stmt env s with ⟨r1, s1⟩
      have H1 := stok_of_eq (ihExec stmt env s) h1
      cases r1 with
      | error er => cases er with
          | err m => exact H1
          | fuelOut => exact H1
      | ok sig =>
          cases sig with
          | noneSig => exact stok_trans H1 (ihFin rest env s1)
          | retSig v => exact H1
          | throwSig e => exact H1

theorem stepRunBlockSignals (f : Nat)
    (ihExec : ∀ st env s, StOK s (execStmt f st env s).2)
    (ihBlock : ∀ b env s, StOK s (runBlockSignals f b env s).2) :
    ∀ b env s, StOK s (runBlockSignals (f + 1) b env s).2 := by
  intro b env s
  cases b with
  | nil => exact stok_rfl _
  | cons stmt rest =>
      simp only [runBlockSignals]
      rcases h1 : execStmt f stmt env s with ⟨r1, s1⟩
      have H1 := stok_of_eq (ihExec stmt env s) h1
      cases r1 with
      | error er => cases er with
          | err m => exact H1
          | fuelOut => exact H1
      | ok sig =>
          cases sig with
          | noneSig => exact stok_trans H1 (ihBlock rest env s1)
          | retSig v => exact H1
          | throwSig e => exact H1

theorem stepRunMethodBody (f : Nat)
    (ihExec : ∀ st env s, StOK s (execStmt f st env s).2)
    (ihRunM : ∀ b env s, StOK s (runMethodBody f b env s).2) :
    ∀ b env s, StOK s (runMethodBody (f + 1) b env s).2 := by
  intro b env s
  cases b with
  | nil => exact stok_rfl _
  | cons stmt rest =>
      simp only [runMethodBody]
      rcases h1 : execStmt f stmt env s with ⟨r1, s1⟩
      have H1 := stok_of_eq (ihExec stmt env s) h1
      cases r1 with
      | error er => exact H1
      | ok sig =>
          cases sig with
          | noneSig => exact stok_trans H1 (ihRunM rest env s1)
          | retSig v => exact H1
          | throwSig e => exact H1
theorem stok_bindValueParams (params : List Param) (args : List Value) (i env : Nat) (s : State) :
    StOK s (bindValueParams params args i env s) := by
  induction params generalizing args i s with
  | nil => exact stok_rfl _
  | cons p rest ih =>
      obtain ⟨pname, d, t⟩ := p
      exact stok_trans (stok_defineVar _ _ _ _ _) (ih _ _ _)

theorem stok_bindLambdaParams (params : List String) (args : List Value) (i env : Nat) (s : State) :
    StOK s (bindLambdaParams params args i env s) := by
  induction params generalizing args i s with
  | nil => exact stok_rfl _
  | cons p rest ih =>
      exact stok_trans (stok_defineVar _ _ _ _ _) (ih _ _ _)

theorem stepEvalArgs (f : Nat)
    (ihEval : ∀ e env s, StOK s (evalExpr f e env s).2)
    (ihArgs : ∀ es env s, StOK s (evalArgs f es env s).2) :
    ∀ es env s, StOK s (evalArgs (f + 1) es env s).2 := by
  intro es env s
  cases es with
  | nil => exact stok_rfl _
  | cons e rest =>
      rcases h1 : evalExpr f e env s with ⟨r1, s1⟩
      have H1 := stok_of_eq (ihEval e env s) h1
      cases r1 with
      | error er => simp only [evalArgs, h1]; exact H1
      | ok v =>
          rcases h2 : evalArgs f rest env s1 with ⟨r2, s2⟩
          have H2 := stok_trans H1 (stok_of_eq (ihArgs rest env s1) h2)
          cases r2 with
          | error er => simp only [evalArgs, h1, h2]; exact H2
          | ok vs => simp only [evalArgs, h1, h2]; exact H2

theorem stepEvalObjFields (f : Nat)
    (ihEval : ∀ e env s, StOK s (evalExpr f e env s).2)
    (ihObj : ∀ fs acc env s, StOK s (evalObjFields f fs acc env s).2) :
    ∀ fs acc env s, StOK s (evalObjFields (f + 1) fs acc env s).2 := by
  intro fs acc env s
  cases fs with
  | nil => exact stok_rfl _
  | cons kv rest =>
      obtain ⟨name, e⟩ := kv
      rcases h1 : evalExpr f e env s with ⟨r1, s1⟩
      have H1 := stok_of_eq (ihEval e env s) h1
      cases r1 with
      | error er => simp only [evalObjFields, h1]; exact H1
      | ok v =>
          simp only [evalObjFields, h1]
          exact stok_trans H1 (ihObj rest (alistPut acc name v) env s1)

theorem stepBindUserParams (f : Nat)
    (ihEval : ∀ e env s, StOK s (evalExpr f e env s).2)
    (ihBindU : ∀ ps i av env s, StOK s (bindUserParams f ps i av env s).2) :
    ∀ ps i av env s, StOK s (bindUserParams (f + 1) ps i av env s).2 := by
  intro ps i av env s
  cases ps with
  | nil => exact stok_rfl _
  | cons p rest =>
      obtain ⟨pname, dflt, t⟩ := p
      cases hv : av[i]? with
      | some v =>
          simp only [bindUserParams, hv]
          exact stok_trans (stok_defineVar _ _ _ _ _)
            (ihBindU rest (i + 1) av env (defineVar s env pname v .publicA))
      | none =>
          cases dflt with
          | some dexpr =>
              rcases h1 : evalExpr f dexpr env s with ⟨r1, s1⟩
              have H1 := stok_of_eq (ihEval dexpr env s) h1
              cases r1 with
              | error er => simp only [bindUserParams, hv, h1]; exact H1
              | ok v =>
                  simp only [bindUserParams, hv, h1]
                  exact stok_trans H1 (stok_trans (stok_defineVar _ _ _ _ _)
                    (ihBindU rest (i + 1) av env (defineVar s1 env pname v .publicA)))
          | none =>
              simp only [bindUserParams, hv]
              exact stok_trans (stok_defineVar _ _ _ _ _)
                (ihBindU rest (i + 1) av env (defineVar s env pname .null .publicA))

theorem stepBindMethodParams (f : Nat)
    (ihEval : ∀ e env s, StOK s (evalExpr f e env s).2)
    (ihBindM : ∀ ps i args env s, StOK s (bindMethodParams f ps i args env s).2) :
    ∀ ps i args env s, StOK s (bindMethodParams (f + 1) ps i args env s).2 := by
  intro ps i args env s
  cases ps with
  | nil => exact stok_rfl _
  | cons p rest =>
      obtain ⟨pname, dflt, t⟩ := p
      cases hv : args[i]? with
      | some argExpr =>
          rcases h1 : evalExpr f argExpr env s with ⟨r1, s1⟩
          have H1 := stok_of_eq (ihEval argExpr env s) h1
          cases r1 with
          | error er => simp only [bindMethodParams, hv, h1]; exact H1
          | ok v =>
              simp only [bindMethodParams, hv, h1]
              exact stok_trans H1 (stok_trans (stok_defineVar _ _ _ _ _)
                (ihBindM rest (i + 1) args env (defineVar s1 env pname v .publicA)))
      | none =>
          simp only [bindMethodParams, hv]
          exact stok_trans (stok_defineVar _ _ _ _ _)
            (ihBindM rest (i + 1) args env (defineVar s env pname .null .publicA))

theorem stepBuildClassMaps (f : Nat)
    (ihEval : ∀ e env s, StOK s (evalExpr f e env s).2)
    (ihBuild : ∀ mem ms gs ss fs env s, StOK s (buildClassMaps f mem ms gs ss fs env s).2) :
    ∀ mem ms gs ss fs env s, StOK s (buildClassMaps (f + 1) mem ms gs ss fs env s).2 := by
  intro mem ms gs ss fs env s
  cases mem with
  | nil => exact stok_rfl _
  | cons m rest =>
      cases m with
      | field name acc st t value =>
          cases value with
          | some expr =>
              rcases h1 : evalExpr f expr env s with ⟨r1, s1⟩
              have H1 := stok_of_eq (ihEval expr env s) h1
              cases r1 with
              | error er => simp only [buildClassMaps, h1]; exact H1
              | ok v =>
                  simp only [buildClassMaps, h1]
                  exact stok_trans H1 (ihBuild rest ms gs ss _ env s1)
          | none =>
              simp only [buildClassMaps]
              exact ihBuild rest ms gs ss _ env s
      | methodM name acc st params rt body =>
          simp only [buildClassMaps]
          exact ihBuild rest _ gs ss fs env s
      | getter name rt body =>
          simp only [buildClassMaps]
          exact ihBuild rest ms _ ss fs env s
      | setter name pn pt body =>
          simp only [buildClassMaps]
          exact ihBuild rest ms gs _ fs env s

theorem stepCallValue (f : Nat)
    (ihArgs : ∀ es env s, StOK s (evalArgs f es env s).2)
    (ihApply : ∀ fid args s, StOK s (applyNative f fid args s).2) :
    ∀ cv args env s, StOK s (callValue (f + 1) cv args env s).2 := by
  intro cv args env s
  rcases h1 : evalArgs f args env s with ⟨r1, s1⟩
  have H1 := stok_of_eq (ihArgs args env s) h1
  cases r1 with
  | error er => simp only [callValue, h1]; exact H1
  | ok av =>
      simp only [callValue, h1]
      cases cv with
      | nativeFunction fid => exact stok_trans H1 (ihApply fid av s1)
      | number n => exact H1
      | str v => exact H1
      | bool b => exact H1
      | null => exact H1
      | array a p => exact H1
      | object a => exact H1
      | classV n m g st fl => exact H1
      | instanceV n a m g st => exact H1
      | furure i => exact H1
      | errorV m => exact H1
      | moduleV e d => exact H1
      | tuple vs => exact H1
      | regex p => exact H1

theorem stepCallUserFunction (f : Nat)
    (ihBindU : ∀ ps i av env s, StOK s (bindUserParams f ps i av env s).2)
    (ihRunU : ∀ b env s, StOK s (runUserBody f b env s).2) :
    ∀ fd av env s, StOK s (callUserFunction (f + 1) fd av env s).2 := by
  intro fd av env s
  cases fd with
  | mk params body rt ia =>
      rcases h1 : bindUserParams f params 0 av (s.newScope (some env)).1 (s.newScope (some env)).2
        with ⟨r1, s1⟩
      have H1 := stok_trans (stok_newScope s (some env))
        (stok_of_eq (ihBindU params 0 av (s.newScope (some env)).1 (s.newScope (some env)).2) h1)
      cases r1 with
      | error er => simp only [callUserFunction, h1]; exact H1
      | ok u =>
          simp only [callUserFunction, h1]
          exact stok_trans H1 (ihRunU body (s.newScope (some env)).1 s1)

theorem stepClassesCallMethodValue (f : Nat)
    (ihRunM : ∀ b env s, StOK s (runMethodBody f b env s).2) :
    ∀ fd inst av env s, StOK s (classesCallMethodValue (f + 1) fd inst av env s).2 := by
  intro fd inst av env s
  cases fd with
  | mk params body rt ia =>
      simp only [classesCallMethodValue]
      exact stok_trans (stok_newScope s (some env))
        (stok_trans (stok_defineVar _ _ _ _ _)
          (stok_trans (stok_bindValueParams _ _ _ _ _) (ihRunM body _ _)))

theorem stepClassesCallMethod (f : Nat)
    (ihBindM : ∀ ps i args env s, StOK s (bindMethodParams f ps i args env s).2)
    (ihRunM : ∀ b env s, StOK s (runMethodBody f b env s).2) :
    ∀ fd inst args env s, StOK s (classesCallMethod (f + 1) fd inst args env s).2 := by
  intro fd inst args env s
  cases fd with
  | mk params body rt ia =>
      rcases h1 : bindMethodParams f params 0 args (s.newScope (some env)).1
          (defineVar (s.newScope (some env)).2 (s.newScope (some env)).1 "this" inst .publicA)
        with ⟨r1, s1⟩
      have H1 := stok_trans (stok_newScope s (some env))
        (stok_trans (stok_defineVar _ _ _ _ _) (stok_of_eq (ihBindM _ _ _ _ _) h1))
      cases r1 with
      | error er => simp only [classesCallMethod, h1]; exact H1
      | ok u =>
          simp only [classesCallMethod, h1]
          exact stok_trans H1 (ihRunM body (s.newScope (some env)).1 s1)

theorem stepGetInstanceProperty (f : Nat)
    (ihCallM : ∀ fd inst args env s, StOK s (classesCallMethod f fd inst args env s).2) :
    ∀ inst name env s, StOK s (getInstanceProperty (f + 1) inst name env s).2 := by
  intro inst name env s
  simp only [getInstanceProperty]
  split
  case _ cn fieldsAddr methods getters setters =>
    split
    next g hg => exact ihCallM g _ [] env s
    next hg =>
      split
      next val hval => exact stok_rfl s
      next hval =>
        split
        next m hm => exact stok_allocNative s _
        next hm => exact stok_rfl s
  case _ => exact stok_rfl s

theorem stepConstructInstance (f : Nat)
    (ihArgs : ∀ es env s, StOK s (evalArgs f es env s).2)
    (ihCallMV : ∀ fd inst av env s, StOK s (classesCallMethodValue f fd inst av env s).2) :
    ∀ cn args env s, StOK s (constructInstance (f + 1) cn args env s).2 := by
  intro cn args env s
  simp only [constructInstance]
  split
  next er henv => exact stok_rfl s
  next henv => exact stok_rfl s
  next classVal henv =>
    split
    case _ nm methods getters setters fields =>
      have Halloc : StOK s (s.allocMap fields).2 := stok_allocMap s fields
      split
      next er s2 heq =>
        exact stok_trans Halloc (stok_of_eq (ihArgs args env _) heq)
      next argValues s2 heq =>
        have H1 := stok_trans Halloc (stok_of_eq (ihArgs args env _) heq)
        split
        next ctor hctor =>
          split
          next er s3 heq2 =>
            exact stok_trans H1 (stok_of_eq (ihCallMV ctor _ argValues env s2) heq2)
          next v s3 heq2 =>
            exact stok_trans H1 (stok_of_eq (ihCallMV ctor _ argValues env s2) heq2)
        next hctor => exact H1
    case _ => exact stok_rfl s

theorem stepExecWhile (f : Nat)
    (ihEval : ∀ e env s, StOK s (evalExpr f e env s).2)
    (ihSeq : ∀ b env s, StOK s (execSeq f b env s).2)
    (ihWhile : ∀ c b env s, StOK s (execWhile f c b env s).2) :
    ∀ c b env s, StOK s (execWhile (f + 1) c b env s).2 := by
  intro c b env s
  simp only [execWhile]
  split
  next s1 heq => exact stok_of_eq (ihEval c env s) heq
  next condVal s1 hne heq =>
    have H1 : StOK s s1 := stok_of_eq (ihEval c env s) heq
    split
    next => exact H1
    next =>
      rcases h2 : execSeq f b env s1 with ⟨r2, s2⟩
      have H2 := stok_trans H1 (stok_of_eq (ihSeq b env s1) h2)
      cases r2 with
      | error er => exact H2
      | ok sig =>
          cases sig with
          | noneSig => exact stok_trans H2 (ihWhile c b env s2)
          | retSig v => exact H2
          | throwSig e => exact H2

theorem stepRunTryCatch (f : Nat)
    (ihExec : ∀ st env s, StOK s (execStmt f st env s).2)
    (ihTry : ∀ tb cp cb env s, StOK s (runTryCatch f tb cp cb env s).2)
    (ihCatch : ∀ cp cb errv env s, StOK s (runCatchClause f cp cb errv env s).2) :
    ∀ tb cp cb env s, StOK s (runTryCatch (f + 1) tb cp cb env s).2 := by
  intro tb cp cb env s
  cases tb with
  | nil => exact stok_rfl _
  | cons stmt rest =>
      simp only [runTryCatch]
      split
      next s1 heq =>
        exact stok_trans (stok_of_eq (ihExec stmt env s) heq)
          (ihTry rest cp cb env s1)
      next v s1 heq => exact stok_of_eq (ihExec stmt env s) heq
      next errv s1 heq =>
        exact stok_trans (stok_of_eq (ihExec stmt env s) heq)
          (ihCatch cp cb errv env s1)
      next m s1 heq =>
        exact stok_trans (stok_of_eq (ihExec stmt env s) heq)
          (ihCatch cp cb (.errorV m) env s1)
      next s1 heq => exact stok_of_eq (ihExec stmt env s) heq

theorem stepRunCatchClause (f : Nat)
    (ihCatchB : ∀ b env s, StOK s (runCatchBody f b env s).2) :
    ∀ cp cb errv env s, StOK s (runCatchClause (f + 1) cp cb errv env s).2 := by
  intro cp cb errv env s
  simp only [runCatchClause]
  split
  next name catchBody =>
    exact stok_trans (stok_newScope s (some env))
      (stok_trans (stok_defineVar _ _ _ _ _) (ihCatchB catchBody _ _))
  next h => exact stok_rfl s

theorem stepApplyNative (f : Nat)
    (ihRunU : ∀ b env s, StOK s (runUserBody f b env s).2)
    (ihCallM : ∀ fd inst args env s, StOK s (classesCallMethod f fd inst args env s).2)
    (ihApply : ∀ fid args s, StOK s (applyNative f fid args s).2) :
    ∀ fid args s, StOK s (applyNative (f + 1) fid args s).2 := by
  intro fid args s
  cases hnat : s.natives[fid]? with
  | none => simp only [applyNative, hnat]; exact stok_rfl s
  | some c =>
      cases c with
      | arrayPush => simp only [applyNative, hnat]; exact stok_arrayPushFn args s
      | arrayPop => simp only [applyNative, hnat]; exact stok_arrayPopFn args s
      | hostFn nm => simp only [applyNative, hnat]; exact stok_rfl s
      | errorCtor => simp only [applyNative, hnat]; exact stok_rfl s
      | lambdaC params body captured =>
          simp only [applyNative, hnat]
          exact stok_trans (stok_newScope s (some captured))
            (stok_trans (stok_bindLambdaParams _ _ _ _ _) (ihRunU body _ _))
      | boundMethod m inst envIdx =>
          rcases h2 : classesCallMethod f m inst [] envIdx s with ⟨r2, s2⟩
          have H2 := stok_of_eq (ihCallM m inst [] envIdx s) h2
          cases r2 with
          | ok v => simp only [applyNative, hnat, h2]; exact H2
          | error er =>
              cases er with
              | err msg => simp only [applyNative, hnat, h2]; exact H2
              | fuelOut => simp only [applyNative, hnat, h2]; exact H2
      | setTimeoutC => simp only [applyNative, hnat]; exact stok_setTimeoutFn args s
      | furureThen resolved =>
          cases hh : args.head? with
          | none => simp only [applyNative, hnat, hh]; exact stok_rfl s
          | some v =>
              cases v with
              | number n =>
                  simp only [applyNative, hnat, hh]; exact stok_rfl s
              | str v0 =>
                  simp only [applyNative, hnat, hh]; exact stok_rfl s
              | bool b0 =>
                  simp only [applyNative, hnat, hh]; exact stok_rfl s
              | null =>
                  simp only [applyNative, hnat, hh]; exact stok_rfl s
              | nativeFunction cb =>
                  rcases h2 : applyNative f cb [resolved] s with ⟨r2, s2⟩
                  have H2 := stok_of_eq (ihApply cb [resolved] s) h2
                  cases r2 with
                  | error er => simp only [applyNative, hnat, hh, h2]; exact H2
                  | ok u => simp only [applyNative, hnat, hh, h2]; exact H2
              | array a0 p0 =>
                  simp only [applyNative, hnat, hh]; exact stok_rfl s
              | object a0 =>
                  simp only [applyNative, hnat, hh]; exact stok_rfl s
              | classV n0 m0 g0 st0 fl0 =>
                  simp only [applyNative, hnat, hh]; exact stok_rfl s
              | instanceV n0 a0 m0 g0 st0 =>
                  simp only [applyNative, hnat, hh]; exact stok_rfl s
              | furure i0 =>
                  simp only [applyNative, hnat, hh]; exact stok_rfl s
              | errorV m0 =>
                  simp only [applyNative, hnat, hh]; exact stok_rfl s
              | moduleV e0 d0 =>
                  simp only [applyNative, hnat, hh]; exact stok_rfl s
              | tuple vs0 =>
                  simp only [applyNative, hnat, hh]; exact stok_rfl s
              | regex p0 =>
                  simp only [applyNative, hnat, hh]; exact stok_rfl s
      | furureCatch resolved =>
          cases hh : args.head? with
          | none => simp only [applyNative, hnat, hh]; exact stok_rfl s
          | some callback =>
              cases resolved with
              | number n =>
                  simp only [applyNative, hnat, hh]; exact stok_rfl s
              | str v0 =>
                  simp only [applyNative, hnat, hh]; exact stok_rfl s
              | bool b0 =>
                  simp only [applyNative, hnat, hh]; exact stok_rfl s
              | null =>
                  simp only [applyNative, hnat, hh]; exact stok_rfl s
              | nativeFunction cb =>
                  simp only [applyNative, hnat, hh]; exact stok_rfl s
              | array a0 p0 =>
                  simp only [applyNative, hnat, hh]; exact stok_rfl s
              | object a0 =>
                  simp only [applyNative, hnat, hh]; exact stok_rfl s
              | classV n0 m0 g0 st0 fl0 =>
                  simp only [applyNative, hnat, hh]; exact stok_rfl s
              | instanceV n0 a0 m0 g0 st0 =>
                  simp only [applyNative, hnat, hh]; exact stok_rfl s
              | furure i0 =>
                  simp only [applyNative, hnat, hh]; exact stok_rfl s
              | errorV m0 =>
                  cases callback with
                  | number n =>
                      simp only [applyNative, hnat, hh]; exact stok_rfl s
                  | str v0 =>
                      simp only [applyNative, hnat, hh]; exact stok_rfl s
                  | bool b0 =>
                      simp only [applyNative, hnat, hh]; exact stok_rfl s
                  | null =>
                      simp only [applyNative, hnat, hh]; exact stok_rfl s
                  | nativeFunction cb =>
                      rcases h2 : applyNative f cb [Value.errorV m0] s with ⟨r2, s2⟩
                      have H2 := stok_of_eq (ihApply cb [Value.errorV m0] s) h2
                      cases r2 with
                      | error er => simp only [applyNative, hnat, hh, h2]; exact H2
                      | ok u => simp only [applyNative, hnat, hh, h2]; exact H2
                  | array a0 p0 =>
                      simp only [applyNative, hnat, hh]; exact stok_rfl s
                  | object a0 =>
                      simp only [applyNative, hnat, hh]; exact stok_rfl s
                  | classV n0 m0 g0 st0 fl0 =>
                      simp only [applyNative, hnat, hh]; exact stok_rfl s
                  | instanceV n0 a0 m0 g0 st0 =>
                      simp only [applyNative, hnat, hh]; exact stok_rfl s
                  | furure i0 =>
                      simp only [applyNative, hnat, hh]; exact stok_rfl s
                  | errorV m0 =>
                      simp only [applyNative, hnat, hh]; exact stok_rfl s
                  | moduleV e0 d0 =>
                      simp only [applyNative, hnat, hh]; exact stok_rfl s
                  | tuple vs0 =>
                      simp only [applyNative, hnat, hh]; exact stok_rfl s
                  | regex p0 =>
                      simp only [applyNative, hnat, hh]; exact stok_rfl s
              | moduleV e0 d0 =>
                  simp only [applyNative, hnat, hh]; exact stok_rfl s
              | tuple vs0 =>
                  simp only [applyNative, hnat, hh]; exact stok_rfl s
              | regex p0 =>
                  simp only [applyNative, hnat, hh]; exact stok_rfl s
      | furureFinally resolved =>
          cases hh : args.head? with
          | none => simp only [applyNative, hnat, hh]; exact stok_rfl s
          | some v =>
              cases v with
              | number n =>
                  simp only [applyNative, hnat, hh]; exact stok_rfl s
              | str v0 =>
                  simp only [applyNative, hnat, hh]; exact stok_rfl s
              | bool b0 =>
                  simp only [applyNative, hnat, hh]; exact stok_rfl s
              | null =>
                  simp only [applyNative, hnat, hh]; exact stok_rfl s
              | nativeFunction cb =>
                  rcases h2 : applyNative f cb [] s with ⟨r2, s2⟩
                  have H2 := stok_of_eq (ihApply cb [] s) h2
                  cases r2 with
                  | error er => simp only [applyNative, hnat, hh, h2]; exact H2
                  | ok u => simp only [applyNative, hnat, hh, h2]; exact H2
              | array a0 p0 =>
                  simp only [applyNative, hnat, hh]; exact stok_rfl s
              | object a0 =>
                  simp only [applyNative, hnat, hh]; exact stok_rfl s
              | classV n0 m0 g0 st0 fl0 =>
                  simp only [applyNative, hnat, hh]; exact stok_rfl s
              | instanceV n0 a0 m0 g0 st0 =>
                  simp only [applyNative, hnat, hh]; exact stok_rfl s
              | furure i0 =>
                  simp only [applyNative, hnat, hh]; exact stok_rfl s
              | errorV m0 =>
                  simp only [applyNative, hnat, hh]; exact stok_rfl s
              | moduleV e0 d0 =>
                  simp only [applyNative, hnat, hh]; exact stok_rfl s
              | tuple vs0 =>
                  simp only [applyNative, hnat, hh]; exact stok_rfl s
              | regex p0 =>
                  simp only [applyNative, hnat, hh]; exact stok_rfl s

theorem stepExecStmt (f : Nat)
    (ihEval : ∀ e env s, StOK s (evalExpr f e env s).2)
    (ihSeq : ∀ b env s, StOK s (execSeq f b env s).2)
    (ihWhile : ∀ c b env s, StOK s (execWhile f c b env s).2)
    (ihTry : ∀ tb cp cb env s, StOK s (runTryCatch f tb cp cb env s).2)
    (ihFin : ∀ b env s, StOK s (runFinallyBlock f b env s).2)
    (ihBuild : ∀ mem ms gs ss fs env s, StOK s (buildClassMaps f mem ms gs ss fs env s).2)
    (ihBlock : ∀ b env s, StOK s (runBlockSignals f b env s).2) :
    ∀ stmt env s, StOK s (execStmt (f + 1) stmt env s).2 := by
  intro stmt env s
  cases stmt with
  | expression e =>
      rcases h1 : evalExpr f e env s with ⟨r1, s1⟩
      have H1 := stok_of_eq (ihEval e env s) h1
      cases r1 with
      | error er => simp only [execStmt, h1]; exact H1
      | ok v => simp only [execStmt, h1]; exact H1
  | publicVar name value =>
      rcases h1 : evalExpr f value env s with ⟨r1, s1⟩
      have H1 := stok_of_eq (ihEval value env s) h1
      cases r1 with
      | error er => simp only [execStmt, h1]; exact H1
      | ok v =>
          simp only [execStmt, h1]
          exact stok_trans H1 (stok_defineVar _ _ _ _ _)
  | privateVar name value =>
      rcases h1 : evalExpr f value env s with ⟨r1, s1⟩
      have H1 := stok_of_eq (ihEval value env s) h1
      cases r1 with
      | error er => simp only [execStmt, h1]; exact H1
      | ok v =>
          simp only [execStmt, h1]
          exact stok_trans H1 (stok_defineVar _ _ _ _ _)
  | protectedVar name value =>
      rcases h1 : evalExpr f value env s with ⟨r1, s1⟩
      have H1 := stok_of_eq (ihEval value env s) h1
      cases r1 with
      | error er => simp only [execStmt, h1]; exact H1
      | ok v =>
          simp only [execStmt, h1]
          exact stok_trans H1 (stok_defineVar _ _ _ _ _)
  | function name params body returnType isAsync =>
      simp only [execStmt]
      exact stok_defineFunction _ _ _ _
  | ret e =>
      cases e with
      | some expr =>
          rcases h1 : evalExpr f expr env s with ⟨r1, s1⟩
          have H1 := stok_of_eq (ihEval expr env s) h1
          cases r1 with
          | error er => simp only [execStmt, h1]; exact H1
          | ok v => simp only [execStmt, h1]; exact H1
      | none => simp only [execStmt]; exact stok_rfl s
  | ifS condition thenBranch elseBranch =>
      rcases h1 : evalExpr f condition env s with ⟨r1, s1⟩
      have H1 := stok_of_eq (ihEval condition env s) h1
      cases r1 with
      | error er =>
          cases er with
          | fuelOut => simp only [execStmt, h1]; exact H1
          | err m =>
              simp only [execStmt, h1]
              split
              next => exact stok_trans H1 (ihSeq thenBranch env s1)
              next =>
                cases elseBranch with
                | some elseBody => exact stok_trans H1 (ihSeq elseBody env s1)
                | none => exact H1
      | ok v =>
          simp only [execStmt, h1]
          split
          next => exact stok_trans H1 (ihSeq thenBranch env s1)
          next =>
            cases elseBranch with
            | some elseBody => exact stok_trans H1 (ihSeq elseBody env s1)
            | none => exact H1
  | whileS condition body =>
      simp only [execStmt]
      exact ihWhile condition body env s
  | tryS tryBlock catchParam catchBlock finallyBlock =>
      rcases h1 : runTryCatch f tryBlock catchParam catchBlock env s with ⟨r1, s1⟩
      have H1 := stok_of_eq (ihTry tryBlock catchParam catchBlock env s) h1
      cases r1 with
      | error er => simp only [execStmt, h1]; exact H1
      | ok result =>
          cases finallyBlock with
          | none => simp only [execStmt, h1]; exact H1
          | some finallyBody =>
              rcases h2 : runFinallyBlock f finallyBody env s1 with ⟨r2, s2⟩
              have H2 := stok_trans H1 (stok_of_eq (ihFin finallyBody env s1) h2)
              cases r2 with
              | error er => simp only [execStmt, h1, h2]; exact H2
              | ok sig =>
                  cases sig with
                  | noneSig => simp only [execStmt, h1, h2]; exact H2
                  | retSig v => simp only [execStmt, h1, h2]; exact H2
                  | throwSig e => simp only [execStmt, h1, h2]; exact H2
  | clowder name base interfaces members isExported isDefault =>
      rcases h1 : buildClassMaps f members [] [] [] [] env s with ⟨r1, s1⟩
      have H1 := stok_of_eq (ihBuild members [] [] [] [] env s) h1
      cases r1 with
      | error er => simp only [execStmt, h1]; exact H1
      | ok q =>
          obtain ⟨ms, gs, ss, fs⟩ := q
          simp only [execStmt, h1]
          split
          next => exact stok_trans H1 (stok_defineVar _ _ _ _ _)
          next => exact stok_trans H1 (stok_defineVar _ _ _ _ _)
  | instinct name isExported isDefault =>
      simp only [execStmt]
      exact stok_defineVar _ _ _ _ _
  | exportS name value =>
      rcases h1 : evalExpr f value env s with ⟨r1, s1⟩
      have H1 := stok_of_eq (ihEval value env s) h1
      cases r1 with
      | error er => simp only [execStmt, h1]; exact H1
      | ok v =>
          cases name with
          | some exportName =>
              simp only [execStmt, h1]
              exact stok_trans H1 (stok_defineVar _ _ _ _ _)
          | none =>
              simp only [execStmt, h1]
              exact stok_trans H1 (stok_defineVar _ _ _ _ _)
  | throwS e =>
      rcases h1 : evalExpr f e env s with ⟨r1, s1⟩
      have H1 := stok_of_eq (ihEval e env s) h1
      cases r1 with
      | error er => simp only [execStmt, h1]; exact H1
      | ok v => simp only [execStmt, h1]; exact H1
  | nap e =>
      rcases h1 : evalExpr f e env s with ⟨r1, s1⟩
      have H1 := stok_of_eq (ihEval e env s) h1
      cases r1 with
      | error er =>
          cases er with
          | fuelOut => simp only [execStmt, h1]; exact H1
          | err m => simp only [execStmt, h1]; exact H1
      | ok v => cases v <;> simp only [execStmt, h1] <;> exact H1
  | pride name body =>
      simp only [execStmt]
      split
      next er s2 heq =>
        exact stok_trans (stok_newScope s (some env))
          (stok_of_eq (ihBlock body _ _) heq)
      next v s2 heq =>
        exact stok_trans (stok_newScope s (some env))
          (stok_of_eq (ihBlock body _ _) heq)
      next e s2 heq =>
        exact stok_trans (stok_newScope s (some env))
          (stok_of_eq (ihBlock body _ _) heq)
      next s2 heq =>
        exact stok_trans
          (stok_trans (stok_newScope s (some env)) (stok_of_eq (ihBlock body _ _) heq))
          (stok_trans (stok_allocMap s2 _) (stok_defineVar _ _ _ _ _))

theorem stepEvalExpr (f : Nat)
    (ihEval : ∀ e env s, StOK s (evalExpr f e env s).2)
    (ihArgs : ∀ es env s, StOK s (evalArgs f es env s).2)
    (ihObj : ∀ fs acc env s, StOK s (evalObjFields f fs acc env s).2)
    (ihCallU : ∀ fd av env s, StOK s (callUserFunction f fd av env s).2)
    (ihCallV : ∀ cv args env s, StOK s (callValue f cv args env s).2) :
    ∀ e env s, StOK s (evalExpr (f + 1) e env s).2 := by
  intro e env s
  cases e with
  | literal v => simp only [evalExpr]; exact stok_rfl s
  | identifier name =>
      simp only [evalExpr]
      split
      · split
        next er hg => exact stok_rfl s
        next v hg => exact stok_rfl s
        next hg => exact stok_rfl s
      · split
        next er hg => exact stok_rfl s
        next v hg => exact stok_rfl s
        next hg => exact stok_rfl s
  | tupleE values =>
      rcases h1 : evalArgs f values env s with ⟨r1, s1⟩
      have H1 := stok_of_eq (ihArgs values env s) h1
      cases r1 with
      | error er => simp only [evalExpr, h1]; exact H1
      | ok vs => simp only [evalExpr, h1]; exact H1
  | assign name value =>
      rcases h1 : evalExpr f value env s with ⟨r1, s1⟩
      have H1 := stok_of_eq (ihEval value env s) h1
      cases r1 with
      | error er => simp only [evalExpr, h1]; exact H1
      | ok assigned =>
          simp only [evalExpr, h1]
          split
      
          next e0 dflt => exact stok_trans H1 (stok_defineVar _ _ _ _ _)
          next hne =>
            rcases h2 : envAssign f s1 env name assigned with ⟨r2, s2⟩
            have H2 := stok_trans H1 (stok_of_eq (stok_envAssign f s1 env name assigned) h2)
            cases r2 with
            | error er => exact H2
            | ok b =>
                cases b with
                | true => exact H2
                | false => exact H2
  | unary operator right =>
      rcases h1 : evalExpr f right env s with ⟨r1, s1⟩
      have H1 := stok_of_eq (ihEval right env s) h1
      cases r1 with
      | error er => simp only [evalExpr, h1]; exact H1
      | ok r => simp only [evalExpr, h1]; exact H1
  | binary left operator right =>
      rcases h1 : evalExpr f left env s with ⟨r1, s1⟩
      have H1 := stok_of_eq (ihEval left env s) h1
      cases r1 with
      | error er => simp only [evalExpr, h1]; exact H1
      | ok l =>
          rcases h2 : evalExpr f right env s1 with ⟨r2, s2⟩
          have H2 := stok_trans H1 (stok_of_eq (ihEval right env s1) h2)
          cases r2 with
          | error er => simp only [evalExpr, h1, h2]; exact H2
          | ok r => simp only [evalExpr, h1, h2]; exact H2
  | call callee arguments =>
      simp only [evalExpr]
      split
      next name =>
        cases hf : envGetFunction f s env name with
        | error er => simp only [hf]; exact stok_rfl s
        | ok o =>
            cases o with
            | some func =>
                simp only [hf]
                rcases h1 : evalArgs f arguments env s with ⟨r1, s1⟩
                have H1 := stok_of_eq (ihArgs arguments env s) h1
                cases r1 with
                | error er => exact H1
                | ok argVals => exact stok_trans H1 (ihCallU func argVals env s1)
            | none =>
                simp only [hf]
                cases hg : envGet f s env name false with
                | error er => simp only [hg]; exact stok_rfl s
                | ok o2 =>
                    cases o2 with
                    | none => simp only [hg]; exact stok_rfl s
                    | some calleeVal =>
                        simp only [hg]
                        exact ihCallV calleeVal arguments env s
      next hne =>
        rcases h1 : evalExpr f callee env s with ⟨r1, s1⟩
        have H1 := stok_of_eq (ihEval callee env s) h1
        cases r1 with
        | error er => exact H1
        | ok calleeVal => exact stok_trans H1 (ihCallV calleeVal arguments env s1)
  | grouping inner =>
      simp only [evalExpr]
      exact ihEval inner env s
  | arrayLiteral values =>
      rcases h1 : evalArgs f values env s with ⟨r1, s1⟩
      have H1 := stok_of_eq (ihArgs values env s) h1
      cases r1 with
      | error er => simp only [evalExpr, h1]; exact H1
      | ok vs =>
          simp only [evalExpr, h1]
          exact stok_trans H1 (stok_trans (stok_allocArr s1 vs) (stok_createArrayProto _))
  | index object idx =>
      rcases h1 : evalExpr f object env s with ⟨r1, s1⟩
      have H1 := stok_of_eq (ihEval object env s) h1
      cases r1 with
      | error er => simp only [evalExpr, h1]; exact H1
      | ok obj =>
          rcases h2 : evalExpr f idx env s1 with ⟨r2, s2⟩
          have H2 := stok_trans H1 (stok_of_eq (ihEval idx env s1) h2)
          cases r2 with
          | error er => simp only [evalExpr, h1, h2]; exact H2
          | ok idxVal =>
              simp only [evalExpr, h1, h2]
              cases idxVal with
              | number n0 =>
                  cases obj with
                  | number n0 =>
                      exact H2
                  | str v0 =>
                      exact H2
                  | bool b0 =>
                      exact H2
                  | null =>
                      exact H2
                  | nativeFunction fid0 =>
                      exact H2
                  | array addr0 p0 =>
                      cases harr : s2.arrays[addr0]? with
                      | some vs => simp only [harr]; exact H2
                      | none => simp only [harr]; exact H2
                  | object addr0 =>
                      exact H2
                  | classV n1 m1 g1 st1 fl1 =>
                      exact H2
                  | instanceV n1 a1 m1 g1 st1 =>
                      exact H2
                  | furure i0 =>
                      exact H2
                  | errorV m0 =>
                      exact H2
                  | moduleV e0 d0 =>
                      exact H2
                  | tuple vs0 =>
                      exact H2
                  | regex p0 =>
                      exact H2
              | str v0 =>
                  exact H2
              | bool b0 =>
                  exact H2
              | null =>
                  exact H2
              | nativeFunction fid0 =>
                  exact H2
              | array addr0 p0 =>
                  exact H2
              | object addr0 =>
                  exact H2
              | classV n1 m1 g1 st1 fl1 =>
                  exact H2
              | instanceV n1 a1 m1 g1 st1 =>
                  exact H2
              | furure i0 =>
                  exact H2
              | errorV m0 =>
                  exact H2
              | moduleV e0 d0 =>
                  exact H2
              | tuple vs0 =>
                  exact H2
              | regex p0 =>
                  exact H2
  | indexAssign object idx value =>
      rcases h1 : evalExpr f object env s with ⟨r1, s1⟩
      have H1 := stok_of_eq (ihEval object env s) h1
      cases r1 with
      | error er => simp only [evalExpr, h1]; exact H1
      | ok obj =>
          rcases h2 : evalExpr f idx env s1 with ⟨r2, s2⟩
          have H2 := stok_trans H1 (stok_of_eq (ihEval idx env s1) h2)
          cases r2 with
          | error er => simp only [evalExpr, h1, h2]; exact H2
          | ok idxVal =>
              rcases h3 : evalExpr f value env s2 with ⟨r3, s3⟩
              have H3 := stok_trans H2 (stok_of_eq (ihEval value env s2) h3)
              cases r3 with
              | error er => simp only [evalExpr, h1, h2, h3]; exact H3
              | ok val =>
                  simp only [evalExpr, h1, h2, h3]
                  cases idxVal with
              | number n0 =>
                  cases obj with
                  | number n0 =>
                      exact H3
                  | str v0 =>
                      exact H3
                  | bool b0 =>
                      exact H3
                  | null =>
                      exact H3
                  | nativeFunction fid0 =>
                      exact H3
                  | array addr0 p0 =>
                      cases harr : s3.arrays[addr0]? with
                      | some vs =>
                          simp only [harr]
                          split
                          next hle => exact H3
                          next hgt => exact stok_trans H3 (stok_setArr _ _ _)
                      | none => simp only [harr]; exact H3
                  | object addr0 =>
                      exact H3
                  | classV n1 m1 g1 st1 fl1 =>
                      exact H3
                  | instanceV n1 a1 m1 g1 st1 =>
                      exact H3
                  | furure i0 =>
                      exact H3
                  | errorV m0 =>
                      exact H3
                  | moduleV e0 d0 =>
                      exact H3
                  | tuple vs0 =>
                      exact H3
                  | regex p0 =>
                      exact H3
              | str v0 =>
                  exact H3
              | bool b0 =>
                  exact H3
              | null =>
                  exact H3
              | nativeFunction fid0 =>
                  exact H3
              | array addr0 p0 =>
                  exact H3
              | object addr0 =>
                  exact H3
              | classV n1 m1 g1 st1 fl1 =>
                  exact H3
              | instanceV n1 a1 m1 g1 st1 =>
                  exact H3
              | furure i0 =>
                  exact H3
              | errorV m0 =>
                  exact H3
              | moduleV e0 d0 =>
                  exact H3
              | tuple vs0 =>
                  exact H3
              | regex p0 =>
                  exact H3
  | objectLiteral fields =>
      rcases h1 : evalObjFields f fields [] env s with ⟨r1, s1⟩
      have H1 := stok_of_eq (ihObj fields [] env s) h1
      cases r1 with
      | error er => simp only [evalExpr, h1]; exact H1
      | ok m =>
          simp only [evalExpr, h1]
          exact stok_trans H1 (stok_allocMap s1 m)
  | get object name =>
      rcases h1 : evalExpr f object env s with ⟨r1, s1⟩
      have H1 := stok_of_eq (ihEval object env s) h1
      cases r1 with
      | error er => simp only [evalExpr, h1]; exact H1
      | ok target =>
          simp only [evalExpr, h1]
          split
          next addr => exact H1
          next addr proto =>
            by_cases hlen : name = "length"
            · simp only [if_pos hlen]
              cases harr : s1.arrays[addr]? with
              | some vs => simp only [harr]; exact H1
              | none => simp only [harr]; exact H1
            · simp only [if_neg hlen]
              exact H1
          next inner =>
            split
            next => exact stok_trans H1 (stok_allocNative _ _)
            next => exact stok_trans H1 (stok_allocNative _ _)
            next => exact stok_trans H1 (stok_allocNative _ _)
            next => exact H1
          next => exact H1
  | set object name value =>
      rcases h1 : evalExpr f object env s with ⟨r1, s1⟩
      have H1 := stok_of_eq (ihEval object env s) h1
      cases r1 with
      | error er => simp only [evalExpr, h1]; exact H1
      | ok target =>
          rcases h2 : evalExpr f value env s1 with ⟨r2, s2⟩
          have H2 := stok_trans H1 (stok_of_eq (ihEval value env s1) h2)
          cases r2 with
          | error er => simp only [evalExpr, h1, h2]; exact H2
          | ok val =>
              simp only [evalExpr, h1, h2]
              cases target with
              | number n0 =>
                  exact H2
              | str v0 =>
                  exact H2
              | bool b0 =>
                  exact H2
              | null =>
                  exact H2
              | nativeFunction fid0 =>
                  exact H2
              | array addr0 p0 =>
                  exact H2
              | object addr0 =>
                  cases hm : s2.maps[addr0]? with
                  | some m => simp only [hm]; exact stok_trans H2 (stok_setMap _ _ _)
                  | none => simp only [hm]; exact H2
              | classV n1 m1 g1 st1 fl1 =>
                  exact H2
              | instanceV n1 a1 m1 g1 st1 =>
                  exact H2
              | furure i0 =>
                  exact H2
              | errorV m0 =>
                  exact H2
              | moduleV e0 d0 =>
                  exact H2
              | tuple vs0 =>
                  exact H2
              | regex p0 =>
                  exact H2
  | lambda params body =>
      simp only [evalExpr]
      exact stok_allocNative s _
  | postIncrement name =>
      cases hg : envGet f s env name false with
      | error er => simp only [evalExpr, hg]; exact stok_rfl s
      | ok o =>
          cases o with
          | none => simp only [evalExpr, hg]; exact stok_rfl s
          | some current =>
              simp only [evalExpr, hg]
              cases current with
              | number n0 =>
                  rcases h2 : envAssign f s env name (.number (n0 + 1)) with ⟨r2, s2⟩
                  have H2 := stok_of_eq (stok_envAssign f s env name (.number (n0 + 1))) h2
                  cases r2 with
                  | error er => simp only [h2]; exact H2
                  | ok b => simp only [h2]; exact H2
              | str v0 =>
                  exact stok_rfl s
              | bool b0 =>
                  exact stok_rfl s
              | null =>
                  exact stok_rfl s
              | nativeFunction fid0 =>
                  exact stok_rfl s
              | array addr0 p0 =>
                  exact stok_rfl s
              | object addr0 =>
                  exact stok_rfl s
              | classV n1 m1 g1 st1 fl1 =>
                  exact stok_rfl s
              | instanceV n1 a1 m1 g1 st1 =>
                  exact stok_rfl s
              | furure i0 =>
                  exact stok_rfl s
              | errorV m0 =>
                  exact stok_rfl s
              | moduleV e0 d0 =>
                  exact stok_rfl s
              | tuple vs0 =>
                  exact stok_rfl s
              | regex p0 =>
                  exact stok_rfl s
  | postDecrement name =>
      cases hg : envGet f s env name false with
      | error er => simp only [evalExpr, hg]; exact stok_rfl s
      | ok o =>
          cases o with
          | none => simp only [evalExpr, hg]; exact stok_rfl s
          | some current =>
              simp only [evalExpr, hg]
              cases current with
              | number n0 =>
                  rcases h2 : envAssign f s env name (.number (n0 - 1)) with ⟨r2, s2⟩
                  have H2 := stok_of_eq (stok_envAssign f s env name (.number (n0 - 1))) h2
                  cases r2 with
                  | error er => simp only [h2]; exact H2
                  | ok b => simp only [h2]; exact H2
              | str v0 =>
                  exact stok_rfl s
              | bool b0 =>
                  exact stok_rfl s
              | null =>
                  exact stok_rfl s
              | nativeFunction fid0 =>
                  exact stok_rfl s
              | array addr0 p0 =>
                  exact stok_rfl s
              | object addr0 =>
                  exact stok_rfl s
              | classV n1 m1 g1 st1 fl1 =>
                  exact stok_rfl s
              | instanceV n1 a1 m1 g1 st1 =>
                  exact stok_rfl s
              | furure i0 =>
                  exact stok_rfl s
              | errorV m0 =>
                  exact stok_rfl s
              | moduleV e0 d0 =>
                  exact stok_rfl s
              | tuple vs0 =>
                  exact stok_rfl s
              | regex p0 =>
                  exact stok_rfl s
  | newE className arguments =>
      simp only [evalExpr]
      exact ihEval (.call (.identifier className) arguments) env s
  | tap path =>
      rcases h1 : evalExpr f path env s with ⟨r1, s1⟩
      have H1 := stok_of_eq (ihEval path env s) h1
      cases r1 with
      | error er => simp only [evalExpr, h1]; exact H1
      | ok v => cases v <;> simp only [evalExpr, h1] <;> exact H1
  | logical left operator right =>
      rcases h1 : evalExpr f left env s with ⟨r1, s1⟩
      have H1 := stok_of_eq (ihEval left env s) h1
      cases r1 with
      | error er => simp only [evalExpr, h1]; exact H1
      | ok leftVal =>
          simp only [evalExpr, h1]
          split
          next hlex =>
            split
            next ht => exact H1
            next ht => exact stok_trans H1 (ihEval right env s1)
          next hlex =>
            split
            next ht => exact H1
            next ht => exact stok_trans H1 (ihEval right env s1)
          next hne1 hne2 => exact H1

/-- Interpreter-wide invariant: every interpreter entry point only grows the
event log with `register` events (never `fired`) and preserves the
timer-table/registration invariant. -/
theorem interpStOK (f : Nat) :
    (∀ e env s, StOK s (evalExpr f e env s).2) ∧
    (∀ es env s, StOK s (evalArgs f es env s).2) ∧
    (∀ fs acc env s, StOK s (evalObjFields f fs acc env s).2) ∧
    (∀ cv args env s, StOK s (callValue f cv args env s).2) ∧
    (∀ fd av env s, StOK s (callUserFunction f fd av env s).2) ∧
    (∀ ps i av env s, StOK s (bindUserParams f ps i av env s).2) ∧
    (∀ b env s, StOK s (runUserBody f b env s).2) ∧
    (∀ fid args s, StOK s (applyNative f fid args s).2) ∧
    (∀ stmt env s, StOK s (execStmt f stmt env s).2) ∧
    (∀ b env s, StOK s (execSeq f b env s).2) ∧
    (∀ c b env s, StOK s (execWhile f c b env s).2) ∧
    (∀ tb cp cb env s, StOK s (runTryCatch f tb cp cb env s).2) ∧
    (∀ cp cb errv env s, StOK s (runCatchClause f cp cb errv env s).2) ∧
    (∀ b env s, StOK s (runCatchBody f b env s).2) ∧
    (∀ b env s, StOK s (runFinallyBlock f b env s).2) ∧
    (∀ b env s, StOK s (runBlockSignals f b env s).2) ∧
    (∀ mem ms gs ss fs env s, StOK s (buildClassMaps f mem ms gs ss fs env s).2) ∧
    (∀ cn args env s, StOK s (constructInstance f cn args env s).2) ∧
    (∀ inst name env s, StOK s (getInstanceProperty f inst name env s).2) ∧
    (∀ fd inst av env s, StOK s (classesCallMethodValue f fd inst av env s).2) ∧
    (∀ fd inst args env s, StOK s (classesCallMethod f fd inst args env s).2) ∧
    (∀ ps i args env s, StOK s (bindMethodParams f ps i args env s).2) ∧
    (∀ b env s, StOK s (runMethodBody f b env s).2) := by
  induction f with
  | zero =>
      refine ⟨?_, ?_, ?_, ?_, ?_, ?_, ?_, ?_, ?_, ?_, ?_, ?_, ?_, ?_, ?_, ?_,
        ?_, ?_, ?_, ?_, ?_, ?_, ?_⟩ <;> intros <;> exact stok_rfl _
  | succ f ih =>
      obtain ⟨ihE, ihA, ihO, ihCV, ihCU, ihBU, ihRU, ihAN, ihES, ihSq, ihW,
        ihT, ihCC, ihCB, ihFB, ihBS, ihBC, ihCI, ihGP, ihMV, ihCM, ihBM, ihRM⟩ := ih
      exact ⟨stepEvalExpr f ihE ihA ihO ihCU ihCV,
        stepEvalArgs f ihE ihA,
        stepEvalObjFields f ihE ihO,
        stepCallValue f ihA ihAN,
        stepCallUserFunction f ihBU ihRU,
        stepBindUserParams f ihE ihBU,
        stepRunUserBody f ihES ihRU,
        stepApplyNative f ihRU ihCM ihAN,
        stepExecStmt f ihE ihSq ihW ihT ihFB ihBC ihBS,
        stepExecSeq f ihES ihSq,
        stepExecWhile f ihE ihSq ihW,
        stepRunTryCatch f ihES ihT ihCC,
        stepRunCatchClause f ihCB,
        stepRunCatchBody f ihES ihCB,
        stepRunFinallyBlock f ihES ihFB,
        stepRunBlockSignals f ihES ihBS,
        stepBuildClassMaps f ihE ihBC,
        stepConstructInstance f ihA ihMV,
        stepGetInstanceProperty f ihCM,
        stepClassesCallMethodValue f ihRM,
        stepClassesCallMethod f ihBM ihRM,
        stepBindMethodParams f ihE ihBM,
        stepRunMethodBody f ihES ihRM⟩

/-- `exec_stmt` alone never appends `fired` events and preserves the timer
registration invariant. -/
theorem execStmt_stOK (f : Nat) (stmt : Stmt) (env : Nat) (s : State) :
    StOK s (execStmt f stmt env s).2 :=
  (interpStOK f).2.2.2.2.2.2.2.2.1 stmt env s

theorem tlistGet_mem {l : List (Nat × TimerEntry)} {k : Nat} {e : TimerEntry}
    (h : tlistGet l k = some e) : (k, e) ∈ l := by
  induction l with
  | nil => simp [tlistGet] at h
  | cons kv rest ih =>
      obtain ⟨k0, v0⟩ := kv
      by_cases h0 : k0 = k
      · subst h0
        rw [tlistGet, if_pos rfl] at h
        cases h
        exact List.mem_cons_self _ _
      · rw [tlistGet, if_neg h0] at h
        exact List.mem_cons_of_mem _ (ih h)

theorem tlistRemove_fst_mem {l : List (Nat × TimerEntry)} {k : Nat} {e : TimerEntry}
    (h : (tlistRemove l k).1 = some e) : (k, e) ∈ l := by
  induction l with
  | nil => simp [tlistRemove] at h
  | cons kv rest ih =>
      obtain ⟨k0, v0⟩ := kv
      by_cases h0 : k0 = k
      · subst h0
        rw [tlistRemove, if_pos rfl] at h
        cases h
        exact List.mem_cons_self _ _
      · rw [tlistRemove] at h
        simp only [if_neg h0] at h
        exact List.mem_cons_of_mem _ (ih h)

theorem mem_tlistRemove_snd {l : List (Nat × TimerEntry)} {k : Nat}
    {p : Nat × TimerEntry} (h : p ∈ (tlistRemove l k).2) : p ∈ l := by
  induction l with
  | nil => simp [tlistRemove] at h
  | cons kv rest ih =>
      obtain ⟨k0, v0⟩ := kv
      by_cases h0 : k0 = k
      · subst h0
        rw [tlistRemove, if_pos rfl] at h
        exact List.mem_cons_of_mem _ h
      · rw [tlistRemove] at h
        simp only [if_neg h0, List.mem_cons] at h
        rcases h with h | h
        · exact by simp [h]
        · exact List.mem_cons_of_mem _ (ih h)

theorem firedAfterReg_append_noFired {l t : List Event}
    (h : FiredAfterReg l) (ht : ∀ ev ∈ t, ev.isFired = false) :
    FiredAfterReg (l ++ t) := by
  intro i id fid hi
  by_cases hlt : i < l.length
  · rw [List.getElem?_append_left hlt] at hi
    obtain ⟨j, hj, hjl⟩ := h i id fid hi
    refine ⟨j, hj, ?_⟩
    rw [List.getElem?_append_left (lt_trans hj hlt)]
    exact hjl
  · push_neg at hlt
    rw [List.getElem?_append_right hlt] at hi
    have hmem : Event.fired id fid ∈ t := List.getElem?_mem hi
    have := ht _ hmem
    simp [Event.isFired] at this

theorem firedAfterReg_append_fired {l : List Event} {id fid : Nat}
    (h : FiredAfterReg l) (hm : Event.register id fid ∈ l) :
    FiredAfterReg (l ++ [Event.fired id fid]) := by
  intro i id' fid' hi
  by_cases hlt : i < l.length
  · rw [List.getElem?_append_left hlt] at hi
    obtain ⟨j, hj, hjl⟩ := h i id' fid' hi
    refine ⟨j, hj, ?_⟩
    rw [List.getElem?_append_left (lt_trans hj hlt)]
    exact hjl
  · push_neg at hlt
    rw [List.getElem?_append_right hlt] at hi
    have hmem := List.getElem?_mem hi
    simp only [List.mem_singleton] at hmem
    obtain ⟨hid, hfid⟩ : id' = id ∧ fid' = fid := by
      cases hmem; exact ⟨rfl, rfl⟩
    subst hid; subst hfid
    obtain ⟨j, hjl⟩ := List.mem_iff_getElem?.mp hm
    have hjlen : j < l.length := by
      rcases List.getElem?_eq_some.mp hjl with ⟨hlen, _⟩
      exact hlen
    refine ⟨j, lt_of_lt_of_le hjlen hlt, ?_⟩
    rw [List.getElem?_append_left hjlen]
    exact hjl

theorem good_of_stok {s s' : State} (h : StOK s s') (g : GoodS s) : GoodS s' := by
  obtain ⟨⟨t, hlog, hnf⟩, hreg⟩ := h
  exact ⟨hreg g.1, by rw [hlog]; exact firedAfterReg_append_noFired g.2 hnf⟩

theorem applyNative_stOK (f : Nat) (fid : Nat) (args : List Value) (s : State) :
    StOK s (applyNative f fid args s).2 :=
  (interpStOK f).2.2.2.2.2.2.2.1 fid args s

theorem pump_good (f : Nat) :
    ∀ msgs s, GoodS s → GoodS (pumpTimers f msgs s).2 := by
  induction f with
  | zero => intro msgs s g; exact g
  | succ f ih =>
      intro msgs s g
      cases msgs with
      | nil => exact g
      | cons m rest =>
          cases m with
          | timeout id =>
              rcases hrem : tlistRemove s.timers id with ⟨entryOpt, timers'⟩
              have hsub : ∀ p ∈ timers', p ∈ s.timers := by
                intro p hp
                exact mem_tlistRemove_snd (l := s.timers) (k := id) (by rw [hrem]; exact hp)
              have g1 : GoodS { s with timers := timers' } := by
                refine ⟨?_, g.2⟩
                intro p hp
                exact g.1 p (hsub p hp)
              cases entryOpt with
              | none => simp only [pumpTimers, hrem]; exact ih rest _ g1
              | some entry =>
                  cases hcb : entry.callback with
                  | nativeFunction fcb =>
                      have hment : (id, entry) ∈ s.timers := tlistRemove_fst_mem (by rw [hrem])
                      obtain ⟨fid, hcb', hmreg⟩ := g.1 _ hment
                      have hfe : fid = fcb := by rw [hcb] at hcb'; cases hcb'; rfl
                      subst hfe
                      have g2 : GoodS
                          { s with
                              timers := timers',
                              log := s.log ++ [Event.fired id fid] } := by
                        constructor
                        · intro p hp
                          obtain ⟨fid2, hc2, hm2⟩ := g.1 p (hsub p hp)
                          exact ⟨fid2, hc2, by simp [hm2]⟩
                        · exact firedAfterReg_append_fired g.2 hmreg
                      rcases h2 : applyNative f fid []
                          { s with
                              timers := timers',
                              log := s.log ++ [Event.fired id fid] }
                        with ⟨r2, s3⟩
                      have g3 : GoodS s3 := by
                        have hg := good_of_stok (applyNative_stOK f fid [] _) g2
                        rw [h2] at hg
                        exact hg
                      cases r2 with
                      | error er => simp only [pumpTimers, hrem, hcb, h2]; exact g3
                      | ok u =>
                          simp only [pumpTimers, hrem, hcb, h2]
                          exact ih rest s3 g3
                  | number n0 =>
                      simp only [pumpTimers, hrem, hcb]; exact ih rest _ g1
                  | str v0 =>
                      simp only [pumpTimers, hrem, hcb]; exact ih rest _ g1
                  | bool b0 =>
                      simp only [pumpTimers, hrem, hcb]; exact ih rest _ g1
                  | null =>
                      simp only [pumpTimers, hrem, hcb]; exact ih rest _ g1
                  | array addr0 p0 =>
                      simp only [pumpTimers, hrem, hcb]; exact ih rest _ g1
                  | object addr0 =>
                      simp only [pumpTimers, hrem, hcb]; exact ih rest _ g1
                  | classV n1 m1 g1x st1 fl1 =>
                      simp only [pumpTimers, hrem, hcb]; exact ih rest _ g1
                  | instanceV n1 a1 m1 g1x st1 =>
                      simp only [pumpTimers, hrem, hcb]; exact ih rest _ g1
                  | furure i0 =>
                      simp only [pumpTimers, hrem, hcb]; exact ih rest _ g1
                  | errorV m0 =>
                      simp only [pumpTimers, hrem, hcb]; exact ih rest _ g1
                  | moduleV e0 d0 =>
                      simp only [pumpTimers, hrem, hcb]; exact ih rest _ g1
                  | tuple vs0 =>
                      simp only [pumpTimers, hrem, hcb]; exact ih rest _ g1
                  | regex p0 =>
                      simp only [pumpTimers, hrem, hcb]; exact ih rest _ g1
          | intervalTick id =>
              cases hget : tlistGet s.timers id with
              | none => simp only [pumpTimers, hget]; exact ih rest s g
              | some entry =>
                  cases hcb : entry.callback with
                  | nativeFunction fcb =>
                      have hment : (id, entry) ∈ s.timers := tlistGet_mem hget
                      obtain ⟨fid, hcb', hmreg⟩ := g.1 _ hment
                      have hfe : fid = fcb := by rw [hcb] at hcb'; cases hcb'; rfl
                      subst hfe
                      have g2 : GoodS { s with log := s.log ++ [Event.fired id fid] } := by
                        constructor
                        · intro p hp
                          obtain ⟨fid2, hc2, hm2⟩ := g.1 p hp
                          exact ⟨fid2, hc2, by simp [hm2]⟩
                        · exact firedAfterReg_append_fired g.2 hmreg
                      rcases h2 : applyNative f fid []
                          { s with log := s.log ++ [Event.fired id fid] }
                        with ⟨r2, s3⟩
                      have g3 : GoodS s3 := by
                        have hg := good_of_stok (applyNative_stOK f fid [] _) g2
                        rw [h2] at hg
                        exact hg
                      cases r2 with
                      | error er => simp only [pumpTimers, hget, hcb, h2]; exact g3
                      | ok u =>
                          simp only [pumpTimers, hget, hcb, h2]
                          exact ih rest s3 g3
                  | number n0 =>
                      simp only [pumpTimers, hget, hcb]; exact ih rest s g
                  | str v0 =>
                      simp only [pumpTimers, hget, hcb]; exact ih rest s g
                  | bool b0 =>
                      simp only [pumpTimers, hget, hcb]; exact ih rest s g
                  | null =>
                      simp only [pumpTimers, hget, hcb]; exact ih rest s g
                  | array addr0 p0 =>
                      simp only [pumpTimers, hget, hcb]; exact ih rest s g
                  | object addr0 =>
                      simp only [pumpTimers, hget, hcb]; exact ih rest s g
                  | classV n1 m1 g1x st1 fl1 =>
                      simp only [pumpTimers, hget, hcb]; exact ih rest s g
                  | instanceV n1 a1 m1 g1x st1 =>
                      simp only [pumpTimers, hget, hcb]; exact ih rest s g
                  | furure i0 =>
                      simp only [pumpTimers, hget, hcb]; exact ih rest s g
                  | errorV m0 =>
                      simp only [pumpTimers, hget, hcb]; exact ih rest s g
                  | moduleV e0 d0 =>
                      simp only [pumpTimers, hget, hcb]; exact ih rest s g
                  | tuple vs0 =>
                      simp only [pumpTimers, hget, hcb]; exact ih rest s g
                  | regex p0 =>
                      simp only [pumpTimers, hget, hcb]; exact ih rest s g

theorem runLoop_good (f : Nat) :
    ∀ stmts sched env s, GoodS s → GoodS (runLoop f stmts sched env s).2 := by
  induction f with
  | zero => intro stmts sched env s g; exact g
  | succ f ih =>
      intro stmts sched env s g
      cases stmts with
      | nil =>
          simp only [runLoop]
          exact pump_good f _ s g
      | cons stmt rest =>
          rcases h1 : execStmt f stmt env s with ⟨r1, s1⟩
          have g1 : GoodS s1 := by
            have hg := good_of_stok (execStmt_stOK f stmt env s) g
            rw [h1] at hg
            exact hg
          cases r1 with
          | error er => simp only [runLoop, h1]; exact g1
          | ok sig =>
              cases sig with
              | retSig v =>
                  simp only [runLoop, h1]
                  exact pump_good f _ s1 g1
              | throwSig v => simp only [runLoop, h1]; exact g1
              | noneSig =>
                  rcases h2 : pumpTimers f ((sched.head?).getD []) s1 with ⟨r2, s2⟩
                  have g2 : GoodS s2 := by
                    have hg := pump_good f ((sched.head?).getD []) s1 g1
                    rw [h2] at hg
                    exact hg
                  cases r2 with
                  | error er => simp only [runLoop, h1, h2]; exact g2
                  | ok u =>
                      simp only [runLoop, h1, h2]
                      exact ih rest sched.tail env s2 g2

/-- C9: timer callbacks are never invoked synchronously inline.
(a) `setTimeout(f, ms)` with a function and a numeric delay only allocates
the id, registers the entry, records the sleeper message and the ghost
`register` event, and returns the id — the callback is not invoked;
(b) executing any statement appends no `fired` event to the trace
(callbacks are only invoked by the pump, which logs `fired`);
(c) along the whole run loop (statements interleaved with timer drains,
under any delivery schedule), every `fired id f` event in the trace is
strictly preceded by its `register id f` event: the callback runs strictly
after the statement that registered it. -/
theorem c9_timer_dispatch :
    (∀ (cfid : Nat) (q : Rat) (s : State),
        setTimeoutFn [.nativeFunction cfid, .number q] s =
          (.ok (.number (s.nextTimerId : Nat)),
           { s with
               nextTimerId := s.nextTimerId + 1,
               timers := tlistPut s.timers s.nextTimerId
                 { callback := .nativeFunction cfid, isInterval := false,
                   cancelFlag := none },
               inflight := s.inflight ++ [.timeout s.nextTimerId],
               log := s.log ++ [.register s.nextTimerId cfid] })) ∧
    (∀ f stmt env s, ∃ t, (execStmt f stmt env s).2.log = s.log ++ t ∧
        ∀ ev ∈ t, ev.isFired = false) ∧
    (∀ f stmts sched env s, GoodS s →
        FiredAfterReg (runLoop f stmts sched env s).2.log) := by
  refine ⟨?_, ?_, ?_⟩
  · intro cfid q s
    rfl
  · intro f stmt env s
    exact (execStmt_stOK f stmt env s).1
  · intro f stmts sched env s g
    exact (runLoop_good f stmts sched env s g).2

/-- C9 witness: the base world is coherent, a concrete `setTimeout`
registration performs exactly the inert state delta, and the run-loop trace
from the base world is well-formed. -/
theorem c9_witness :
    GoodS baseState ∧
    (setTimeoutFn [.nativeFunction 0, .number 0] baseState =
      (.ok (.number (1 : Nat)),
       { baseState with
           nextTimerId := 2,
           timers :=
             [(1,
               { callback := .nativeFunction 0
                 isInterval := false
                 cancelFlag := none })],
           inflight := [.timeout 1],
           log := [.register 1 0] })) ∧
    FiredAfterReg (runLoop 1 [] [] 0 baseState).2.log := by
  have hgood : GoodS baseState := by
    constructor
    · intro p hp
      simp [baseState] at hp
    · intro i id fid hi
      simp [baseState] at hi
  refine ⟨hgood, ?_, c9_timer_dispatch.2.2 1 [] [] 0 baseState hgood⟩
  have h := c9_timer_dispatch.1 0 0 baseState
  simpa [baseState, tlistPut] using h

/-- C1 witness: two instances of `clowder C { pride arr = [1] }` share
backing array cell `0`. -/
theorem c1_witness :
    classCState.arrays[0]? = some [Value.number 1] ∧
    constructInstance 2 "C" [] 0 classCState =
      (.ok (.instanceV "C" 0 [] [] []),
       (classCState.allocMap [("arr", Value.array 0 [])]).2) ∧
    getInstanceProperty 1 (Value.instanceV "C" 0 [] [] []) "arr" 0
        (((classCState.allocMap [("arr", Value.array 0 [])]).2).allocMap
          [("arr", Value.array 0 [])]).2 =
      (.ok (.array 0 []),
       (((classCState.allocMap [("arr", Value.array 0 [])]).2).allocMap
          [("arr", Value.array 0 [])]).2) ∧
    getInstanceProperty 1 (Value.instanceV "C" 1 [] [] []) "arr" 0
        (((classCState.allocMap [("arr", Value.array 0 [])]).2).allocMap
          [("arr", Value.array 0 [])]).2 =
      (.ok (.array 0 []),
       (((classCState.allocMap [("arr", Value.array 0 [])]).2).allocMap
          [("arr", Value.array 0 [])]).2) := by
  have H := c1_class_field_defaults_alias 0 0 "C" "C" 0 classCState [] [] []
      [("arr", Value.array 0 [])] "arr" 0 [] [Value.number 1] (Value.number 2)
      rfl rfl rfl rfl rfl
  exact ⟨rfl, H.1, H.2.2.2.1.1, H.2.2.2.1.2⟩

/-- C10 witness: the bound closure for method `m(a)` on a concrete
instance, and its invocation binding `a` to `Null`. -/
theorem c10_witness :
    getInstanceProperty 1 (.instanceV "M" 0 [("m", methodM)] [] []) "m" 0 instMState =
      (.ok (.nativeFunction 0),
       (instMState.allocNative
          (.boundMethod methodM (.instanceV "" 0 [("m", methodM)] [] []) 0)).2) ∧
    classesCallMethod 3 methodM (.instanceV "M" 0 [("m", methodM)] [] []) [] 0 instMState =
      runMethodBody 2 [.ret (some (.identifier "a"))] instMState.scopes.length
        (bindNullParams [.mk "a" none none] instMState.scopes.length
          (defineVar ((instMState.newScope (some 0)).2) instMState.scopes.length "this"
            (.instanceV "M" 0 [("m", methodM)] [] []) .publicA)) := by
  have H := c10_bound_method_discards_args 0 2 "M" 0 [("m", methodM)] [] [] "m" methodM 0
      instMState rfl rfl rfl
  exact ⟨H.1, H.2.2 [.mk "a" none none] [.ret (some (.identifier "a"))] none false
    (.instanceV "M" 0 [("m", methodM)] [] []) 0 instMState (by decide)⟩
